import Mathlib

/-!
# Volumio2 `controllers/core-musiclibrary.js`

A shallow embedding of the music-library controller: the hash key helper, the ingestion
routine `addLibraryItem`, the path navigator `getLibraryObject`, `flattenArrayToCSV` and the
sorted index builder, followed by theorems about them.

Modelling conventions
* A JavaScript object is an association list in property insertion order.  This is the order
  `Object.keys` reports as long as no property name is a canonical array index; the names
  this program uses (43-character hash keys, `type:hash` references, field, table and index
  names) never are.  Only own properties are modelled, not members inherited from
  `Object.prototype`.
* The library itself is typed: five tables of entities, an entity being its own scalar
  fields together with the key lists of its `children` and `parents` objects.
  `Library.toJS` gives the JavaScript object that `getLibraryObject` walks.
* Numbers are integers.
* A thrown exception (or a rejected promise) is `Outcome.thrown`.
* `getLibraryObject` is recursive without a syntactic bound, so it carries a fuel argument;
  `Outcome.outOfFuel` is not a result of the program.
* The libraries the file requires (`crypto`, `sort-on`, `fast.js`) are not part of the
  repository; what the controller needs of them is collected in `Libs`.
-/

namespace CoreMusicLibrary

/-! ## JavaScript values -/

/-- The JavaScript values that occur in the library and in query results. -/
inductive JSVal where
  | undefined
  | null
  | num (n : Int)
  | str (s : String)
  | arr (xs : List JSVal)
  | obj (kvs : List (String × JSVal))

/-- The exceptions the controller can raise: a `TypeError` of the runtime, or the
`Error('getLibraryObject cannot navigate path: ' + step ...)` built in `getLibraryObject`
(the inspected object snapshot in its message is not modelled). -/
inductive JSError where
  | typeError
  | navigation (step : String)

/-- The result of running a piece of the program. -/
inductive Outcome (α : Type) where
  | value (v : α)
  | thrown (e : JSError)
  | outOfFuel

namespace Outcome

/-- Sequencing: the first exception (or fuel exhaustion) wins. -/
def bind {α β : Type} : Outcome α → (α → Outcome β) → Outcome β
  | value v, f => f v
  | thrown e, _ => thrown e
  | outOfFuel, _ => outOfFuel

/-- Apply a function to the produced value. -/
def map {α β : Type} (f : α → β) : Outcome α → Outcome β
  | value v => value (f v)
  | thrown e => thrown e
  | outOfFuel => outOfFuel

/-- True when the outcome is a thrown exception. -/
def isThrown {α : Type} : Outcome α → Bool
  | thrown _ => true
  | _ => false

end Outcome

/-- The loop of `libFast.map(array, fn)`: calls `fn` on the elements from left to right and
collects the results; an exception in a call ends the loop. -/
def mapOutcome {α β : Type} (f : α → Outcome β) : List α → Outcome (List β)
  | [] => .value []
  | x :: xs =>
    match f x with
    | .value y =>
      match mapOutcome f xs with
      | .value ys => .value (y :: ys)
      | .thrown e => .thrown e
      | .outOfFuel => .outOfFuel
    | .thrown e => .thrown e
    | .outOfFuel => .outOfFuel

/-! ## Objects as ordered association lists -/

/-- Value of `o[k]` for an own property, `none` when `k` is not a property of `o`. -/
def objGet {β : Type} : List (String × β) → String → Option β
  | [], _ => none
  | (k', v) :: rest, k => if k' = k then some v else objGet rest k

/-- The test `k in o`. -/
def objHas {β : Type} : List (String × β) → String → Bool
  | [], _ => false
  | (k', _) :: rest, k => if k' = k then true else objHas rest k

/-- The assignment `o[k] = v`: an existing property keeps its position, a new one is
appended. -/
def objSet {β : Type} : List (String × β) → String → β → List (String × β)
  | [], k, v => [(k, v)]
  | (k', v') :: rest, k, v => if k' = k then (k', v) :: rest else (k', v') :: objSet rest k v

/-- An in-place update of the object stored at `o[k]`. -/
def objModify {β : Type} : List (String × β) → String → (β → β) → List (String × β)
  | [], _, _ => []
  | (k', v') :: rest, k, f =>
    if k' = k then (k', f v') :: rest else (k', v') :: objModify rest k f

/-- The property names, `Object.keys(o)`. -/
def objKeys {β : Type} (o : List (String × β)) : List String := o.map Prod.fst

/-- The assignment `set[k] = null` on an edge set, of which only the keys matter. -/
def keyInsert (ks : List String) (k : String) : List String :=
  if k ∈ ks then ks else ks ++ [k]

/-! ## JavaScript primitives used by the controller -/

/-- Number of UTF-16 code units of a string, the `length` of a JavaScript string. -/
def utf16Length (s : String) : Nat :=
  (s.data.map (fun c => if c.toNat < 65536 then 1 else 2)).sum

/-- Search of the property named `k` among the elements `xs`, whose indices start at `i`:
an element is the property named by the decimal text of its index. -/
def arrayGetFrom {α : Type} : List α → Nat → String → Option α
  | [], _, _ => none
  | x :: rest, i, k => if toString i = k then some x else arrayGetFrom rest (i + 1) k

/-- Read of the property named `k` on an array, `none` when no index has that name. -/
def arrayGet {α : Type} (xs : List α) (k : String) : Option α := arrayGetFrom xs 0 k

mutual
/-- The string conversion `ToString` behind the `+` operator. -/
def jsToString : JSVal → String
  | .undefined => "undefined"
  | .null => "null"
  | .num n => toString n
  | .str s => s
  | .arr xs => jsJoin xs
  | .obj _ => "[object Object]"
/-- The text of `Array.prototype.join` with the default separator. -/
def jsJoin : List JSVal → String
  | [] => ""
  | [x] => jsJoinItem x
  | x :: y :: rest => jsJoinItem x ++ "," ++ jsJoin (y :: rest)
/-- One element of a joined array: `undefined` and `null` give the empty text. -/
def jsJoinItem : JSVal → String
  | .undefined => ""
  | .null => ""
  | .num n => toString n
  | .str s => s
  | .arr xs => jsJoin xs
  | .obj _ => "[object Object]"
end

/-- The property read `v[k]`.  On `undefined` and `null` it throws a `TypeError`; a missing
property reads as `undefined`.  (On a string only `length` and the characters of the Basic
Multilingual Plane are modelled.) -/
def getProp : JSVal → String → Outcome JSVal
  | .undefined, _ => .thrown .typeError
  | .null, _ => .thrown .typeError
  | .num _, _ => .value .undefined
  | .str s, k =>
    if k = "length" then .value (.num (utf16Length s))
    else .value (((arrayGet s.data k).map (fun c => JSVal.str (String.singleton c))).getD .undefined)
  | .arr xs, k =>
    if k = "length" then .value (.num xs.length)
    else .value ((arrayGet xs k).getD .undefined)
  | .obj kvs, k => .value ((objGet kvs k).getD .undefined)

/-- The call `Object.keys(v)` (ES2015: primitives are coerced, `undefined` and `null`
throw). -/
def objectKeys : JSVal → Outcome (List String)
  | .undefined => .thrown .typeError
  | .null => .thrown .typeError
  | .num _ => .value []
  | .str s => .value ((List.range (utf16Length s)).map toString)
  | .arr xs => .value ((List.range xs.length).map toString)
  | .obj kvs => .value (objKeys kvs)

/-- The call `s.indexOf(':')`, `none` standing for `-1`. -/
def indexOfColon (s : String) : Option Nat :=
  if ':' ∈ s.data then some (s.data.indexOf ':') else none

/-- The call `s.slice(0, i)`. -/
def sliceTo (s : String) (i : Nat) : String := String.mk (s.data.take i)

/-- The call `s.slice(i)`. -/
def sliceFrom (s : String) (i : Nat) : String := String.mk (s.data.drop i)

/-! ## External libraries -/

/-- A row of the unsorted array built in `generateSortedIndex`. -/
structure SortRow where
  sortvalue : JSVal
  uid : String
  datavalues : List (String × JSVal)

/-- An entry of a listing returned by `generateSortedIndex`. -/
structure IndexEntry where
  uid : String
  datavalues : List (String × JSVal)

/-- What the controller uses of the libraries it requires.
* `sha256` is `crypto.createHash('sha256').update(input, 'utf8').digest()`: 32 bytes;
* `sortOn rows` is `libSortOn(rows, 'sortvalue')`, which returns a sorted copy, hence a
  rearrangement of the rows;
* `keyGtZero k` is the comparison `k > 0` for a property name `k`, which `fast.js` passes as
  the index when it reduces over a non-array object. -/
structure Libs where
  sha256 : String → List (Fin 256)
  sha256_length : ∀ s, (sha256 s).length = 32
  sortOn : List SortRow → List SortRow
  sortOn_perm : ∀ rows, (sortOn rows).Perm rows
  keyGtZero : String → Bool

/-! ## Helper functions of the source file -/

/-- The 64 characters of standard base64. -/
def base64Alphabet : List Char :=
  "ABCDEFGHIJKLMNOPQRSTUVWXYZabcdefghijklmnopqrstuvwxyz0123456789+/".data

/-- The base64 character of a 6-bit value. -/
def base64Char (n : Nat) : Char := base64Alphabet.getD n 'A'

/-- Standard base64 with `=` padding, `digest('base64')`. -/
def base64Encode : List (Fin 256) → List Char
  | a :: b :: c :: rest =>
    base64Char (a.val / 4) :: base64Char (a.val % 4 * 16 + b.val / 16)
      :: base64Char (b.val % 16 * 4 + c.val / 64) :: base64Char (c.val % 64)
      :: base64Encode rest
  | [a, b] =>
    [base64Char (a.val / 4), base64Char (a.val % 4 * 16 + b.val / 16),
      base64Char (b.val % 16 * 4), '=']
  | [a] => [base64Char (a.val / 4), base64Char (a.val % 4 * 16), '=', '=']
  | [] => []

/-- The function `libBase64Url.escape`: `+` becomes `-`, `/` becomes `_`, `=` is removed. -/
def base64UrlEscape (cs : List Char) : List Char :=
  ((cs.map (fun c => if c = '+' then '-' else c)).map
    (fun c => if c = '/' then '_' else c)).filter (fun c => c ≠ '=')

/-- The characters the source comment promises in a hash key: letters, digits, `-`, `_`. -/
def isUrlSafeChar (c : Char) : Bool :=
  c.isAlphanum || c = '-' || c = '_'

/-- The function `convertStringToHashkey(input)`; `none` is the input `null`. -/
def convertStringToHashkey (L : Libs) (input : Option String) : String :=
  let input := match input with
    | none => ""
    | some s => s
  String.mk (base64UrlEscape (base64Encode (L.sha256 input)))

/-- The operator `a + b` where one side is known to be a string. -/
def jsConcat (a b : JSVal) : JSVal := .str (jsToString a ++ jsToString b)

mutual
/-- The function `flattenArrayToCSV(arrayInput)`.  `typeof` is `"object"` for arrays, plain
objects and `null`; `libFast.reduce` throws a `TypeError` on `null`. -/
def flattenArrayToCSV (L : Libs) : JSVal → Outcome JSVal
  | .arr xs => reduceArray L xs 0 (.str "")
  | .obj kvs => reduceObject L kvs (.str "")
  | .null => .thrown .typeError
  | .undefined => .value .undefined
  | .num n => .value (.num n)
  | .str s => .value (.str s)
/-- The loop of `libFast.reduce` over an array, from index `nIndex` with accumulator
`sReturn`, running the callback of `flattenArrayToCSV`. -/
def reduceArray (L : Libs) : List JSVal → Nat → JSVal → Outcome JSVal
  | [], _, sReturn => .value sReturn
  | curEntry :: rest, nIndex, sReturn =>
    match flattenArrayToCSV L curEntry with
    | .value flat =>
      reduceArray L rest (nIndex + 1)
        (if nIndex > 0 then jsConcat (jsConcat sReturn (.str ", ")) flat else flat)
    | .thrown e => .thrown e
    | .outOfFuel => .outOfFuel
/-- The loop of `libFast.reduce` over the properties of a plain object; the callback
receives the property name as its index. -/
def reduceObject (L : Libs) : List (String × JSVal) → JSVal → Outcome JSVal
  | [], sReturn => .value sReturn
  | (key, curEntry) :: rest, sReturn =>
    match flattenArrayToCSV L curEntry with
    | .value flat =>
      reduceObject L rest
        (if L.keyGtZero key then jsConcat (jsConcat sReturn (.str ", ")) flat else flat)
    | .thrown e => .thrown e
    | .outOfFuel => .outOfFuel
end

/-! ## The library -/

/-- An entity of the library: its own scalar properties in insertion order, and the keys of
its `children` and `parents` objects (every value stored there is `null`). -/
structure Entity where
  fields : List (String × JSVal)
  children : List String
  parents : List String

/-- A table of the library: entities by hash key. -/
abbrev Table := List (String × Entity)

/-- The object `self.library`. -/
structure Library where
  genre : Table
  artist : Table
  album : Table
  track : Table
  item : Table
  index : List (String × JSVal)

/-- The library as `rebuildLibrary` sets it up before populating it. -/
def emptyLibrary : Library :=
  { genre := [], artist := [], album := [], track := [], item := [], index := [] }

namespace Entity

/-- The assignment `entity['children'][key] = null`. -/
def addChild (key : String) (e : Entity) : Entity :=
  { e with children := keyInsert e.children key }

/-- The assignment `entity['parents'][key] = null`. -/
def addParent (key : String) (e : Entity) : Entity :=
  { e with parents := keyInsert e.parents key }

/-- The object a genre, artist or album is created as. -/
def named (name key type : String) : Entity :=
  { fields := [("name", .str name), ("id", .str key), ("type", .str type)],
    children := [], parents := [] }

end Entity

/-- A track record as `populateLibraryFromTracklist` reads it from a track list. -/
structure TrackRecord where
  service : String
  uri : String
  title : String
  album : String
  artists : List String
  genres : List String
  tracknumber : JSVal
  date : JSVal

/-- Body of the inner loop of `addLibraryItem` for the genre named `genreName`. -/
def genreStep (L : Libs) (curArtistKey : String) (library : Library) (genreName : String) :
    Library :=
  let curGenreKey := convertStringToHashkey L (some genreName)
  let library :=
    if objHas library.genre curGenreKey then library
    else { library with
      genre := objSet library.genre curGenreKey (Entity.named genreName curGenreKey "genre") }
  let library := { library with
    genre := objModify library.genre curGenreKey (Entity.addChild ("artist:" ++ curArtistKey)) }
  { library with
    artist := objModify library.artist curArtistKey (Entity.addParent ("genre:" ++ curGenreKey)) }

/-- Body of the outer loop of `addLibraryItem` for the artist named `artistName`. -/
def artistStep (L : Libs) (curAlbumKey : String) (arrayGenres : List String)
    (library : Library) (artistName : String) : Library :=
  let curArtistKey := convertStringToHashkey L (some artistName)
  let library :=
    if objHas library.artist curArtistKey then library
    else { library with
      artist := objSet library.artist curArtistKey
        (Entity.named artistName curArtistKey "artist") }
  let library := { library with
    artist := objModify library.artist curArtistKey (Entity.addChild ("album:" ++ curAlbumKey)) }
  let library := { library with
    album := objModify library.album curAlbumKey (Entity.addParent ("artist:" ++ curArtistKey)) }
  arrayGenres.foldl (genreStep L curArtistKey) library

/-- The text of `arrayArtists[0]` in a concatenation: `undefined` for an empty array. -/
def firstArtistText (arrayArtists : List String) : String :=
  match arrayArtists with
  | [] => "undefined"
  | a :: _ => a

/-- The key of the album in `addLibraryItem`. -/
def albumKey (L : Libs) (sAlbum : String) (arrayArtists : List String) : String :=
  if sAlbum = "Greatest Hits" then
    convertStringToHashkey L (some (firstArtistText arrayArtists ++ sAlbum))
  else
    convertStringToHashkey L (some sAlbum)

/-- The method `addLibraryItem`. -/
def addLibraryItem (L : Libs) (library : Library) (sService sUri sTitle sAlbum : String)
    (arrayArtists arrayGenres : List String) (nTrackNumber dateTrackDate : JSVal) : Library :=
  let curItemKey := convertStringToHashkey L (some (sService ++ sUri))
  let library := { library with
    item := objSet library.item curItemKey
      { fields := [("id", .str curItemKey), ("type", .str "item"),
          ("service", .str sService), ("uri", .str sUri)],
        children := [], parents := [] } }
  let curTrackKey := convertStringToHashkey L (some (sAlbum ++ sTitle))
  let library :=
    if objHas library.track curTrackKey then library
    else { library with
      track := objSet library.track curTrackKey
        { fields := [("name", .str sTitle), ("id", .str curTrackKey), ("type", .str "track"),
            ("tracknumber", nTrackNumber), ("date", dateTrackDate)],
          children := [], parents := [] } }
  let library := { library with
    track := objModify library.track curTrackKey (Entity.addChild ("item:" ++ curItemKey)) }
  let library := { library with
    item := objModify library.item curItemKey (Entity.addParent ("track:" ++ curTrackKey)) }
  let curAlbumKey := albumKey L sAlbum arrayArtists
  let library :=
    if objHas library.album curAlbumKey then library
    else { library with
      album := objSet library.album curAlbumKey (Entity.named sAlbum curAlbumKey "album") }
  let library := { library with
    album := objModify library.album curAlbumKey (Entity.addChild ("track:" ++ curTrackKey)) }
  let library := { library with
    track := objModify library.track curTrackKey (Entity.addParent ("album:" ++ curAlbumKey)) }
  arrayArtists.foldl (artistStep L curAlbumKey arrayGenres) library

/-- The call of `addLibraryItem` that `populateLibraryFromTracklist` makes for a record. -/
def ingest (L : Libs) (library : Library) (curTrack : TrackRecord) : Library :=
  addLibraryItem L library curTrack.service curTrack.uri curTrack.title curTrack.album
    curTrack.artists curTrack.genres curTrack.tracknumber curTrack.date

/-- The method `populateLibraryFromTracklist`: every record of the list is ingested in
order. -/
def populateLibraryFromTracklist (L : Libs) (library : Library)
    (arrayTrackList : List TrackRecord) : Library :=
  arrayTrackList.foldl (ingest L) library

/-! ## The library as a JavaScript object -/

/-- An edge set as the object it is. -/
def keySetToJS (ks : List String) : JSVal := .obj (ks.map (fun k => (k, JSVal.null)))

/-- An entity as the object it is. -/
def Entity.toJS (e : Entity) : JSVal :=
  .obj (e.fields ++ [("children", keySetToJS e.children), ("parents", keySetToJS e.parents)])

/-- A table as the object it is. -/
def tableToJS (t : Table) : JSVal := .obj (t.map (fun kv => (kv.1, kv.2.toJS)))

/-- The library as the object it is, the tables in the order `rebuildLibrary` creates
them. -/
def Library.toJS (library : Library) : JSVal :=
  .obj [("genre", tableToJS library.genre), ("artist", tableToJS library.artist),
    ("album", tableToJS library.album), ("track", tableToJS library.track),
    ("item", tableToJS library.item), ("index", .obj library.index)]

/-! ## Navigation and indexes -/

/-- The method `getLibraryObject(objSource, sPath)`, with `library` for `self.library`. -/
def getLibraryObject (library : JSVal) : Nat → JSVal → String → Outcome JSVal
  | 0, _, _ => .outOfFuel
  | fuel + 1, objSource, sPath =>
    match indexOfColon sPath with
    | none =>
      match getProp objSource sPath with
      | .thrown _ => .thrown (.navigation sPath)
      | r => r
    | some i =>
      let curStep := sliceTo sPath i
      let sNewPath := sliceFrom sPath (i + 1)
      if curStep = "#" then
        (objectKeys objSource).bind fun keys =>
          (mapOutcome (fun curUid =>
            getLibraryObject library fuel library (curUid ++ ":" ++ sNewPath)) keys).map
            JSVal.arr
      else if sliceTo curStep 1 = "#" then
        (objectKeys objSource).bind fun keys =>
          (getProp (.arr (keys.map JSVal.str)) (sliceFrom curStep 1)).bind fun picked =>
            getLibraryObject library fuel library (jsToString picked ++ ":" ++ sNewPath)
      else
        match getProp objSource curStep with
        | .thrown _ => .thrown (.navigation curStep)
        | .value objCurStep => getLibraryObject library fuel objCurStep sNewPath
        | .outOfFuel => .outOfFuel

/-- The loop of `generateSortedIndex` that fills `curDataValue` for one uid. -/
def dataValues (L : Libs) (library : JSVal) (fuel : Nat) (curUid : String)
    (objDataFields : List (String × String)) :
    List String → List (String × JSVal) → Outcome (List (String × JSVal))
  | [], curDataValue => .value curDataValue
  | curDataField :: rest, curDataValue =>
    ((getLibraryObject library fuel library
        (curUid ++ ":" ++ jsToString
          (((objGet objDataFields curDataField).map JSVal.str).getD .undefined))).bind
      (flattenArrayToCSV L)).bind fun v =>
        dataValues L library fuel curUid objDataFields rest (objSet curDataValue curDataField v)

/-- The row `generateSortedIndex` builds for one uid. -/
def sortRow (L : Libs) (library : JSVal) (fuel : Nat) (sSortBy : String)
    (objDataFields : List (String × String)) (curUid : String) : Outcome SortRow :=
  ((getLibraryObject library fuel library (curUid ++ ":" ++ sSortBy)).bind
    (flattenArrayToCSV L)).bind fun curSortValue =>
      (dataValues L library fuel curUid objDataFields (objKeys objDataFields) []).map
        fun curDataValue =>
          { sortvalue := curSortValue, uid := curUid, datavalues := curDataValue }

/-- The method `generateSortedIndex(arrayUids, sSortBy, objDataFields)`; a rejected promise
is a thrown outcome. -/
def generateSortedIndex (L : Libs) (library : JSVal) (fuel : Nat) (arrayUids : List String)
    (sSortBy : String) (objDataFields : List (String × String)) : Outcome (List IndexEntry) :=
  (mapOutcome (sortRow L library fuel sSortBy objDataFields) arrayUids).map
    fun arrayUnsorted =>
      (L.sortOn arrayUnsorted).map
        fun curEntry => { uid := curEntry.uid, datavalues := curEntry.datavalues }

/-- An element of `self.arrayIndexDefinitions`. -/
structure IndexDefinition where
  name : String
  table : String
  sortby : String
  datafields : List (String × String)

/-- The list `self.arrayIndexDefinitions`. -/
def arrayIndexDefinitions : List IndexDefinition :=
  [ { name := "Genres by Name", table := "genre", sortby := "name",
      datafields := [("name", "name")] },
    { name := "Artists by Name", table := "artist", sortby := "name",
      datafields := [("name", "name"), ("genres", "parents:#:name")] },
    { name := "Albums by Name", table := "album", sortby := "name",
      datafields := [("name", "name"), ("artists", "parents:#:name")] },
    { name := "Albums by Artist", table := "album", sortby := "parents:#:name",
      datafields := [("name", "name"), ("artists", "parents:#:name")] },
    { name := "Tracks by Name", table := "track", sortby := "name",
      datafields := [("name", "name"), ("album", "parents:#0:name"),
        ("artists", "parents:#0:parents:#:name")] } ]

/-- The definition named `Tracks by Name`. -/
def tracksByName : IndexDefinition :=
  { name := "Tracks by Name", table := "track", sortby := "name",
    datafields := [("name", "name"), ("album", "parents:#0:name"),
      ("artists", "parents:#0:parents:#:name")] }

/-- The uids `rebuildSingleIndex` lists for a table: `sTableName + ':' + curKey` for every
key of the table. -/
def tableUids (sTableName : String) (t : Table) : List String :=
  (objKeys t).map (fun curKey => sTableName ++ ":" ++ curKey)

/-! ## Predicates used in the statements -/

/-- A key made of URL-safe characters only, as every hash key is. -/
def IsKey (k : String) : Prop := ∀ c ∈ k.data, isUrlSafeChar c = true

/-- An entity whose own fields do not shadow its edge sets. -/
def Entity.Plain (e : Entity) : Prop :=
  objGet e.fields "children" = none ∧ objGet e.fields "parents" = none

/-- The record of the end-to-end example of the specification. -/
def exampleRecord : TrackRecord :=
  { service := "s1", uri := "u1", title := "Song", album := "Album1",
    artists := ["Artist1"], genres := ["Rock"], tracknumber := .num 1, date := .str "2020" }

/-- The guarded creation `if (!(k in t)) { t[k] = e }`. -/
def ensure (t : Table) (k : String) (e : Entity) : Table :=
  if objHas t k then t else objSet t k e

/-- Every key of the table is made of URL-safe characters. -/
def KeysOK (t : Table) : Prop := ∀ k e, objGet t k = some e → IsKey k

/-- No entity of the table has a field that shadows its edge sets. -/
def PlainTable (t : Table) : Prop := ∀ k e, objGet t k = some e → e.Plain

/-- Every parent reference of an entity of `t` is `pre` followed by a key of `t'`. -/
def ParentsInto (pre : String) (t t' : Table) : Prop :=
  ∀ k e, objGet t k = some e → ∀ p ∈ e.parents, ∃ k', p = pre ++ k' ∧ (objGet t' k').isSome

/-- What ingestion maintains about genres, artists and albums: keys are hash keys, the
parents of an artist are existing genres and the parents of an album are existing
artists. -/
structure Linked (library : Library) : Prop where
  genreKeys : KeysOK library.genre
  artistKeys : KeysOK library.artist
  albumKeys : KeysOK library.album
  artistPlain : PlainTable library.artist
  albumPlain : PlainTable library.album
  artistParents : ParentsInto "genre:" library.artist library.genre
  albumParents : ParentsInto "artist:" library.album library.artist

/-- The library when the outer loop body reaches its inner loop. -/
def artistLinked (L : Libs) (curAlbumKey : String) (library : Library) (a : String) :
    Library :=
  { library with
    artist := objModify (ensure library.artist (convertStringToHashkey L (some a))
        (Entity.named a (convertStringToHashkey L (some a)) "artist"))
      (convertStringToHashkey L (some a)) (Entity.addChild ("album:" ++ curAlbumKey)),
    album := objModify library.album curAlbumKey
      (Entity.addParent ("artist:" ++ convertStringToHashkey L (some a))) }

/-- The library when `addLibraryItem` reaches its outer loop. -/
def trackLinked (L : Libs) (library : Library) (sService sUri sTitle sAlbum : String)
    (arrayArtists : List String) (nTrackNumber dateTrackDate : JSVal) : Library :=
  { library with
    item := objModify (objSet library.item (convertStringToHashkey L (some (sService ++ sUri)))
        { fields := [("id", .str (convertStringToHashkey L (some (sService ++ sUri)))),
            ("type", .str "item"), ("service", .str sService), ("uri", .str sUri)],
          children := [], parents := [] })
      (convertStringToHashkey L (some (sService ++ sUri)))
      (Entity.addParent ("track:" ++ convertStringToHashkey L (some (sAlbum ++ sTitle)))),
    track := objModify (objModify (ensure library.track
          (convertStringToHashkey L (some (sAlbum ++ sTitle)))
          { fields := [("name", .str sTitle),
              ("id", .str (convertStringToHashkey L (some (sAlbum ++ sTitle)))),
              ("type", .str "track"), ("tracknumber", nTrackNumber), ("date", dateTrackDate)],
            children := [], parents := [] })
        (convertStringToHashkey L (some (sAlbum ++ sTitle)))
        (Entity.addChild ("item:" ++ convertStringToHashkey L (some (sService ++ sUri)))))
      (convertStringToHashkey L (some (sAlbum ++ sTitle)))
      (Entity.addParent ("album:" ++ albumKey L sAlbum arrayArtists)),
    album := objModify (ensure library.album (albumKey L sAlbum arrayArtists)
        (Entity.named sAlbum (albumKey L sAlbum arrayArtists) "album"))
      (albumKey L sAlbum arrayArtists)
      (Entity.addChild ("track:" ++ convertStringToHashkey L (some (sAlbum ++ sTitle)))) }

/-- A stand-in for the external libraries, to run the model on concrete inputs: the digest
is the first 32 characters of the text (code points modulo 256, padded with zero bytes),
the sort leaves the rows in place, no property name counts as a positive number. -/
def sampleLibs : Libs :=
  { sha256 := fun s =>
      (List.range 32).map (fun i => Fin.ofNat ((s.data.getD i (Char.ofNat 0)).toNat)),
    sha256_length := fun _ => by simp,
    sortOn := fun rows => rows,
    sortOn_perm := fun rows => List.Perm.refl rows,
    keyGtZero := fun _ => false }

/-- The artist entity that ingesting `exampleRecord` creates. -/
def exampleArtist (L : Libs) : Entity :=
  { fields := [("name", .str "Artist1"),
      ("id", .str (convertStringToHashkey L (some "Artist1"))), ("type", .str "artist")],
    children := ["album:" ++ convertStringToHashkey L (some "Album1")],
    parents := ["genre:" ++ convertStringToHashkey L (some "Rock")] }

/-- The album entity that ingesting `exampleRecord` creates. -/
def exampleAlbum (L : Libs) : Entity :=
  { fields := [("name", .str "Album1"),
      ("id", .str (convertStringToHashkey L (some "Album1"))), ("type", .str "album")],
    children := ["track:" ++ convertStringToHashkey L (some ("Album1" ++ "Song"))],
    parents := ["artist:" ++ convertStringToHashkey L (some "Artist1")] }

/-- The genre entity that ingesting `exampleRecord` creates. -/
def exampleGenre (L : Libs) : Entity :=
  { fields := [("name", .str "Rock"),
      ("id", .str (convertStringToHashkey L (some "Rock"))), ("type", .str "genre")],
    children := ["artist:" ++ convertStringToHashkey L (some "Artist1")],
    parents := [] }

/-- The track entity that ingesting `exampleRecord` creates. -/
def exampleTrack (L : Libs) : Entity :=
  { fields := [("name", .str "Song"),
      ("id", .str (convertStringToHashkey L (some ("Album1" ++ "Song")))),
      ("type", .str "track"), ("tracknumber", .num 1), ("date", .str "2020")],
    children := ["item:" ++ convertStringToHashkey L (some ("s1" ++ "u1"))],
    parents := ["album:" ++ convertStringToHashkey L (some "Album1")] }

/-- The item entity that ingesting `exampleRecord` creates. -/
def exampleItem (L : Libs) : Entity :=
  { fields := [("id", .str (convertStringToHashkey L (some ("s1" ++ "u1")))),
      ("type", .str "item"), ("service", .str "s1"), ("uri", .str "u1")],
    children := [],
    parents := ["track:" ++ convertStringToHashkey L (some ("Album1" ++ "Song"))] }

/-- The library with exactly the five entities of the end-to-end example. -/
def exampleLibrary (L : Libs) : Library :=
  { genre := [(convertStringToHashkey L (some "Rock"), exampleGenre L)],
    artist := [(convertStringToHashkey L (some "Artist1"), exampleArtist L)],
    album := [(convertStringToHashkey L (some "Album1"), exampleAlbum L)],
    track := [(convertStringToHashkey L (some ("Album1" ++ "Song")), exampleTrack L)],
    item := [(convertStringToHashkey L (some ("s1" ++ "u1")), exampleItem L)],
    index := [] }

/-- The row `generateSortedIndex` builds for the track of the end-to-end example. -/
def exampleRow (L : Libs) : SortRow :=
  { sortvalue := .str "Song",
    uid := "track" ++ ":" ++ convertStringToHashkey L (some ("Album1" ++ "Song")),
    datavalues := [("name", .str "Song"), ("album", .str "Album1"),
      ("artists", .str "Artist1")] }

/-- The entity `e'` is `e` with keys possibly added at the end of its edge sets. -/
def EntityGrows (e e' : Entity) : Prop :=
  e'.fields = e.fields ∧ e.children <+: e'.children ∧ e.parents <+: e'.parents

/-- Every entity of `t` is still in `t'` under its key, with at most keys added to its edge
sets. -/
def TableGrows (t t' : Table) : Prop :=
  ∀ k e, objGet t k = some e → ∃ e', objGet t' k = some e' ∧ EntityGrows e e'

/-- The entity under `k` has `c` among its children. -/
def ChildIn (t : Table) (k c : String) : Prop :=
  ∃ e, objGet t k = some e ∧ c ∈ e.children

/-- The entity under `k` has `p` among its parents. -/
def ParentIn (t : Table) (k p : String) : Prop :=
  ∃ e, objGet t k = some e ∧ p ∈ e.parents

/-- The table has an entity under `k`. -/
def Present (t : Table) (k : String) : Prop := ∃ e, objGet t k = some e

/-- The genre, artist and album tables of `s'` extend those of `s`. -/
structure LibGrows (s s' : Library) : Prop where
  genre : TableGrows s.genre s'.genre
  artist : TableGrows s.artist s'.artist
  album : TableGrows s.album s'.album

/-- The links the inner loop body makes for genre `g` and artist key `ka` are present. -/
def GenreDone (L : Libs) (ka : String) (g : String) (s : Library) : Prop :=
  ChildIn s.genre (convertStringToHashkey L (some g)) ("artist:" ++ ka) ∧
  ParentIn s.artist ka ("genre:" ++ convertStringToHashkey L (some g))

/-- The links the outer loop body makes for artist `a` are present. -/
def ArtistDone (L : Libs) (kal : String) (gs : List String) (a : String) (s : Library) : Prop :=
  ChildIn s.artist (convertStringToHashkey L (some a)) ("album:" ++ kal) ∧
  ParentIn s.album kal ("artist:" ++ convertStringToHashkey L (some a)) ∧
  ∀ g ∈ gs, GenreDone L (convertStringToHashkey L (some a)) g s

/-- The example record again, with another track number and date. -/
def exampleReissue : TrackRecord :=
  { service := "s1", uri := "u1", title := "Song", album := "Album1",
    artists := ["Artist1"], genres := ["Rock"], tracknumber := .num 7, date := .str "1999" }

/-- A record of a compilation named `Greatest Hits` by the artist `Abba`. -/
def hitsRecordA : TrackRecord :=
  { service := "s1", uri := "u1", title := "Waterloo", album := "Greatest Hits",
    artists := ["Abba"], genres := ["Pop"], tracknumber := .num 1, date := .str "1975" }

/-- A record of a compilation named `Greatest Hits` by the artist `Queen`. -/
def hitsRecordB : TrackRecord :=
  { service := "s1", uri := "u2", title := "Bicycle Race", album := "Greatest Hits",
    artists := ["Queen"], genres := ["Rock"], tracknumber := .num 4, date := .str "1981" }

/-- The item of `exampleRecord` again (same service and uri), under another title. -/
def exampleRetitled : TrackRecord :=
  { service := "s1", uri := "u1", title := "Other", album := "Album1",
    artists := ["Artist1"], genres := ["Rock"], tracknumber := .num 2, date := .str "2020" }

/-- A nested sequence of strings, the input `flattenArrayToCSV` is documented for. -/
inductive Nested where
  | leaf (s : String)
  | seq (xs : List Nested)

mutual
/-- The nested sequence as a JavaScript value: strings and arrays. -/
def Nested.toJS : Nested → JSVal
  | .leaf s => .str s
  | .seq xs => .arr (Nested.toJSList xs)
/-- The elements of a sequence as JavaScript values. -/
def Nested.toJSList : List Nested → List JSVal
  | [] => []
  | x :: xs => x.toJS :: Nested.toJSList xs
end

mutual
/-- The leaves in depth-first, left-to-right order. -/
def Nested.leaves : Nested → List String
  | .leaf s => [s]
  | .seq xs => Nested.leavesList xs
/-- The leaves of the elements of a sequence, in order. -/
def Nested.leavesList : List Nested → List String
  | [] => []
  | x :: xs => x.leaves ++ Nested.leavesList xs
end

/-- The texts joined with a comma and a space. -/
def joinCSV : List String → String
  | [] => ""
  | [x] => x
  | x :: y :: rest => x ++ ", " ++ joinCSV (y :: rest)

/-- The reference definition of the specification: the leaves, depth first and in order,
joined with a comma and a space. -/
def flattenReference (t : Nested) : String := joinCSV t.leaves

mutual
/-- No sequence in the tree, the tree itself included, is empty. -/
def Nested.solid : Nested → Bool
  | .leaf _ => true
  | .seq xs => !xs.isEmpty && Nested.solidList xs
/-- Every element of the list is solid. -/
def Nested.solidList : List Nested → Bool
  | [] => true
  | x :: xs => x.solid && Nested.solidList xs
end

/-! ## The service: readiness, browsing, loading and rebuilding -/

/-- The reason a promise is rejected with: a value handed to `reject` by the controller or
by an external collaborator, an exception thrown inside a handler, or the
`new Error(message + cause)` that the failure handlers of load and rebuild throw. -/
inductive Reason where
  | given (v : JSVal)
  | raised (e : JSError)
  | error (message : String) (cause : Reason)

/-- The state of a promise.  (`outOfFuel` is not a state of the program, see
`getLibraryObject`.) -/
inductive Promise (α : Type) where
  | pending
  | fulfilled (v : α)
  | rejected (reason : Reason)
  | outOfFuel

/-- A synchronous computation run inside a `then` handler: its value fulfils the promise,
an exception rejects it. -/
def Promise.ofOutcome {α : Type} : Outcome α → Promise α
  | .value v => .fulfilled v
  | .thrown e => .rejected (.raised e)
  | .outOfFuel => .outOfFuel

/-- The mutable state of a `CoreMusicLibrary` object: `self.library` and the state of
`self.libraryReady`. -/
structure Controller where
  library : JSVal
  libraryReady : Promise Unit

/-- What `browseLibrary` resolves to: a listing, or an object of the library (`null` for an
item). -/
inductive BrowseResult where
  | entries (listing : List IndexEntry)
  | object (v : JSVal)

/-- The expression `sUid.split(':')[0]`. -/
def uidKind (sUid : String) : String :=
  match indexOfColon sUid with
  | none => sUid
  | some i => sliceTo sUid i

/-- The data fields `browseLibrary` projects for the children of an object of the given
kind, and the sort field it falls back on. -/
def browseView (sKind : String) : List (String × String) × Option String :=
  if sKind = "genre" then
    ([("name", "name"), ("genres", "parents:#:name")], some "name")
  else if sKind = "artist" then
    ([("name", "name"), ("artists", "parents:#:name"), ("date", "children:#0:date")],
      some "date")
  else if sKind = "album" then
    ([("name", "name"), ("album", "parents:#0:name"), ("artists", "parents:#0:parents:#:name"),
      ("tracknumber", "tracknumber"), ("date", "date")], some "tracknumber")
  else if sKind = "track" then
    ([("service", "service"), ("uri", "uri")], some "service")
  else ([], none)

/-- The sort field after `if (!sSortBy) { sSortBy = ... }`, as the text it has in
`curUid + ':' + sSortBy`; `none` is an argument that was not passed. -/
def effectiveSortBy (sSortBy : Option String) (fallback : Option String) : String :=
  match sSortBy with
  | some s => if s = "" then fallback.getD "" else s
  | none => fallback.getD "undefined"

/-- The handler that `browseLibrary` runs once the library is ready. -/
def browseReady (L : Libs) (library : JSVal) (fuel : Nat) (sUid : String)
    (sSortBy : Option String) : Outcome BrowseResult :=
  if sUid = "" then
    .value (.entries (arrayIndexDefinitions.map fun curEntry =>
      { uid := "index:" ++ curEntry.name, datavalues := [("name", .str curEntry.name)] }))
  else if uidKind sUid = "index" then
    (getLibraryObject library fuel library sUid).map BrowseResult.object
  else if uidKind sUid = "item" then
    .value (.object .null)
  else
    (getLibraryObject library fuel library sUid).bind fun objRequested =>
      (getProp objRequested "children").bind fun children =>
        (objectKeys children).bind fun arrayUids =>
          (generateSortedIndex L library fuel arrayUids
            (effectiveSortBy sSortBy (browseView (uidKind sUid)).2)
            (browseView (uidKind sUid)).1).map BrowseResult.entries

/-- The method `browseLibrary(sUid, sSortBy, nEntries, nOffset)`; the last two arguments are
not used by the code. -/
def browseLibrary (L : Libs) (self : Controller) (fuel : Nat) (sUid : String)
    (sSortBy : Option String) : Promise BrowseResult :=
  match self.libraryReady with
  | .pending => .pending
  | .rejected reason => .rejected reason
  | .outOfFuel => .outOfFuel
  | .fulfilled _ => Promise.ofOutcome (browseReady L self.library fuel sUid sSortBy)

/-- The five listings `browseLibrary('')` offers, in definition order. -/
def indexPseudoEntities : List IndexEntry :=
  [ { uid := "index:Genres by Name", datavalues := [("name", .str "Genres by Name")] },
    { uid := "index:Artists by Name", datavalues := [("name", .str "Artists by Name")] },
    { uid := "index:Albums by Name", datavalues := [("name", .str "Albums by Name")] },
    { uid := "index:Albums by Artist", datavalues := [("name", .str "Albums by Artist")] },
    { uid := "index:Tracks by Name", datavalues := [("name", .str "Tracks by Name")] } ]

/-- A controller whose library is the end-to-end example and whose readiness promise is
resolved. -/
def exampleController (L : Libs) : Controller :=
  { library := (exampleLibrary L).toJS, libraryReady := .fulfilled () }

/-- The flattened resolution of a path at a uid, as `generateSortedIndex` computes it:
`flattenArrayToCSV(self.getLibraryObject(self.library, curUid + ':' + path))`. -/
def resolveFlat (L : Libs) (library : JSVal) (fuel : Nat) (curUid path : String) :
    Outcome JSVal :=
  (getLibraryObject library fuel library (curUid ++ ":" ++ path)).bind (flattenArrayToCSV L)

/-- What relates a uid to the row `generateSortedIndex` builds for it. -/
def RowOf (L : Libs) (library : JSVal) (fuel : Nat) (sSortBy : String)
    (fields : List (String × String)) (curUid : String) (row : SortRow) : Prop :=
  row.uid = curUid ∧
  resolveFlat L library fuel curUid sSortBy = .value row.sortvalue ∧
  (∀ name path, objGet fields name = some path →
    ∃ v, resolveFlat L library fuel curUid path = .value v ∧
      objGet row.datavalues name = some v) ∧
  (∀ name, (objGet row.datavalues name).isSome = true → (objGet fields name).isSome = true)

/-- The entry of the returned listing made from a row: the sort value is dropped. -/
def SortRow.toEntry (curEntry : SortRow) : IndexEntry :=
  { uid := curEntry.uid, datavalues := curEntry.datavalues }

/-- The kinds of JavaScript values, numbered. -/
def kindRank : JSVal → Nat
  | .undefined => 0
  | .null => 1
  | .num _ => 2
  | .str _ => 3
  | .arr _ => 4
  | .obj _ => 5

/-- Lexicographic comparison of two texts, character by character: the first is at most the
second. -/
def textLe : List Char → List Char → Bool
  | [], _ => true
  | _ :: _, [] => false
  | a :: as, b :: bs =>
    if a.toNat < b.toNat then true
    else if b.toNat < a.toNat then false
    else textLe as bs

/-- Modelled from the spec: the order `libSortOn` sorts by, which with the package `sort-on`
is not part of the repository.  The specification (section 4.4) gives "the natural ordering
of its runtime type (lexicographic for text, numeric for numbers)": two texts are compared
lexicographically, two numbers numerically.  The specification is silent on values of
different kinds; the model orders them by kind, so that the sort is defined on every
input. -/
def sortValueLe (x y : JSVal) : Bool :=
  match x, y with
  | .num a, .num b => decide (a ≤ b)
  | .str a, .str b => textLe a.data b.data
  | _, _ => decide (kindRank x ≤ kindRank y)

/-- Modelled from the spec: `libSortOn(rows, 'sortvalue')` of the package `sort-on`, which is
not part of the repository.  The specification (section 4.4): "stable-sort entries ascending
by sort value using the natural ordering of its runtime type".  The model is the stable
insertion sort by `sortValueLe` on the sort values. -/
def specSortOn (rows : List SortRow) : List SortRow :=
  List.insertionSort (fun a b => sortValueLe a.sortvalue b.sortvalue = true) rows

/-- The stand-in libraries with the sort of the specification. -/
def sortedSampleLibs : Libs :=
  { sha256 := sampleLibs.sha256,
    sha256_length := sampleLibs.sha256_length,
    sortOn := specSortOn,
    sortOn_perm := fun rows => List.perm_insertionSort _ rows,
    keyGtZero := sampleLibs.keyGtZero }

/-- A record of the album `AlbumB`, dated 2021, by `Artist1`. -/
def laterAlbumRecord : TrackRecord :=
  { service := "s1", uri := "u1", title := "SongB", album := "AlbumB",
    artists := ["Artist1"], genres := ["Rock"], tracknumber := .num 1, date := .str "2021" }

/-- A record of the album `AlbumA`, dated 2020, by the same artist. -/
def earlierAlbumRecord : TrackRecord :=
  { service := "s1", uri := "u2", title := "SongA", album := "AlbumA",
    artists := ["Artist1"], genres := ["Rock"], tracknumber := .num 1, date := .str "2020" }

/-- A ready controller holding the library built from a track list. -/
def readyController (L : Libs) (arrayTrackList : List TrackRecord) : Controller :=
  { library := (populateLibraryFromTracklist L emptyLibrary arrayTrackList).toJS,
    libraryReady := .fulfilled () }

/-- An entry of a listing as the object `{uid, datavalues}` it is. -/
def IndexEntry.toJS (curEntry : IndexEntry) : JSVal :=
  .obj [("uid", .str curEntry.uid), ("datavalues", .obj curEntry.datavalues)]

/-- The keys of `self.library[sTableName]`, `none` when the library has no such table. -/
def libraryKeys (library : Library) (sTableName : String) : Option (List String) :=
  if sTableName = "genre" then some (objKeys library.genre)
  else if sTableName = "artist" then some (objKeys library.artist)
  else if sTableName = "album" then some (objKeys library.album)
  else if sTableName = "track" then some (objKeys library.track)
  else if sTableName = "item" then some (objKeys library.item)
  else if sTableName = "index" then some (objKeys library.index)
  else none

/-- The method `rebuildSingleIndex(objIndexDefinition)`: the library with the index stored
under its name, unchanged when the table is not in the library. -/
def rebuildSingleIndex (L : Libs) (fuel : Nat) (library : Library)
    (objIndexDefinition : IndexDefinition) : Outcome Library :=
  match libraryKeys library objIndexDefinition.table with
  | none => .value library
  | some keys =>
    (generateSortedIndex L library.toJS fuel
        (keys.map (fun curKey => objIndexDefinition.table ++ ":" ++ curKey))
        objIndexDefinition.sortby objIndexDefinition.datafields).map
      fun arraySortedIndex =>
        { library with
          index := objSet library.index objIndexDefinition.name
            (.arr (arraySortedIndex.map IndexEntry.toJS)) }

/-- The step `libQ.all(libFast.map(self.arrayIndexDefinitions, rebuildSingleIndex))`: every
definition is processed on its own, a failing one stores nothing and does not stop the
others; the second component is the first failure, if any. -/
def rebuildIndexes (L : Libs) (fuel : Nat) :
    List IndexDefinition → Library → Library × Outcome Unit
  | [], library => (library, .value ())
  | curIndexDefinition :: rest, library =>
    match rebuildSingleIndex L fuel library curIndexDefinition with
    | .value indexed => rebuildIndexes L fuel rest indexed
    | .thrown e => ((rebuildIndexes L fuel rest library).1, .thrown e)
    | .outOfFuel => ((rebuildIndexes L fuel rest library).1, .outOfFuel)

/-- The method `rebuildLibrary()`.  The track-list provider and the snapshot store are
external: `getAllTracklists` is the state of the promise the provider returns, `dbPut` the
state of the promise of writing a snapshot.  The result is the controller afterwards and
the state of the returned promise. -/
def rebuildLibrary (L : Libs) (fuel : Nat) (self : Controller)
    (getAllTracklists : Promise (List (List TrackRecord))) (dbPut : JSVal → Promise Unit) :
    Controller × Promise Unit :=
  let self := { self with library := emptyLibrary.toJS, libraryReady := .pending }
  match getAllTracklists with
  | .pending => (self, .pending)
  | .outOfFuel => (self, .outOfFuel)
  | .rejected sError =>
    ({ self with libraryReady := .rejected sError },
      .rejected (.error "Library Rebuild Error: " sError))
  | .fulfilled arrayAllTrackLists =>
    let populated := arrayAllTrackLists.foldl (populateLibraryFromTracklist L) emptyLibrary
    let indexed := rebuildIndexes L fuel arrayIndexDefinitions populated
    let self := { self with library := indexed.1.toJS }
    match indexed.2 with
    | .outOfFuel => (self, .outOfFuel)
    | .thrown e =>
      ({ self with libraryReady := .rejected (.raised e) },
        .rejected (.error "Library Rebuild Error: " (.raised e)))
    | .value _ =>
      match dbPut indexed.1.toJS with
      | .pending => (self, .pending)
      | .outOfFuel => (self, .outOfFuel)
      | .rejected sError =>
        ({ self with libraryReady := .rejected sError },
          .rejected (.error "Library Rebuild Error: " sError))
      | .fulfilled _ => ({ self with libraryReady := .fulfilled () }, .fulfilled ())

/-- The reads `Object.keys(self.library[table]).length` that `loadLibraryFromDB` logs after a
snapshot is loaded. -/
def tableCounts (library : JSVal) : Outcome (List Nat) :=
  mapOutcome
    (fun sTableName =>
      ((getProp library sTableName).bind objectKeys).map List.length)
    ["genre", "artist", "album", "track", "item", "index"]

/-- The method `loadLibraryFromDB()`; `dbGet` is the state of the promise of reading the
snapshot.  The result is the controller afterwards and the state of the returned promise. -/
def loadLibraryFromDB (self : Controller) (dbGet : Promise JSVal) :
    Controller × Promise Unit :=
  let self := { self with library := .obj [], libraryReady := .pending }
  match dbGet with
  | .pending => (self, .pending)
  | .outOfFuel => (self, .outOfFuel)
  | .rejected sError =>
    ({ self with libraryReady := .rejected sError },
      .rejected (.error "Error reading DB: " sError))
  | .fulfilled result =>
    let self := { self with library := result, libraryReady := .fulfilled () }
    match tableCounts result with
    | .value _ => (self, .fulfilled ())
    | .thrown e => (self, .rejected (.error "Error reading DB: " (.raised e)))
    | .outOfFuel => (self, .outOfFuel)

/-- Every entity of the table satisfies `P` together with its key. -/
def EachEntity (P : String → Entity → Prop) (t : Table) : Prop :=
  ∀ k e, objGet t k = some e → P k e

/-- Every reference of the list is `pre` followed by a key of `t`. -/
def RefsInto (pre : String) (t : Table) (refs : List String) : Prop :=
  ∀ r ∈ refs, ∃ k, r = pre ++ k ∧ (objGet t k).isSome = true

/-- An entity stored under `k` as ingestion leaves it: `k` is a hash key and the value of the
`id` field, no field shadows the edge sets, the children are references into `ctbl` and the
parents references into `ptbl`. -/
structure EntityOK (cpre : String) (ctbl : Table) (ppre : String) (ptbl : Table) (k : String)
    (e : Entity) : Prop where
  key : IsKey k
  plain : e.Plain
  id : objGet e.fields "id" = some (.str k)
  children : RefsInto cpre ctbl e.children
  parents : RefsInto ppre ptbl e.parents

/-- The entity has a text as its `name`. -/
def Entity.Named (e : Entity) : Prop := ∃ s, objGet e.fields "name" = some (.str s)

/-- What ingestion maintains about all five tables: every entity is stored under its id, and
its references lead into the table of the neighbouring kind (a genre has no parents, an item
no children); every genre, artist, album and track has a name, every track a parent. -/
structure Sound (library : Library) : Prop where
  genre : EachEntity (EntityOK "artist:" library.artist "" []) library.genre
  artist : EachEntity (EntityOK "album:" library.album "genre:" library.genre) library.artist
  album : EachEntity (EntityOK "track:" library.track "artist:" library.artist) library.album
  track : EachEntity (EntityOK "item:" library.item "album:" library.album) library.track
  item : EachEntity (EntityOK "" [] "track:" library.track) library.item
  genreNamed : EachEntity (fun _ e => e.Named) library.genre
  artistNamed : EachEntity (fun _ e => e.Named) library.artist
  albumNamed : EachEntity (fun _ e => e.Named) library.album
  trackNamed : EachEntity (fun _ e => e.Named) library.track
  trackHasParent : EachEntity (fun _ e => e.parents ≠ []) library.track

/-- The entity table of the library named `sTableName`. -/
def Library.table (library : Library) (sTableName : String) : Option Table :=
  if sTableName = "genre" then some library.genre
  else if sTableName = "artist" then some library.artist
  else if sTableName = "album" then some library.album
  else if sTableName = "track" then some library.track
  else if sTableName = "item" then some library.item
  else none

/-- The five entity tables of the library. -/
def Library.tables (library : Library) : List Table :=
  [library.genre, library.artist, library.album, library.track, library.item]

/-- The reference `ref` is `type:id` for an entity that the table of that type holds under
`id`, and `id` is the value of the entity's own `id` field. -/
def Resolves (library : Library) (ref : String) : Prop :=
  ∃ sTableName id tbl target, ref = sTableName ++ ":" ++ id ∧
    library.table sTableName = some tbl ∧ objGet tbl id = some target ∧
    objGet target.fields "id" = some (.str id)

/-- Keys and edges that a step adds to a table: the keys of the entities it makes sure
exist, and the child and parent edges it inserts, each as the key of the entity and the
reference inserted. -/
structure Edges where
  keys : String → Prop
  child : String → String → Prop
  parent : String → String → Prop

namespace Edges

/-- The key `k0` alone. -/
def key (k0 : String) : Edges :=
  { keys := fun k => k = k0, child := fun _ _ => False, parent := fun _ _ => False }

/-- The child edge from `k0` to `c0` alone. -/
def childEdge (k0 c0 : String) : Edges :=
  { keys := fun _ => False, child := fun k c => k = k0 ∧ c = c0, parent := fun _ _ => False }

/-- The parent edge from `k0` to `p0` alone. -/
def parentEdge (k0 p0 : String) : Edges :=
  { keys := fun _ => False, child := fun _ _ => False, parent := fun k p => k = k0 ∧ p = p0 }

/-- What either of two steps adds. -/
def union (a b : Edges) : Edges :=
  { keys := fun k => a.keys k ∨ b.keys k, child := fun k c => a.child k c ∨ b.child k c,
    parent := fun k p => a.parent k p ∨ b.parent k p }

/-- What the steps for the elements of a list add. -/
def over {α : Type} (xs : List α) (f : α → Edges) : Edges :=
  { keys := fun k => ∃ x ∈ xs, (f x).keys k, child := fun k c => ∃ x ∈ xs, (f x).child k c,
    parent := fun k p => ∃ x ∈ xs, (f x).parent k p }

end Edges

/-- The table `t'` holds exactly the keys and edges of `t` and those of `E`. -/
structure Adds (t t' : Table) (E : Edges) : Prop where
  present : ∀ k, Present t' k ↔ Present t k ∨ E.keys k
  child : ∀ k c, ChildIn t' k c ↔ ChildIn t k c ∨ E.child k c
  parent : ∀ k p, ParentIn t' k p ↔ ParentIn t k p ∨ E.parent k p

/-- What the inner loop body of `addLibraryItem` adds to the genre table. -/
def genreStepGenreEdges (L : Libs) (ka g : String) : Edges :=
  (Edges.key (convertStringToHashkey L (some g))).union
    (Edges.childEdge (convertStringToHashkey L (some g)) ("artist:" ++ ka))

/-- What the inner loop body of `addLibraryItem` adds to the artist table. -/
def genreStepArtistEdges (L : Libs) (ka g : String) : Edges :=
  Edges.parentEdge ka ("genre:" ++ convertStringToHashkey L (some g))

/-- What the outer loop body of `addLibraryItem` adds to the genre table. -/
def artistStepGenreEdges (L : Libs) (gs : List String) (a : String) : Edges :=
  Edges.over gs (genreStepGenreEdges L (convertStringToHashkey L (some a)))

/-- What the outer loop body of `addLibraryItem` adds to the artist table. -/
def artistStepArtistEdges (L : Libs) (kal : String) (gs : List String) (a : String) : Edges :=
  ((Edges.key (convertStringToHashkey L (some a))).union
    (Edges.childEdge (convertStringToHashkey L (some a)) ("album:" ++ kal))).union
    (Edges.over gs (genreStepArtistEdges L (convertStringToHashkey L (some a))))

/-- What the outer loop body of `addLibraryItem` adds to the album table. -/
def artistStepAlbumEdges (L : Libs) (kal : String) (a : String) : Edges :=
  Edges.parentEdge kal ("artist:" ++ convertStringToHashkey L (some a))

/-- What ingesting a record adds to the genre table. -/
def recordGenreEdges (L : Libs) (r : TrackRecord) : Edges :=
  Edges.over r.artists (artistStepGenreEdges L r.genres)

/-- What ingesting a record adds to the artist table. -/
def recordArtistEdges (L : Libs) (r : TrackRecord) : Edges :=
  Edges.over r.artists (artistStepArtistEdges L (albumKey L r.album r.artists) r.genres)

/-- What ingesting a record adds to the album table. -/
def recordAlbumEdges (L : Libs) (r : TrackRecord) : Edges :=
  ((Edges.key (albumKey L r.album r.artists)).union
    (Edges.childEdge (albumKey L r.album r.artists)
      ("track:" ++ convertStringToHashkey L (some (r.album ++ r.title))))).union
    (Edges.over r.artists (artistStepAlbumEdges L (albumKey L r.album r.artists)))

/-- What ingesting a record adds to the track table. -/
def recordTrackEdges (L : Libs) (r : TrackRecord) : Edges :=
  ((Edges.key (convertStringToHashkey L (some (r.album ++ r.title)))).union
    (Edges.childEdge (convertStringToHashkey L (some (r.album ++ r.title)))
      ("item:" ++ convertStringToHashkey L (some (r.service ++ r.uri))))).union
    (Edges.parentEdge (convertStringToHashkey L (some (r.album ++ r.title)))
      ("album:" ++ albumKey L r.album r.artists))

/-- Two tables with the same keys and, under every key, the same children and the same
parents, both compared as sets. -/
structure SameTable (t t' : Table) : Prop where
  present : ∀ k, Present t k ↔ Present t' k
  child : ∀ k c, ChildIn t k c ↔ ChildIn t' k c
  parent : ∀ k p, ParentIn t k p ↔ ParentIn t' k p

/-- Two libraries with the same graph of genres, artists, albums and tracks, and the same
item keys. -/
structure SameGraph (s s' : Library) : Prop where
  genre : SameTable s.genre s'.genre
  artist : SameTable s.artist s'.artist
  album : SameTable s.album s'.album
  track : SameTable s.track s'.track
  item : ∀ k, Present s.item k ↔ Present s'.item k

/-- The track references that the item of `curTrack` holds right after `curTrack` is
ingested into `library`: the item is created anew by the call, so these are the tracks the
call attaches the record to. -/
def attachedTracks (L : Libs) (library : Library) (curTrack : TrackRecord) : List String :=
  ((objGet (ingest L library curTrack).item
      (convertStringToHashkey L (some (curTrack.service ++ curTrack.uri)))).map
    Entity.parents).getD []

/-- A record of the album `Never` with the title `minder`. -/
def joinedRecordA : TrackRecord :=
  { service := "s1", uri := "u1", title := "minder", album := "Never",
    artists := ["Artist1"], genres := ["Rock"], tracknumber := .num 1, date := .str "2020" }

/-- A record of the album `Nevermind` with the title `er`: another album and another title,
the same text when album and title are joined. -/
def joinedRecordB : TrackRecord :=
  { service := "s1", uri := "u2", title := "er", album := "Nevermind",
    artists := ["Artist2"], genres := ["Pop"], tracknumber := .num 2, date := .str "1991" }

/-! # Theorems -/

/-! ## Hash keys -/

theorem base64Alphabet_spec : ∀ c ∈ base64Alphabet, c.isAlphanum = true ∨ c = '+' ∨ c = '/' := by
  decide

theorem base64Char_spec (n : Nat) :
    (base64Char n).isAlphanum = true ∨ base64Char n = '+' ∨ base64Char n = '/' := by
  unfold base64Char
  rw [List.getD_eq_getElem?_getD]
  cases h : base64Alphabet[n]? with
  | none => left; decide
  | some c => exact base64Alphabet_spec c (List.getElem?_mem h)

theorem base64Encode_spec (bs : List (Fin 256)) :
    ∀ c ∈ base64Encode bs, c.isAlphanum = true ∨ c = '+' ∨ c = '/' ∨ c = '=' := by
  induction bs using base64Encode.induct with
  | case1 a b c rest ih =>
    intro x hx
    simp only [base64Encode, List.mem_cons] at hx
    rcases hx with h | h | h | h | h
    · subst h; have := base64Char_spec (a.val / 4); tauto
    · subst h; have := base64Char_spec (a.val % 4 * 16 + b.val / 16); tauto
    · subst h; have := base64Char_spec (b.val % 16 * 4 + c.val / 64); tauto
    · subst h; have := base64Char_spec (c.val % 64); tauto
    · exact ih x h
  | case2 a b =>
    intro x hx
    simp only [base64Encode, List.mem_cons, List.mem_singleton] at hx
    rcases hx with h | h | h | h
    · subst h; have := base64Char_spec (a.val / 4); tauto
    · subst h; have := base64Char_spec (a.val % 4 * 16 + b.val / 16); tauto
    · subst h; have := base64Char_spec (b.val % 16 * 4); tauto
    · simp at h; subst h; simp
  | case3 a =>
    intro x hx
    simp only [base64Encode, List.mem_cons, List.mem_singleton] at hx
    rcases hx with h | h | h | h
    · subst h; have := base64Char_spec (a.val / 4); tauto
    · subst h; have := base64Char_spec (a.val % 4 * 16); tauto
    · subst h; simp
    · simp at h; subst h; simp
  | case4 => simp [base64Encode]

theorem base64UrlEscape_spec (cs : List Char)
    (h : ∀ c ∈ cs, c.isAlphanum = true ∨ c = '+' ∨ c = '/' ∨ c = '=') :
    ∀ c ∈ base64UrlEscape cs, isUrlSafeChar c = true := by
  intro c hc
  simp only [base64UrlEscape, List.mem_filter, List.mem_map, exists_exists_and_eq_and] at hc
  obtain ⟨⟨x, hx, rfl⟩, hne⟩ := hc
  rcases h x hx with h1 | h1 | h1 | h1
  · have h2 : x ≠ '+' := by rintro rfl; revert h1; decide
    have h3 : x ≠ '/' := by rintro rfl; revert h1; decide
    simp [h2, h3, isUrlSafeChar, h1]
  · subst h1; decide
  · subst h1; decide
  · subst h1; simp at hne

theorem convertStringToHashkey_urlSafe (L : Libs) (input : Option String) :
    ∀ c ∈ (convertStringToHashkey L input).data, isUrlSafeChar c = true := by
  unfold convertStringToHashkey
  exact base64UrlEscape_spec _ (base64Encode_spec _)

theorem convertStringToHashkey_noColon (L : Libs) (input : Option String) :
    ':' ∉ (convertStringToHashkey L input).data := by
  intro h
  have := convertStringToHashkey_urlSafe L input ':' h
  revert this
  decide

/-! ## Path steps -/

theorem data_step (a b : String) : (a ++ ":" ++ b).data = a.data ++ ':' :: b.data := by
  simp [String.data_append]

theorem indexOf_colon_append (l r : List Char) (h : ':' ∉ l) :
    List.indexOf ':' (l ++ ':' :: r) = l.length := by
  induction l with
  | nil => simp [List.indexOf_cons]
  | cons c cs ih =>
    have hc : c ≠ ':' := fun e => h (by simp [e])
    have hcs : ':' ∉ cs := fun e => h (by simp [e])
    have hb : (c == ':') = false := by simpa using hc
    rw [List.cons_append, List.indexOf_cons, hb, ih hcs]
    simp

theorem indexOfColon_step (a b : String) (ha : ':' ∉ a.data) :
    indexOfColon (a ++ ":" ++ b) = some a.length := by
  unfold indexOfColon
  rw [data_step]
  have h1 : ':' ∈ a.data ++ ':' :: b.data := by simp
  rw [if_pos h1, indexOf_colon_append _ _ ha]
  rfl

theorem indexOfColon_none (a : String) (ha : ':' ∉ a.data) : indexOfColon a = none := by
  simp [indexOfColon, ha]

theorem sliceTo_step (a b : String) : sliceTo (a ++ ":" ++ b) a.length = a := by
  unfold sliceTo
  rw [data_step]
  show String.mk (List.take a.data.length (a.data ++ ':' :: b.data)) = a
  rw [List.take_left]

theorem sliceFrom_step (a b : String) : sliceFrom (a ++ ":" ++ b) (a.length + 1) = b := by
  unfold sliceFrom
  rw [data_step]
  show String.mk (List.drop (a.data.length + 1) (a.data ++ ':' :: b.data)) = b
  rw [List.drop_append]
  rfl

/-- A field step that is not the last one. -/
theorem getLibraryObject_field (library : JSVal) (fuel : Nat) (objSource : JSVal)
    (a b : String) (ha : ':' ∉ a.data) (h1 : a ≠ "#") (h2 : sliceTo a 1 ≠ "#") :
    getLibraryObject library (fuel + 1) objSource (a ++ ":" ++ b) =
      match getProp objSource a with
      | .thrown _ => .thrown (.navigation a)
      | .value objCurStep => getLibraryObject library fuel objCurStep b
      | .outOfFuel => .outOfFuel := by
  rw [getLibraryObject, indexOfColon_step a b ha]
  simp only [sliceTo_step, sliceFrom_step, if_neg h1, if_neg h2]

/-- The last step of a path. -/
theorem getLibraryObject_last (library : JSVal) (fuel : Nat) (objSource : JSVal)
    (a : String) (ha : ':' ∉ a.data) :
    getLibraryObject library (fuel + 1) objSource a =
      match getProp objSource a with
      | .thrown _ => .thrown (.navigation a)
      | r => r := by
  rw [getLibraryObject, indexOfColon_none a ha]

/-- The step `#`. -/
theorem getLibraryObject_all (library : JSVal) (fuel : Nat) (objSource : JSVal) (b : String) :
    getLibraryObject library (fuel + 1) objSource ("#" ++ ":" ++ b) =
      (objectKeys objSource).bind fun keys =>
        (mapOutcome (fun curUid =>
          getLibraryObject library fuel library (curUid ++ ":" ++ b)) keys).map JSVal.arr := by
  rw [getLibraryObject, indexOfColon_step "#" b (by decide)]
  simp only [sliceTo_step, sliceFrom_step, if_true]

/-- The step `#x`. -/
theorem getLibraryObject_pick (library : JSVal) (fuel : Nat) (objSource : JSVal)
    (x b : String) (hx : ':' ∉ x.data) (hne : x ≠ "") :
    getLibraryObject library (fuel + 1) objSource ("#" ++ x ++ ":" ++ b) =
      (objectKeys objSource).bind fun keys =>
        (getProp (.arr (keys.map JSVal.str)) x).bind fun picked =>
          getLibraryObject library fuel library (jsToString picked ++ ":" ++ b) := by
  have hc : ':' ∉ ("#" ++ x).data := by simp [String.data_append, hx]
  have h1 : "#" ++ x ≠ "#" := by
    intro h
    apply hne
    have := congrArg String.data h
    simp [String.data_append] at this
    exact String.ext this
  have h2 : sliceTo ("#" ++ x) 1 = "#" := by
    simp [sliceTo, String.data_append]
  have h3 : sliceFrom ("#" ++ x) 1 = x := by
    simp [sliceFrom, String.data_append]
  rw [getLibraryObject, indexOfColon_step _ b hc]
  simp only [sliceTo_step, sliceFrom_step, if_neg h1, h2, h3, if_true]

/-! ## Resolving references from the root -/

theorem objGet_map {β γ : Type} (f : β → γ) (o : List (String × β)) (k : String) :
    objGet (o.map (fun kv => (kv.1, f kv.2))) k = (objGet o k).map f := by
  induction o with
  | nil => rfl
  | cons kv rest ih =>
    obtain ⟨k', v⟩ := kv
    by_cases h : k' = k <;> simp [objGet, h, ih]

theorem getProp_tableToJS (t : Table) (k : String) :
    getProp (tableToJS t) k = .value (((objGet t k).map Entity.toJS).getD .undefined) := by
  simp [tableToJS, getProp, objGet_map]

theorem getProp_root_genre (library : Library) :
    getProp library.toJS "genre" = .value (tableToJS library.genre) := by
  simp [Library.toJS, getProp, objGet]

theorem getProp_root_artist (library : Library) :
    getProp library.toJS "artist" = .value (tableToJS library.artist) := by
  simp [Library.toJS, getProp, objGet]

theorem getProp_root_album (library : Library) :
    getProp library.toJS "album" = .value (tableToJS library.album) := by
  simp [Library.toJS, getProp, objGet]

theorem getProp_root_track (library : Library) :
    getProp library.toJS "track" = .value (tableToJS library.track) := by
  simp [Library.toJS, getProp, objGet]

theorem uid_path (t k p : String) : t ++ ":" ++ k ++ ":" ++ p = t ++ ":" ++ (k ++ ":" ++ p) := by
  simp [String.append_assoc]


theorem getProp_root_item (library : Library) :
    getProp library.toJS "item" = .value (tableToJS library.item) := by
  simp [Library.toJS, getProp, objGet]

theorem isKey_hashkey (L : Libs) (input : Option String) :
    IsKey (convertStringToHashkey L input) :=
  convertStringToHashkey_urlSafe L input

theorem IsKey.noColon {k : String} (h : IsKey k) : ':' ∉ k.data := by
  intro hc
  have := h ':' hc
  revert this
  decide

theorem IsKey.ne_hash {k : String} (h : IsKey k) : k ≠ "#" := by
  rintro rfl
  have := h '#' (by decide)
  revert this
  decide

theorem IsKey.sliceTo_ne_hash {k : String} (h : IsKey k) : sliceTo k 1 ≠ "#" := by
  intro he
  have hd := congrArg String.data he
  simp only [sliceTo] at hd
  have hm : '#' ∈ k.data := by
    cases hk : k.data with
    | nil => rw [hk] at hd; simp at hd
    | cons c cs =>
      rw [hk] at hd
      simp at hd
      simp [hd]
  have := h '#' hm
  revert this
  decide

/-- Resolving `t:k:p` from the root continues at the entity stored under `k` in table `t`. -/
theorem getLibraryObject_ref (root : JSVal) (fuel : Nat) (t k p : String) (tbl : Table)
    (e : Entity) (ht : getProp root t = .value (tableToJS tbl))
    (h0 : ':' ∉ t.data) (h1 : t ≠ "#") (h2 : sliceTo t 1 ≠ "#")
    (hk : IsKey k) (he : objGet tbl k = some e) :
    getLibraryObject root (fuel + 2) root (t ++ ":" ++ k ++ ":" ++ p) =
      getLibraryObject root fuel e.toJS p := by
  rw [uid_path, getLibraryObject_field _ _ _ _ _ h0 h1 h2, ht]
  simp only
  rw [getLibraryObject_field _ _ _ _ _ hk.noColon hk.ne_hash hk.sliceTo_ne_hash,
    getProp_tableToJS, he]
  rfl

/-- Resolving `t:k` from the root gives the entity stored under `k` in table `t`. -/
theorem getLibraryObject_ref_last (root : JSVal) (fuel : Nat) (t k : String) (tbl : Table)
    (e : Entity) (ht : getProp root t = .value (tableToJS tbl))
    (h0 : ':' ∉ t.data) (h1 : t ≠ "#") (h2 : sliceTo t 1 ≠ "#")
    (hk : IsKey k) (he : objGet tbl k = some e) :
    getLibraryObject root (fuel + 2) root (t ++ ":" ++ k) = .value e.toJS := by
  rw [getLibraryObject_field _ _ _ _ _ h0 h1 h2, ht]
  simp only
  rw [getLibraryObject_last _ _ _ _ hk.noColon, getProp_tableToJS, he]
  rfl

theorem objGet_append {β : Type} (o o' : List (String × β)) (k : String) :
    objGet (o ++ o') k = (objGet o k).orElse (fun _ => objGet o' k) := by
  induction o with
  | nil => rfl
  | cons kv rest ih =>
    obtain ⟨k', v⟩ := kv
    by_cases h : k' = k <;> simp [objGet, h, ih]

theorem getProp_parents (e : Entity) (h : e.Plain) :
    getProp e.toJS "parents" = .value (keySetToJS e.parents) := by
  simp [Entity.toJS, getProp, objGet_append, h.2, objGet]

theorem getProp_children (e : Entity) (h : e.Plain) :
    getProp e.toJS "children" = .value (keySetToJS e.children) := by
  simp [Entity.toJS, getProp, objGet_append, h.1, objGet]

theorem getProp_field (e : Entity) (k : String) (v : JSVal) (h : objGet e.fields k = some v) :
    getProp e.toJS k = .value v := by
  simp [Entity.toJS, getProp, objGet_append, h]

theorem objectKeys_keySet (ks : List String) : objectKeys (keySetToJS ks) = .value ks := by
  simp [objectKeys, keySetToJS, objKeys, Function.comp_def]

/-- The step `parents` on an entity. -/
theorem getLibraryObject_parents (root : JSVal) (fuel : Nat) (e : Entity) (p : String)
    (h : e.Plain) :
    getLibraryObject root (fuel + 1) e.toJS ("parents" ++ ":" ++ p) =
      getLibraryObject root fuel (keySetToJS e.parents) p := by
  rw [getLibraryObject_field _ _ _ _ _ (by decide) (by decide) (by decide), getProp_parents e h]

/-- The step `#` on an edge set. -/
theorem getLibraryObject_all_keySet (root : JSVal) (fuel : Nat) (ks : List String)
    (p : String) :
    getLibraryObject root (fuel + 1) (keySetToJS ks) ("#" ++ ":" ++ p) =
      (mapOutcome (fun curUid => getLibraryObject root fuel root (curUid ++ ":" ++ p)) ks).map
        JSVal.arr := by
  rw [getLibraryObject_all, objectKeys_keySet]
  rfl

/-! ## Decimal index names -/

theorem digitChar_toNat : ∀ d, d < 10 → (Nat.digitChar d).toNat - 48 = d := by decide

theorem digitChar_isDigit : ∀ d, d < 10 → (Nat.digitChar d).isDigit = true := by decide

/-- The number a list of decimal digits stands for, continuing from `acc`. -/
theorem toDigitsCore_value (fuel : Nat) : ∀ (n : Nat) (ds : List Char), n < fuel →
    (Nat.toDigitsCore 10 fuel n ds).foldl (fun a c => 10 * a + (c.toNat - 48)) 0 =
      ds.foldl (fun a c => 10 * a + (c.toNat - 48)) n := by
  induction fuel with
  | zero => intro n ds h; omega
  | succ fuel ih =>
    intro n ds h
    have hd := digitChar_toNat (n % 10) (Nat.mod_lt _ (by decide))
    by_cases h0 : n / 10 = 0
    · simp only [Nat.toDigitsCore, h0, if_true, List.foldl_cons, hd]
      congr 1
      omega
    · simp only [Nat.toDigitsCore, h0, if_false]
      rw [ih (n / 10) _ (by omega), List.foldl_cons, hd]
      congr 1
      omega

theorem toDigitsCore_isDigit (fuel : Nat) : ∀ (n : Nat) (ds : List Char),
    (∀ c ∈ ds, c.isDigit = true) →
    ∀ c ∈ Nat.toDigitsCore 10 fuel n ds, c.isDigit = true := by
  induction fuel with
  | zero => intro n ds h; simpa [Nat.toDigitsCore] using h
  | succ fuel ih =>
    intro n ds h
    have hd := digitChar_isDigit (n % 10) (Nat.mod_lt _ (by decide))
    have h' : ∀ c ∈ Nat.digitChar (n % 10) :: ds, c.isDigit = true := by
      intro c hc
      rcases List.mem_cons.1 hc with rfl | hc
      · exact hd
      · exact h c hc
    by_cases h0 : n / 10 = 0
    · simpa only [Nat.toDigitsCore, h0, if_true] using h'
    · simpa only [Nat.toDigitsCore, h0, if_false] using ih (n / 10) _ h'

theorem toDigitsCore_ne_nil (fuel : Nat) : ∀ (n : Nat) (ds : List Char), ds ≠ [] →
    Nat.toDigitsCore 10 fuel n ds ≠ [] := by
  induction fuel with
  | zero => intro n ds h; simpa [Nat.toDigitsCore] using h
  | succ fuel ih =>
    intro n ds _
    by_cases h0 : n / 10 = 0
    · simp [Nat.toDigitsCore, h0]
    · simpa only [Nat.toDigitsCore, h0, if_false] using ih (n / 10) _ (by simp)

theorem toString_nat_data (n : Nat) : (toString n).data = Nat.toDigits 10 n := rfl

theorem toString_nat_injective {a b : Nat} (h : toString a = toString b) : a = b := by
  have hd : Nat.toDigits 10 a = Nat.toDigits 10 b := by
    rw [← toString_nat_data, ← toString_nat_data, h]
  have ha := toDigitsCore_value (a + 1) a [] (by omega)
  have hb := toDigitsCore_value (b + 1) b [] (by omega)
  simp only [List.foldl_nil] at ha hb
  rw [← ha, ← hb]
  exact congrArg _ hd

theorem toString_nat_noColon (n : Nat) : ':' ∉ (toString n).data := by
  intro h
  have := toDigitsCore_isDigit (n + 1) n [] (by simp) ':' h
  revert this
  decide

theorem toString_nat_ne_empty (n : Nat) : toString n ≠ "" := by
  intro h
  have hd : Nat.toDigits 10 n = [] := by rw [← toString_nat_data, h]
  unfold Nat.toDigits at hd
  by_cases h0 : n / 10 = 0
  · simp [Nat.toDigitsCore, h0] at hd
  · simp only [Nat.toDigitsCore, h0, if_false] at hd
    exact toDigitsCore_ne_nil _ _ _ (by simp) hd

theorem arrayGetFrom_toString {α : Type} (xs : List α) : ∀ (i j : Nat),
    arrayGetFrom xs i (toString (i + j)) = xs[j]? := by
  induction xs with
  | nil => intro i j; rfl
  | cons x rest ih =>
    intro i j
    cases j with
    | zero => simp [arrayGetFrom]
    | succ j =>
      have hne : toString i ≠ toString (i + (j + 1)) := by
        intro h
        have := toString_nat_injective h
        omega
      simp only [arrayGetFrom, if_neg hne, List.getElem?_cons_succ]
      rw [← ih (i + 1) j]
      congr 2
      omega

theorem arrayGet_toString {α : Type} (xs : List α) (n : Nat) :
    arrayGet xs (toString n) = xs[n]? := by
  have := arrayGetFrom_toString xs 0 n
  simpa [arrayGet] using this

/-- The step `#N` on an edge set with more than `N` keys. -/
theorem getLibraryObject_pick_keySet (root : JSVal) (fuel : Nat) (ks : List String)
    (n : Nat) (p : String) (hn : n < ks.length) :
    getLibraryObject root (fuel + 1) (keySetToJS ks) ("#" ++ toString n ++ ":" ++ p) =
      getLibraryObject root fuel root (ks[n] ++ ":" ++ p) := by
  rw [getLibraryObject_pick _ _ _ _ _ (toString_nat_noColon n) (toString_nat_ne_empty n),
    objectKeys_keySet]
  have hlen : (toString n : String) ≠ "length" := by
    intro h
    have := toDigitsCore_isDigit (n + 1) n [] (by simp) 'l'
      (by rw [← Nat.toDigits, ← toString_nat_data, h]; decide)
    revert this
    decide
  simp [Outcome.bind, getProp, hlen, arrayGet_toString, hn, jsToString]

/-! ## Tables -/

theorem objGet_objSet {β : Type} (t : List (String × β)) (k k' : String) (v : β) :
    objGet (objSet t k v) k' = if k = k' then some v else objGet t k' := by
  induction t with
  | nil => by_cases h : k = k' <;> simp [objSet, objGet, h]
  | cons kv rest ih =>
    obtain ⟨k0, v0⟩ := kv
    by_cases h0 : k0 = k
    · subst h0
      by_cases h : k0 = k' <;> simp [objSet, objGet, h]
    · by_cases h : k0 = k'
      · subst h
        have : ¬ k = k0 := fun e => h0 e.symm
        simp [objSet, objGet, h0, this]
      · simp [objSet, objGet, h0, h, ih]

theorem objGet_objModify {β : Type} (t : List (String × β)) (k k' : String) (f : β → β) :
    objGet (objModify t k f) k' = if k = k' then (objGet t k).map f else objGet t k' := by
  induction t with
  | nil => by_cases h : k = k' <;> simp [objModify, objGet, h]
  | cons kv rest ih =>
    obtain ⟨k0, v0⟩ := kv
    by_cases h0 : k0 = k
    · subst h0
      by_cases h : k0 = k' <;> simp [objModify, objGet, h]
    · by_cases h : k0 = k'
      · subst h
        have : ¬ k = k0 := fun e => h0 e.symm
        simp [objModify, objGet, h0, this]
      · simp [objModify, objGet, h0, h, ih]

theorem objHas_eq {β : Type} (t : List (String × β)) (k : String) :
    objHas t k = (objGet t k).isSome := by
  induction t with
  | nil => rfl
  | cons kv rest ih =>
    obtain ⟨k0, v0⟩ := kv
    by_cases h : k0 = k <;> simp [objHas, objGet, h, ih]

theorem objGet_ensure (t : Table) (k k' : String) (e : Entity) :
    objGet (ensure t k e) k' =
      if k = k' then some ((objGet t k).getD e) else objGet t k' := by
  unfold ensure
  rw [objHas_eq]
  cases h : objGet t k with
  | none =>
    simp [objGet_objSet]
  | some e0 =>
    by_cases hk : k = k'
    · subst hk; simp [h]
    · simp [hk]

theorem mem_keyInsert (ks : List String) (k x : String) :
    x ∈ keyInsert ks k ↔ x ∈ ks ∨ x = k := by
  unfold keyInsert
  by_cases h : k ∈ ks
  · simp only [if_pos h]
    constructor
    · exact Or.inl
    · rintro (h' | rfl)
      · exact h'
      · exact h
  · simp [if_neg h]

/-! ## The tables after each step of `addLibraryItem` -/

theorem genreStep_genre (L : Libs) (ka : String) (library : Library) (g : String) :
    (genreStep L ka library g).genre =
      objModify (ensure library.genre (convertStringToHashkey L (some g))
        (Entity.named g (convertStringToHashkey L (some g)) "genre"))
        (convertStringToHashkey L (some g)) (Entity.addChild ("artist:" ++ ka)) := by
  unfold genreStep ensure
  by_cases h : objHas library.genre (convertStringToHashkey L (some g)) = true <;> simp [h]

theorem genreStep_artist (L : Libs) (ka : String) (library : Library) (g : String) :
    (genreStep L ka library g).artist =
      objModify library.artist ka
        (Entity.addParent ("genre:" ++ convertStringToHashkey L (some g))) := by
  unfold genreStep
  by_cases h : objHas library.genre (convertStringToHashkey L (some g)) = true <;> simp [h]

theorem genreStep_album (L : Libs) (ka : String) (library : Library) (g : String) :
    (genreStep L ka library g).album = library.album := by
  unfold genreStep
  by_cases h : objHas library.genre (convertStringToHashkey L (some g)) = true <;> simp [h]

theorem genreStep_track (L : Libs) (ka : String) (library : Library) (g : String) :
    (genreStep L ka library g).track = library.track := by
  unfold genreStep
  by_cases h : objHas library.genre (convertStringToHashkey L (some g)) = true <;> simp [h]

theorem genreStep_item (L : Libs) (ka : String) (library : Library) (g : String) :
    (genreStep L ka library g).item = library.item := by
  unfold genreStep
  by_cases h : objHas library.genre (convertStringToHashkey L (some g)) = true <;> simp [h]

theorem genreStep_index (L : Libs) (ka : String) (library : Library) (g : String) :
    (genreStep L ka library g).index = library.index := by
  unfold genreStep
  by_cases h : objHas library.genre (convertStringToHashkey L (some g)) = true <;> simp [h]

theorem artistStep_eq (L : Libs) (kal : String) (gs : List String) (library : Library)
    (a : String) :
    artistStep L kal gs library a =
      gs.foldl (genreStep L (convertStringToHashkey L (some a)))
        (artistLinked L kal library a) := by
  unfold artistStep artistLinked ensure
  by_cases h : objHas library.artist (convertStringToHashkey L (some a)) = true <;> simp [h]

theorem addLibraryItem_eq (L : Libs) (library : Library) (sService sUri sTitle sAlbum : String)
    (arrayArtists arrayGenres : List String) (nTrackNumber dateTrackDate : JSVal) :
    addLibraryItem L library sService sUri sTitle sAlbum arrayArtists arrayGenres nTrackNumber
        dateTrackDate =
      arrayArtists.foldl (artistStep L (albumKey L sAlbum arrayArtists) arrayGenres)
        (trackLinked L library sService sUri sTitle sAlbum arrayArtists nTrackNumber
          dateTrackDate) := by
  unfold addLibraryItem trackLinked ensure
  by_cases h1 : objHas library.track (convertStringToHashkey L (some (sAlbum ++ sTitle))) = true <;>
  by_cases h2 : objHas library.album (albumKey L sAlbum arrayArtists) = true <;>
  simp [h1, h2]

/-! ## What ingestion maintains -/

theorem isSome_objGet_objModify (t : Table) (k k' : String) (f : Entity → Entity) :
    (objGet (objModify t k f) k').isSome = (objGet t k').isSome := by
  rw [objGet_objModify]
  by_cases h : k = k'
  · subst h; cases objGet t k <;> simp
  · simp [h]

theorem isSome_objGet_ensure (t : Table) (k k' : String) (e : Entity)
    (h : (objGet t k').isSome = true) : (objGet (ensure t k e) k').isSome = true := by
  rw [objGet_ensure]
  by_cases hk : k = k'
  · simp [hk]
  · simpa [hk] using h

theorem isSome_objGet_ensure_self (t : Table) (k : String) (e : Entity) :
    (objGet (ensure t k e) k).isSome = true := by
  simp [objGet_ensure]

theorem objGet_objModify_some {t : Table} {k k' : String} {f : Entity → Entity} {e : Entity}
    (h : objGet (objModify t k f) k' = some e) :
    (k ≠ k' ∧ objGet t k' = some e) ∨ (k = k' ∧ ∃ e0, objGet t k' = some e0 ∧ e = f e0) := by
  rw [objGet_objModify] at h
  by_cases hk : k = k'
  · subst hk
    right
    simp only [if_true] at h
    cases h0 : objGet t k with
    | none => simp [h0] at h
    | some e0 =>
      rw [h0] at h
      exact ⟨rfl, e0, rfl, (Option.some.inj h).symm⟩
  · left
    simp only [if_neg hk] at h
    exact ⟨hk, h⟩

theorem objGet_ensure_some {t : Table} {k k' : String} {d e : Entity}
    (h : objGet (ensure t k d) k' = some e) :
    objGet t k' = some e ∨ (k = k' ∧ e = d) := by
  rw [objGet_ensure] at h
  by_cases hk : k = k'
  · subst hk
    simp only [if_true] at h
    cases h0 : objGet t k with
    | none =>
      right
      rw [h0] at h
      exact ⟨rfl, (Option.some.inj h).symm⟩
    | some e0 =>
      left
      rw [h0] at h
      simpa using h
  · left
    simpa [hk] using h

theorem KeysOK.keysModify {t : Table} (h : KeysOK t) (k : String) (f : Entity → Entity) :
    KeysOK (objModify t k f) := by
  intro k' e he
  rcases objGet_objModify_some he with ⟨_, h'⟩ | ⟨_, e0, h', _⟩
  · exact h k' e h'
  · exact h k' e0 h'

theorem KeysOK.keysEnsure {t : Table} (h : KeysOK t) (k : String) (d : Entity) (hk : IsKey k) :
    KeysOK (ensure t k d) := by
  intro k' e he
  rcases objGet_ensure_some he with h' | ⟨rfl, _⟩
  · exact h k' e h'
  · exact hk

theorem PlainTable.plainModify {t : Table} (h : PlainTable t) (k : String) (f : Entity → Entity)
    (hf : ∀ e, (f e).fields = e.fields) : PlainTable (objModify t k f) := by
  intro k' e he
  rcases objGet_objModify_some he with ⟨_, h'⟩ | ⟨_, e0, h', rfl⟩
  · exact h k' e h'
  · have := h k' e0 h'
    unfold Entity.Plain at this ⊢
    rw [hf]
    exact this

theorem PlainTable.plainEnsure {t : Table} (h : PlainTable t) (k : String) (d : Entity)
    (hd : d.Plain) : PlainTable (ensure t k d) := by
  intro k' e he
  rcases objGet_ensure_some he with h' | ⟨_, rfl⟩
  · exact h k' e h'
  · exact hd

theorem plain_named (name key type : String) : (Entity.named name key type).Plain := by
  constructor <;> simp [Entity.named, objGet]

theorem ParentsInto.intoMono {pre : String} {t t' t'' : Table} (h : ParentsInto pre t t')
    (hm : ∀ k, (objGet t' k).isSome = true → (objGet t'' k).isSome = true) :
    ParentsInto pre t t'' := by
  intro k e he p hp
  obtain ⟨k', rfl, hk'⟩ := h k e he p hp
  exact ⟨k', rfl, hm k' hk'⟩

theorem ParentsInto.modify_child {pre : String} {t t' : Table} (h : ParentsInto pre t t')
    (k c : String) : ParentsInto pre (objModify t k (Entity.addChild c)) t' := by
  intro k' e he p hp
  rcases objGet_objModify_some he with ⟨_, h'⟩ | ⟨_, e0, h', rfl⟩
  · exact h k' e h' p hp
  · exact h k' e0 h' p hp

theorem ParentsInto.modify_parent {pre : String} {t t' : Table} (h : ParentsInto pre t t')
    (k k0 : String) (h0 : (objGet t' k0).isSome = true) :
    ParentsInto pre (objModify t k (Entity.addParent (pre ++ k0))) t' := by
  intro k' e he p hp
  rcases objGet_objModify_some he with ⟨_, h'⟩ | ⟨_, e0, h', rfl⟩
  · exact h k' e h' p hp
  · rcases (mem_keyInsert _ _ _).1 hp with hp' | rfl
    · exact h k' e0 h' p hp'
    · exact ⟨k0, rfl, h0⟩

theorem ParentsInto.intoEnsure {pre : String} {t t' : Table} (h : ParentsInto pre t t')
    (k : String) (d : Entity) (hd : d.parents = []) : ParentsInto pre (ensure t k d) t' := by
  intro k' e he p hp
  rcases objGet_ensure_some he with h' | ⟨_, rfl⟩
  · exact h k' e h' p hp
  · rw [hd] at hp
    simp at hp

theorem linked_empty : Linked emptyLibrary := by
  constructor <;> intro k e he <;> simp [emptyLibrary, objGet] at he

theorem Linked.afterGenreStep {library : Library} (h : Linked library) (L : Libs) (ka g : String) :
    Linked (genreStep L ka library g) := by
  constructor
  · rw [genreStep_genre]
    exact (h.genreKeys.keysEnsure _ _ (isKey_hashkey L _)).keysModify _ _
  · rw [genreStep_artist]
    exact h.artistKeys.keysModify _ _
  · rw [genreStep_album]
    exact h.albumKeys
  · rw [genreStep_artist]
    exact h.artistPlain.plainModify _ _ (fun _ => rfl)
  · rw [genreStep_album]
    exact h.albumPlain
  · rw [genreStep_artist, genreStep_genre]
    apply ParentsInto.modify_parent
    · apply h.artistParents.intoMono
      intro k hk
      rw [isSome_objGet_objModify]
      exact isSome_objGet_ensure _ _ _ _ hk
    · rw [isSome_objGet_objModify]
      exact isSome_objGet_ensure_self _ _ _
  · rw [genreStep_artist, genreStep_album]
    apply h.albumParents.intoMono
    intro k hk
    rw [isSome_objGet_objModify]
    exact hk

theorem Linked.afterGenreLoop {library : Library} (h : Linked library) (L : Libs) (ka : String)
    (gs : List String) : Linked (gs.foldl (genreStep L ka) library) := by
  induction gs generalizing library with
  | nil => exact h
  | cons g gs ih => exact ih (h.afterGenreStep L ka g)

theorem Linked.afterArtistLinked {library : Library} (h : Linked library) (L : Libs)
    (kal a : String) : Linked (artistLinked L kal library a) := by
  constructor
  · exact h.genreKeys
  · exact (h.artistKeys.keysEnsure _ _ (isKey_hashkey L _)).keysModify _ _
  · exact h.albumKeys.keysModify _ _
  · exact (h.artistPlain.plainEnsure _ _ (plain_named _ _ _)).plainModify _ _ (fun _ => rfl)
  · exact h.albumPlain.plainModify _ _ (fun _ => rfl)
  · exact (h.artistParents.intoEnsure _ _ rfl).modify_child _ _
  · show ParentsInto "artist:" (objModify library.album kal _) (objModify (ensure _ _ _) _ _)
    apply ParentsInto.modify_parent
    · apply h.albumParents.intoMono
      intro k hk
      rw [isSome_objGet_objModify]
      exact isSome_objGet_ensure _ _ _ _ hk
    · rw [isSome_objGet_objModify]
      exact isSome_objGet_ensure_self _ _ _

theorem Linked.afterArtistStep {library : Library} (h : Linked library) (L : Libs)
    (kal : String) (gs : List String) (a : String) :
    Linked (artistStep L kal gs library a) := by
  rw [artistStep_eq]
  exact (h.afterArtistLinked L kal a).afterGenreLoop L _ gs

theorem Linked.afterArtistLoop {library : Library} (h : Linked library) (L : Libs)
    (kal : String) (gs : List String) (as : List String) :
    Linked (as.foldl (artistStep L kal gs) library) := by
  induction as generalizing library with
  | nil => exact h
  | cons a as ih => exact ih (h.afterArtistStep L kal gs a)

theorem isKey_albumKey (L : Libs) (sAlbum : String) (arrayArtists : List String) :
    IsKey (albumKey L sAlbum arrayArtists) := by
  unfold albumKey
  split <;> exact isKey_hashkey L _

theorem Linked.afterTrackLinked {library : Library} (h : Linked library) (L : Libs)
    (sService sUri sTitle sAlbum : String) (arrayArtists : List String)
    (nTrackNumber dateTrackDate : JSVal) :
    Linked (trackLinked L library sService sUri sTitle sAlbum arrayArtists nTrackNumber
      dateTrackDate) := by
  constructor
  · exact h.genreKeys
  · exact h.artistKeys
  · exact (h.albumKeys.keysEnsure _ _ (isKey_albumKey L _ _)).keysModify _ _
  · exact h.artistPlain
  · exact (h.albumPlain.plainEnsure _ _ (plain_named _ _ _)).plainModify _ _ (fun _ => rfl)
  · exact h.artistParents
  · exact (h.albumParents.intoEnsure _ _ rfl).modify_child _ _

theorem Linked.afterAddLibraryItem {library : Library} (h : Linked library) (L : Libs)
    (sService sUri sTitle sAlbum : String) (arrayArtists arrayGenres : List String)
    (nTrackNumber dateTrackDate : JSVal) :
    Linked (addLibraryItem L library sService sUri sTitle sAlbum arrayArtists arrayGenres
      nTrackNumber dateTrackDate) := by
  rw [addLibraryItem_eq]
  exact (h.afterTrackLinked L _ _ _ _ _ _ _).afterArtistLoop L _ _ _

theorem linked_populate (L : Libs) (rs : List TrackRecord) {library : Library}
    (h : Linked library) : Linked (populateLibraryFromTracklist L library rs) := by
  unfold populateLibraryFromTracklist
  induction rs generalizing library with
  | nil => exact h
  | cons r rs ih => exact ih (h.afterAddLibraryItem L _ _ _ _ _ _ _ _)

theorem ingest_example (L : Libs) :
    ingest L emptyLibrary exampleRecord = exampleLibrary L := by
  have hgh : ¬ ("Album1" = "Greatest Hits") := by decide
  simp [ingest, addLibraryItem, exampleRecord, emptyLibrary, objHas, objSet, objModify,
    albumKey, artistStep, genreStep, Entity.named, Entity.addChild, Entity.addParent,
    keyInsert, hgh, exampleLibrary, exampleGenre, exampleArtist, exampleAlbum, exampleTrack,
    exampleItem]

/-! ## Fan-out and positional pick on ingested libraries -/

theorem mapOutcome_forall2 {α β γ : Type} (f : α → Outcome β) (R : α → γ → Prop) (h : γ → β)
    (xs : List α) (hx : ∀ x ∈ xs, ∃ y, R x y ∧ f x = .value (h y)) :
    ∃ ys, List.Forall₂ R xs ys ∧ mapOutcome f xs = .value (ys.map h) := by
  induction xs with
  | nil => exact ⟨[], List.Forall₂.nil, rfl⟩
  | cons x xs ih =>
    obtain ⟨y, hy, hf⟩ := hx x (List.mem_cons_self _ _)
    obtain ⟨ys, hys, hm⟩ := ih (fun x' hx' => hx x' (List.mem_cons_of_mem _ hx'))
    exact ⟨y :: ys, List.Forall₂.cons hy hys, by simp [mapOutcome, hf, hm]⟩

theorem getProp_name (e : Entity) :
    getProp e.toJS "name" = .value ((objGet e.fields "name").getD .undefined) := by
  simp only [Entity.toJS, getProp, objGet_append]
  cases objGet e.fields "name" <;> simp [objGet]

theorem ref_path (t k p : String) (tc : String) (h : tc = t ++ ":") :
    tc ++ k ++ ":" ++ p = t ++ ":" ++ k ++ ":" ++ p := by
  rw [h]

/-- Resolving `genre:k:name` from the root of a library gives the name of genre `k`. -/
theorem resolve_genre_name (library : Library) (fuel : Nat) (k : String) (g : Entity)
    (hk : IsKey k) (hg : objGet library.genre k = some g) :
    getLibraryObject library.toJS (fuel + 3) library.toJS ("genre:" ++ k ++ ":" ++ "name") =
      .value ((objGet g.fields "name").getD .undefined) := by
  rw [ref_path "genre" k "name" "genre:" (by decide),
    getLibraryObject_ref library.toJS (fuel + 1) "genre" k "name" library.genre g
      (getProp_root_genre library) (by decide) (by decide) (by decide) hk hg,
    getLibraryObject_last _ _ _ _ (by decide), getProp_name]

/-- Resolving `artist:k:name` from the root of a library gives the name of artist `k`. -/
theorem resolve_artist_name (library : Library) (fuel : Nat) (k : String) (a : Entity)
    (hk : IsKey k) (ha : objGet library.artist k = some a) :
    getLibraryObject library.toJS (fuel + 3) library.toJS ("artist:" ++ k ++ ":" ++ "name") =
      .value ((objGet a.fields "name").getD .undefined) := by
  rw [ref_path "artist" k "name" "artist:" (by decide),
    getLibraryObject_ref library.toJS (fuel + 1) "artist" k "name" library.artist a
      (getProp_root_artist library) (by decide) (by decide) (by decide) hk ha,
    getLibraryObject_last _ _ _ _ (by decide), getProp_name]

theorem isSome_iff_exists {α : Type} {o : Option α} (h : o.isSome = true) : ∃ x, o = some x := by
  cases o with
  | none => simp at h
  | some x => exact ⟨x, rfl⟩

/-- C6: in a library built by ingestion, `parents:#:name` on an artist returns one element
per key of the artist's parents set, in insertion order, the element for a key being the
name of the genre that key refers to from the root. -/
theorem C6_fanout_parent_genre_names (L : Libs) (rs : List TrackRecord) (fuel : Nat)
    (k : String) (artist : Entity)
    (h : objGet (populateLibraryFromTracklist L emptyLibrary rs).artist k = some artist) :
    ∃ genres : List Entity,
      List.Forall₂
        (fun ref g => ∃ kg, ref = "genre:" ++ kg ∧
          objGet (populateLibraryFromTracklist L emptyLibrary rs).genre kg = some g)
        artist.parents genres ∧
      getLibraryObject (populateLibraryFromTracklist L emptyLibrary rs).toJS (fuel + 5)
          artist.toJS "parents:#:name" =
        .value (.arr (genres.map fun g => (objGet g.fields "name").getD .undefined)) := by
  have hL : Linked (populateLibraryFromTracklist L emptyLibrary rs) :=
    linked_populate L rs linked_empty
  generalize populateLibraryFromTracklist L emptyLibrary rs = library at h hL
  have hp : "parents:#:name" = "parents" ++ ":" ++ ("#" ++ ":" ++ "name") := by decide
  rw [hp, getLibraryObject_parents _ _ _ _ (hL.artistPlain k artist h),
    getLibraryObject_all_keySet]
  obtain ⟨genres, hg, hm⟩ := mapOutcome_forall2
    (fun curUid => getLibraryObject library.toJS (fuel + 3) library.toJS (curUid ++ ":" ++ "name"))
    (fun ref g => ∃ kg, ref = "genre:" ++ kg ∧ objGet library.genre kg = some g)
    (fun g => (objGet g.fields "name").getD .undefined) artist.parents
    (by
      intro ref href
      obtain ⟨kg, rfl, hs⟩ := hL.artistParents k artist h ref href
      obtain ⟨g, hg⟩ := isSome_iff_exists hs
      exact ⟨g, ⟨kg, rfl, hg⟩, resolve_genre_name library fuel kg g (hL.genreKeys kg g hg) hg⟩)
  exact ⟨genres, hg, by rw [hm]; rfl⟩

theorem populate_single (L : Libs) (r : TrackRecord) :
    populateLibraryFromTracklist L emptyLibrary [r] = ingest L emptyLibrary r := rfl

theorem example_artist (L : Libs) :
    objGet (populateLibraryFromTracklist L emptyLibrary [exampleRecord]).artist
      (convertStringToHashkey L (some "Artist1")) = some (exampleArtist L) := by
  rw [populate_single, ingest_example]
  simp [objGet, exampleLibrary]

theorem example_album (L : Libs) :
    objGet (populateLibraryFromTracklist L emptyLibrary [exampleRecord]).album
      (convertStringToHashkey L (some "Album1")) = some (exampleAlbum L) := by
  rw [populate_single, ingest_example]
  simp [objGet, exampleLibrary]

theorem C6_fanout_witness :
    objGet (populateLibraryFromTracklist sampleLibs emptyLibrary [exampleRecord]).artist
        (convertStringToHashkey sampleLibs (some "Artist1")) = some (exampleArtist sampleLibs) ∧
    ∃ genres : List Entity,
      List.Forall₂
        (fun ref g => ∃ kg, ref = "genre:" ++ kg ∧
          objGet (populateLibraryFromTracklist sampleLibs emptyLibrary [exampleRecord]).genre kg
            = some g)
        (exampleArtist sampleLibs).parents genres ∧
      getLibraryObject (populateLibraryFromTracklist sampleLibs emptyLibrary [exampleRecord]).toJS
          5 (exampleArtist sampleLibs).toJS "parents:#:name" =
        .value (.arr (genres.map fun g => (objGet g.fields "name").getD .undefined)) :=
  ⟨example_artist sampleLibs,
    C6_fanout_parent_genre_names sampleLibs [exampleRecord] 0 _ _ (example_artist sampleLibs)⟩

theorem pick_path (n : Nat) :
    "parents:#" ++ toString n ++ ":name" = "parents" ++ ":" ++ ("#" ++ toString n ++ ":" ++ "name") := by
  have h1 : "parents:#" = "parents" ++ ":" ++ "#" := by decide
  have h2 : ":name" = ":" ++ "name" := by decide
  rw [h1, h2]
  simp only [String.append_assoc]

/-- C7: in a library built by ingestion, `parents:#N:name` on an album with more than `N`
parents returns the name of the artist that the `N`-th key (from 0, in insertion order) of
its parents set refers to; `parents:#0:name` is the case of the first key. -/
theorem C7_pick_parent_artist_name (L : Libs) (rs : List TrackRecord) (fuel : Nat)
    (k : String) (album : Entity) (n : Nat)
    (h : objGet (populateLibraryFromTracklist L emptyLibrary rs).album k = some album)
    (hn : n < album.parents.length) :
    ∃ ka artist, album.parents[n]? = some ("artist:" ++ ka) ∧
      objGet (populateLibraryFromTracklist L emptyLibrary rs).artist ka = some artist ∧
      getLibraryObject (populateLibraryFromTracklist L emptyLibrary rs).toJS (fuel + 5)
          album.toJS ("parents:#" ++ toString n ++ ":name") =
        .value ((objGet artist.fields "name").getD .undefined) ∧
      (n = 0 →
        getLibraryObject (populateLibraryFromTracklist L emptyLibrary rs).toJS (fuel + 5)
          album.toJS "parents:#0:name" =
        .value ((objGet artist.fields "name").getD .undefined)) := by
  have hL : Linked (populateLibraryFromTracklist L emptyLibrary rs) :=
    linked_populate L rs linked_empty
  generalize populateLibraryFromTracklist L emptyLibrary rs = library at h hL
  obtain ⟨ka, hka, hs⟩ := hL.albumParents k album h album.parents[n] (List.getElem_mem _)
  obtain ⟨artist, ha⟩ := isSome_iff_exists hs
  have hres : getLibraryObject library.toJS (fuel + 5) album.toJS
      ("parents:#" ++ toString n ++ ":name") =
        .value ((objGet artist.fields "name").getD .undefined) := by
    rw [pick_path, getLibraryObject_parents _ _ _ _ (hL.albumPlain k album h),
      getLibraryObject_pick_keySet _ _ _ _ _ hn, hka,
      resolve_artist_name library fuel ka artist (hL.artistKeys ka artist ha) ha]
  refine ⟨ka, artist, ?_, ha, hres, ?_⟩
  · rw [List.getElem?_eq_getElem hn, hka]
  · rintro rfl
    exact hres

theorem C7_pick_witness :
    objGet (populateLibraryFromTracklist sampleLibs emptyLibrary [exampleRecord]).album
        (convertStringToHashkey sampleLibs (some "Album1")) = some (exampleAlbum sampleLibs) ∧
    0 < (exampleAlbum sampleLibs).parents.length ∧
    ∃ ka artist, (exampleAlbum sampleLibs).parents[0]? = some ("artist:" ++ ka) ∧
      objGet (populateLibraryFromTracklist sampleLibs emptyLibrary [exampleRecord]).artist ka
        = some artist ∧
      getLibraryObject (populateLibraryFromTracklist sampleLibs emptyLibrary [exampleRecord]).toJS
          5 (exampleAlbum sampleLibs).toJS ("parents:#" ++ toString 0 ++ ":name") =
        .value ((objGet artist.fields "name").getD .undefined) ∧
      (0 = 0 →
        getLibraryObject
          (populateLibraryFromTracklist sampleLibs emptyLibrary [exampleRecord]).toJS
          5 (exampleAlbum sampleLibs).toJS "parents:#0:name" =
        .value ((objGet artist.fields "name").getD .undefined)) :=
  ⟨example_album sampleLibs, by decide,
    C7_pick_parent_artist_name sampleLibs [exampleRecord] 0 _ _ 0 (example_album sampleLibs)
      (by decide)⟩

/-! ## The end-to-end example -/

/-- Resolving `tc ++ k ++ ":" ++ p` from the root, `tc` being a table name and a colon. -/
theorem resolve_ref (library : Library) (fuel : Nat) (t tc k p : String) (tbl : Table)
    (e : Entity) (htc : tc = t ++ ":") (ht : getProp library.toJS t = .value (tableToJS tbl))
    (h0 : ':' ∉ t.data) (h1 : t ≠ "#") (h2 : sliceTo t 1 ≠ "#")
    (hk : IsKey k) (he : objGet tbl k = some e) :
    getLibraryObject library.toJS (fuel + 2) library.toJS (tc ++ k ++ ":" ++ p) =
      getLibraryObject library.toJS fuel e.toJS p := by
  rw [htc]
  exact getLibraryObject_ref library.toJS fuel t k p tbl e ht h0 h1 h2 hk he

theorem flatten_single_str (L : Libs) (s : String) :
    flattenArrayToCSV L (.arr [.str s]) = .value (.str s) := by
  simp [flattenArrayToCSV, reduceArray]

theorem example_sort_name (L : Libs) (fuel : Nat) :
    getLibraryObject (exampleLibrary L).toJS (fuel + 3) (exampleLibrary L).toJS
        ("track" ++ ":" ++ convertStringToHashkey L (some ("Album1" ++ "Song")) ++ ":" ++ "name") =
      .value (.str "Song") := by
  rw [getLibraryObject_ref _ (fuel + 1) "track" _ "name" _ (exampleTrack L)
      (getProp_root_track _) (by decide) (by decide) (by decide) (isKey_hashkey L _)
      (by simp [exampleLibrary, objGet]),
    getLibraryObject_last _ _ _ _ (by decide), getProp_name]
  rfl

theorem example_album_name (L : Libs) (fuel : Nat) :
    getLibraryObject (exampleLibrary L).toJS (fuel + 7) (exampleLibrary L).toJS
        ("track" ++ ":" ++ convertStringToHashkey L (some ("Album1" ++ "Song")) ++ ":" ++
          "parents:#0:name") =
      .value (.str "Album1") := by
  have hp : "parents:#0:name" = "parents" ++ ":" ++ ("#" ++ toString 0 ++ ":" ++ "name") := by
    decide
  rw [getLibraryObject_ref _ (fuel + 5) "track" _ _ _ (exampleTrack L)
      (getProp_root_track _) (by decide) (by decide) (by decide) (isKey_hashkey L _)
      (by simp [exampleLibrary, objGet]),
    hp, getLibraryObject_parents _ _ _ _ (by constructor <;> simp [exampleTrack, objGet]),
    getLibraryObject_pick_keySet _ _ _ _ _ (by simp [exampleTrack])]
  show getLibraryObject _ (fuel + 3) _
    ("album:" ++ convertStringToHashkey L (some "Album1") ++ ":" ++ "name") = _
  rw [resolve_ref _ (fuel + 1) "album" _ _ "name" _ (exampleAlbum L) (by decide)
      (getProp_root_album _) (by decide) (by decide) (by decide) (isKey_hashkey L _)
      (by simp [exampleLibrary, objGet]),
    getLibraryObject_last _ _ _ _ (by decide), getProp_name]
  rfl

theorem example_artist_names (L : Libs) (fuel : Nat) :
    getLibraryObject (exampleLibrary L).toJS (fuel + 11) (exampleLibrary L).toJS
        ("track" ++ ":" ++ convertStringToHashkey L (some ("Album1" ++ "Song")) ++ ":" ++
          "parents:#0:parents:#:name") =
      .value (.arr [.str "Artist1"]) := by
  have hp : "parents:#0:parents:#:name" =
      "parents" ++ ":" ++ ("#" ++ toString 0 ++ ":" ++ "parents:#:name") := by decide
  have hq : "parents:#:name" = "parents" ++ ":" ++ ("#" ++ ":" ++ "name") := by decide
  rw [getLibraryObject_ref _ (fuel + 9) "track" _ _ _ (exampleTrack L)
      (getProp_root_track _) (by decide) (by decide) (by decide) (isKey_hashkey L _)
      (by simp [exampleLibrary, objGet]),
    hp, getLibraryObject_parents _ _ _ _ (by constructor <;> simp [exampleTrack, objGet]),
    getLibraryObject_pick_keySet _ _ _ _ _ (by simp [exampleTrack])]
  show getLibraryObject _ (fuel + 7) _
    ("album:" ++ convertStringToHashkey L (some "Album1") ++ ":" ++ "parents:#:name") = _
  rw [resolve_ref _ (fuel + 5) "album" _ _ _ _ (exampleAlbum L) (by decide)
      (getProp_root_album _) (by decide) (by decide) (by decide) (isKey_hashkey L _)
      (by simp [exampleLibrary, objGet]),
    hq, getLibraryObject_parents _ _ _ _ (by constructor <;> simp [exampleAlbum, objGet]),
    getLibraryObject_all_keySet]
  show (mapOutcome _ ["artist:" ++ convertStringToHashkey L (some "Artist1")]).map _ = _
  simp only [mapOutcome]
  rw [resolve_ref _ (fuel + 1) "artist" _ _ "name" _ (exampleArtist L) (by decide)
      (getProp_root_artist _) (by decide) (by decide) (by decide) (isKey_hashkey L _)
      (by simp [exampleLibrary, objGet]),
    getLibraryObject_last _ _ _ _ (by decide), getProp_name]
  rfl

/-- C1: ingesting the example record into the empty library gives exactly one genre
`Rock`, one artist `Artist1` under it, one album `Album1` under the artist, one track `Song`
(tracknumber 1, date `2020`) under the album and one item (`s1`, `u1`) under the track; the
`Tracks by Name` index over all tracks is then the single entry with the values
name `Song`, album `Album1`, artists `Artist1`. -/
theorem C1_end_to_end (L : Libs) (fuel : Nat) :
    ingest L emptyLibrary exampleRecord = exampleLibrary L ∧
    generateSortedIndex L (ingest L emptyLibrary exampleRecord).toJS (fuel + 11)
        (tableUids "track" (ingest L emptyLibrary exampleRecord).track)
        tracksByName.sortby tracksByName.datafields =
      .value [{ uid := "track" ++ ":" ++ convertStringToHashkey L (some ("Album1" ++ "Song")),
                datavalues := [("name", .str "Song"), ("album", .str "Album1"),
                  ("artists", .str "Artist1")] }] := by
  refine ⟨ingest_example L, ?_⟩
  rw [ingest_example]
  have hrow : sortRow L (exampleLibrary L).toJS (fuel + 11) "name"
      [("name", "name"), ("album", "parents:#0:name"), ("artists", "parents:#0:parents:#:name")]
      ("track" ++ ":" ++ convertStringToHashkey L (some ("Album1" ++ "Song"))) =
      .value (exampleRow L) := by
    simp only [sortRow, dataValues, objKeys, List.map, objGet, Option.map, Option.getD,
      jsToString, if_true]
    rw [example_sort_name L (fuel + 8)]
    simp only [Outcome.bind, flattenArrayToCSV]
    have h1 : ¬ ("name" = "album") := by decide
    have h2 : ¬ ("name" = "artists") := by decide
    have h3 : ¬ ("album" = "artists") := by decide
    simp only [h1, h2, h3, if_false]
    rw [example_album_name L (fuel + 4), example_artist_names L fuel]
    simp [Outcome.bind, Outcome.map, flattenArrayToCSV, reduceArray, objSet, h1, h2, h3,
      exampleRow]
  have hperm := L.sortOn_perm [exampleRow L]
  have huids : tableUids "track" (exampleLibrary L).track =
      ["track" ++ ":" ++ convertStringToHashkey L (some ("Album1" ++ "Song"))] := rfl
  rw [huids]
  simp only [generateSortedIndex, tracksByName, mapOutcome]
  rw [hrow]
  simp only [Outcome.map]
  rw [List.perm_singleton.1 hperm]
  rfl

/-! ## Growth of tables and absorbed steps -/

theorem EntityGrows.entityRefl (e : Entity) : EntityGrows e e :=
  ⟨rfl, List.prefix_refl _, List.prefix_refl _⟩

theorem EntityGrows.entityTrans {a b c : Entity} (h1 : EntityGrows a b) (h2 : EntityGrows b c) :
    EntityGrows a c :=
  ⟨h2.1.trans h1.1, h1.2.1.trans h2.2.1, h1.2.2.trans h2.2.2⟩

theorem prefix_keyInsert (ks : List String) (k : String) : ks <+: keyInsert ks k := by
  unfold keyInsert
  split
  · exact List.prefix_refl _
  · exact List.prefix_append _ _

theorem EntityGrows.growChild (e : Entity) (c : String) : EntityGrows e (e.addChild c) :=
  ⟨rfl, prefix_keyInsert _ _, List.prefix_refl _⟩

theorem EntityGrows.growParent (e : Entity) (p : String) : EntityGrows e (e.addParent p) :=
  ⟨rfl, List.prefix_refl _, prefix_keyInsert _ _⟩

theorem TableGrows.tableRefl (t : Table) : TableGrows t t :=
  fun _ e h => ⟨e, h, EntityGrows.entityRefl e⟩

theorem TableGrows.tableTrans {a b c : Table} (h1 : TableGrows a b) (h2 : TableGrows b c) :
    TableGrows a c := by
  intro k e he
  obtain ⟨e1, he1, g1⟩ := h1 k e he
  obtain ⟨e2, he2, g2⟩ := h2 k e1 he1
  exact ⟨e2, he2, g1.entityTrans g2⟩

theorem TableGrows.tableEnsure (t : Table) (k : String) (d : Entity) :
    TableGrows t (ensure t k d) := by
  intro k' e he
  refine ⟨e, ?_, EntityGrows.entityRefl e⟩
  rw [objGet_ensure]
  by_cases hk : k = k'
  · subst hk; simp [he]
  · simp [hk, he]

theorem TableGrows.tableModify (t : Table) (k : String) (f : Entity → Entity)
    (hf : ∀ e, EntityGrows e (f e)) : TableGrows t (objModify t k f) := by
  intro k' e he
  rw [objGet_objModify]
  by_cases hk : k = k'
  · subst hk
    exact ⟨f e, by simp [he], hf e⟩
  · exact ⟨e, by simp [hk, he], EntityGrows.entityRefl e⟩

theorem TableGrows.keepsPresent {t t' : Table} (h : TableGrows t t') {k : String}
    (hp : Present t k) : Present t' k := by
  obtain ⟨e, he⟩ := hp
  obtain ⟨e', he', _⟩ := h k e he
  exact ⟨e', he'⟩

theorem TableGrows.keepsChild {t t' : Table} (h : TableGrows t t') {k c : String}
    (hp : ChildIn t k c) : ChildIn t' k c := by
  obtain ⟨e, he, hc⟩ := hp
  obtain ⟨e', he', g⟩ := h k e he
  exact ⟨e', he', g.2.1.subset hc⟩

theorem TableGrows.keepsParent {t t' : Table} (h : TableGrows t t') {k p : String}
    (hp : ParentIn t k p) : ParentIn t' k p := by
  obtain ⟨e, he, hc⟩ := hp
  obtain ⟨e', he', g⟩ := h k e he
  exact ⟨e', he', g.2.2.subset hc⟩

theorem objModify_absorb (t : Table) (k : String) (f : Entity → Entity)
    (h : ∀ e, objGet t k = some e → f e = e) : objModify t k f = t := by
  induction t with
  | nil => rfl
  | cons kv rest ih =>
    obtain ⟨k0, v0⟩ := kv
    by_cases h0 : k0 = k
    · have := h v0 (by simp [objGet, h0])
      simp [objModify, h0, this]
    · have h' : ∀ e, objGet rest k = some e → f e = e := by
        intro e he
        exact h e (by simpa [objGet, h0] using he)
      simp [objModify, h0, ih h']

theorem keyInsert_absorb (ks : List String) (k : String) (h : k ∈ ks) : keyInsert ks k = ks := by
  simp [keyInsert, h]

theorem ChildIn.childAbsorb {t : Table} {k c : String} (h : ChildIn t k c) :
    objModify t k (Entity.addChild c) = t := by
  apply objModify_absorb
  intro e he
  obtain ⟨e', he', hc⟩ := h
  rw [he] at he'
  cases he'
  simp [Entity.addChild, keyInsert_absorb _ _ hc]

theorem ParentIn.parentAbsorb {t : Table} {k p : String} (h : ParentIn t k p) :
    objModify t k (Entity.addParent p) = t := by
  apply objModify_absorb
  intro e he
  obtain ⟨e', he', hc⟩ := h
  rw [he] at he'
  cases he'
  simp [Entity.addParent, keyInsert_absorb _ _ hc]

theorem Present.presentAbsorb {t : Table} {k : String} (h : Present t k) (d : Entity) :
    ensure t k d = t := by
  obtain ⟨e, he⟩ := h
  simp [ensure, objHas_eq, he]

theorem present_ensure (t : Table) (k : String) (d : Entity) : Present (ensure t k d) k := by
  rw [Present, objGet_ensure]
  simp

theorem childIn_modify {t : Table} {k : String} (h : Present t k) (c : String) :
    ChildIn (objModify t k (Entity.addChild c)) k c := by
  obtain ⟨e, he⟩ := h
  refine ⟨e.addChild c, by simp [objGet_objModify, he], ?_⟩
  exact (mem_keyInsert _ _ _).2 (Or.inr rfl)

theorem parentIn_modify {t : Table} {k : String} (h : Present t k) (p : String) :
    ParentIn (objModify t k (Entity.addParent p)) k p := by
  obtain ⟨e, he⟩ := h
  refine ⟨e.addParent p, by simp [objGet_objModify, he], ?_⟩
  exact (mem_keyInsert _ _ _).2 (Or.inr rfl)

theorem ChildIn.childPresent {t : Table} {k c : String} (h : ChildIn t k c) : Present t k := by
  obtain ⟨e, he, _⟩ := h
  exact ⟨e, he⟩

theorem ParentIn.parentPresent {t : Table} {k p : String} (h : ParentIn t k p) : Present t k := by
  obtain ⟨e, he, _⟩ := h
  exact ⟨e, he⟩

/-- Folding a step whose effect, once established, is kept by every later step and makes
the step a no-op. -/
theorem foldl_established {σ α : Type} (f : σ → α → σ) (I : σ → Prop) (P : α → σ → Prop)
    (hI : ∀ s a, I s → I (f s a))
    (establish : ∀ s a, I s → P a (f s a))
    (stable : ∀ s a b, P a s → P a (f s b)) :
    ∀ (l : List α) (s : σ), I s → (∀ a, P a s → P a (l.foldl f s)) ∧
      ∀ a ∈ l, P a (l.foldl f s) := by
  intro l
  induction l with
  | nil => intro s _; exact ⟨fun _ h => h, fun _ h => by simp at h⟩
  | cons b l ih =>
    intro s hs
    obtain ⟨keep, all⟩ := ih (f s b) (hI s b hs)
    refine ⟨fun a ha => keep a (stable s a b ha), ?_⟩
    intro a ha
    rcases List.mem_cons.1 ha with rfl | ha
    · exact keep a (establish s a hs)
    · exact all a ha

theorem foldl_absorbed {σ α : Type} (f : σ → α → σ) (P : α → σ → Prop)
    (absorb : ∀ s a, P a s → f s a = s) :
    ∀ (l : List α) (s : σ), (∀ a ∈ l, P a s) → l.foldl f s = s := by
  intro l
  induction l with
  | nil => intro s _; rfl
  | cons b l ih =>
    intro s h
    rw [List.foldl_cons, absorb s b (h b (List.mem_cons_self _ _))]
    exact ih s (fun a ha => h a (List.mem_cons_of_mem _ ha))

/-! ## Idempotence of ingestion -/

theorem library_ext {s s' : Library} (h1 : s.genre = s'.genre) (h2 : s.artist = s'.artist)
    (h3 : s.album = s'.album) (h4 : s.track = s'.track) (h5 : s.item = s'.item)
    (h6 : s.index = s'.index) : s = s' := by
  cases s
  cases s'
  simp only [Library.mk.injEq]
  exact ⟨h1, h2, h3, h4, h5, h6⟩

theorem LibGrows.libRefl (s : Library) : LibGrows s s :=
  ⟨TableGrows.tableRefl _, TableGrows.tableRefl _, TableGrows.tableRefl _⟩

theorem LibGrows.libTrans {a b c : Library} (h1 : LibGrows a b) (h2 : LibGrows b c) :
    LibGrows a c :=
  ⟨h1.genre.tableTrans h2.genre, h1.artist.tableTrans h2.artist, h1.album.tableTrans h2.album⟩

theorem libGrows_genreStep (L : Libs) (ka : String) (s : Library) (g : String) :
    LibGrows s (genreStep L ka s g) := by
  constructor
  · rw [genreStep_genre]
    exact (TableGrows.tableEnsure _ _ _).tableTrans (TableGrows.tableModify _ _ _ (fun e => EntityGrows.growChild e _))
  · rw [genreStep_artist]
    exact TableGrows.tableModify _ _ _ (fun e => EntityGrows.growParent e _)
  · rw [genreStep_album]
    exact TableGrows.tableRefl _

theorem libGrows_genreLoop (L : Libs) (ka : String) (gs : List String) (s : Library) :
    LibGrows s (gs.foldl (genreStep L ka) s) := by
  induction gs generalizing s with
  | nil => exact LibGrows.libRefl s
  | cons g gs ih => exact (libGrows_genreStep L ka s g).libTrans (ih _)

theorem libGrows_artistLinked (L : Libs) (kal : String) (s : Library) (a : String) :
    LibGrows s (artistLinked L kal s a) := by
  constructor
  · exact TableGrows.tableRefl _
  · exact (TableGrows.tableEnsure _ _ _).tableTrans (TableGrows.tableModify _ _ _ (fun e => EntityGrows.growChild e _))
  · exact TableGrows.tableModify _ _ _ (fun e => EntityGrows.growParent e _)

theorem libGrows_artistStep (L : Libs) (kal : String) (gs : List String) (s : Library)
    (a : String) : LibGrows s (artistStep L kal gs s a) := by
  rw [artistStep_eq]
  exact (libGrows_artistLinked L kal s a).libTrans (libGrows_genreLoop L _ gs _)

theorem libGrows_artistLoop (L : Libs) (kal : String) (gs as : List String) (s : Library) :
    LibGrows s (as.foldl (artistStep L kal gs) s) := by
  induction as generalizing s with
  | nil => exact LibGrows.libRefl s
  | cons a as ih => exact (libGrows_artistStep L kal gs s a).libTrans (ih _)

theorem GenreDone.genreMono {L : Libs} {ka g : String} {s s' : Library} (h : GenreDone L ka g s)
    (hg : LibGrows s s') : GenreDone L ka g s' :=
  ⟨hg.genre.keepsChild h.1, hg.artist.keepsParent h.2⟩

theorem ArtistDone.artistMono {L : Libs} {kal : String} {gs : List String} {a : String}
    {s s' : Library} (h : ArtistDone L kal gs a s) (hg : LibGrows s s') :
    ArtistDone L kal gs a s' :=
  ⟨hg.artist.keepsChild h.1, hg.album.keepsParent h.2.1, fun g hgm => (h.2.2 g hgm).genreMono hg⟩

theorem GenreDone.genreAbsorb {L : Libs} {ka g : String} {s : Library} (h : GenreDone L ka g s) :
    genreStep L ka s g = s := by
  apply library_ext
  · rw [genreStep_genre, h.1.childPresent.presentAbsorb, h.1.childAbsorb]
  · rw [genreStep_artist, h.2.parentAbsorb]
  · exact genreStep_album L ka s g
  · exact genreStep_track L ka s g
  · exact genreStep_item L ka s g
  · exact genreStep_index L ka s g

theorem genreDone_genreStep (L : Libs) (ka g : String) (s : Library)
    (h : Present s.artist ka) : GenreDone L ka g (genreStep L ka s g) := by
  constructor
  · rw [genreStep_genre]
    exact childIn_modify (present_ensure _ _ _) _
  · rw [genreStep_artist]
    exact parentIn_modify h _

theorem genreLoop_done (L : Libs) (ka : String) (gs : List String) (s : Library)
    (h : Present s.artist ka) :
    ∀ g ∈ gs, GenreDone L ka g (gs.foldl (genreStep L ka) s) :=
  (foldl_established (genreStep L ka) (fun s => Present s.artist ka) (GenreDone L ka)
    (fun s g hs => (libGrows_genreStep L ka s g).artist.keepsPresent hs)
    (fun s g hs => genreDone_genreStep L ka g s hs)
    (fun s _ b hs => hs.genreMono (libGrows_genreStep L ka s b)) gs s h).2

theorem ArtistDone.artistAbsorb {L : Libs} {kal : String} {gs : List String} {a : String}
    {s : Library} (h : ArtistDone L kal gs a s) : artistStep L kal gs s a = s := by
  have h1 : artistLinked L kal s a = s := by
    apply library_ext
    · rfl
    · show objModify (ensure _ _ _) _ _ = _
      rw [h.1.childPresent.presentAbsorb, h.1.childAbsorb]
    · show objModify _ _ _ = _
      rw [h.2.1.parentAbsorb]
    · rfl
    · rfl
    · rfl
  rw [artistStep_eq, h1]
  exact foldl_absorbed (genreStep L _) (GenreDone L _) (fun s g hg => hg.genreAbsorb) gs s h.2.2

theorem artistDone_artistStep (L : Libs) (kal : String) (gs : List String) (a : String)
    (s : Library) (h : Present s.album kal) :
    ArtistDone L kal gs a (artistStep L kal gs s a) := by
  rw [artistStep_eq]
  have hg := libGrows_genreLoop L (convertStringToHashkey L (some a)) gs (artistLinked L kal s a)
  have hc : ChildIn (artistLinked L kal s a).artist (convertStringToHashkey L (some a))
      ("album:" ++ kal) := childIn_modify (present_ensure _ _ _) _
  refine ⟨hg.artist.keepsChild hc, hg.album.keepsParent (parentIn_modify h _), ?_⟩
  exact genreLoop_done L _ gs _ hc.childPresent

theorem artistLoop_done (L : Libs) (kal : String) (gs as : List String) (s : Library)
    (h : Present s.album kal) :
    ∀ a ∈ as, ArtistDone L kal gs a (as.foldl (artistStep L kal gs) s) :=
  (foldl_established (artistStep L kal gs) (fun s => Present s.album kal) (ArtistDone L kal gs)
    (fun s a hs => (libGrows_artistStep L kal gs s a).album.keepsPresent hs)
    (fun s a hs => artistDone_artistStep L kal gs a s hs)
    (fun s _ b hs => hs.artistMono (libGrows_artistStep L kal gs s b)) as s h).2

theorem genreLoop_track (L : Libs) (ka : String) (gs : List String) (s : Library) :
    (gs.foldl (genreStep L ka) s).track = s.track ∧ (gs.foldl (genreStep L ka) s).item = s.item ∧
      (gs.foldl (genreStep L ka) s).index = s.index := by
  induction gs generalizing s with
  | nil => exact ⟨rfl, rfl, rfl⟩
  | cons g gs ih =>
    obtain ⟨h1, h2, h3⟩ := ih (genreStep L ka s g)
    exact ⟨h1.trans (genreStep_track L ka s g), h2.trans (genreStep_item L ka s g),
      h3.trans (genreStep_index L ka s g)⟩

theorem artistStep_track (L : Libs) (kal : String) (gs : List String) (s : Library)
    (a : String) :
    (artistStep L kal gs s a).track = s.track ∧ (artistStep L kal gs s a).item = s.item ∧
      (artistStep L kal gs s a).index = s.index := by
  rw [artistStep_eq]
  exact genreLoop_track L _ gs _

theorem artistLoop_track (L : Libs) (kal : String) (gs as : List String) (s : Library) :
    (as.foldl (artistStep L kal gs) s).track = s.track ∧
      (as.foldl (artistStep L kal gs) s).item = s.item ∧
      (as.foldl (artistStep L kal gs) s).index = s.index := by
  induction as generalizing s with
  | nil => exact ⟨rfl, rfl, rfl⟩
  | cons a as ih =>
    obtain ⟨h1, h2, h3⟩ := ih (artistStep L kal gs s a)
    obtain ⟨g1, g2, g3⟩ := artistStep_track L kal gs s a
    exact ⟨h1.trans g1, h2.trans g2, h3.trans g3⟩

theorem objSet_objSet {β : Type} (t : List (String × β)) (k : String) (v v' : β) :
    objSet (objSet t k v) k v' = objSet t k v' := by
  induction t with
  | nil => simp [objSet]
  | cons kv rest ih =>
    obtain ⟨k0, v0⟩ := kv
    by_cases h0 : k0 = k <;> simp [objSet, h0, ih]

theorem objSet_objModify {β : Type} (t : List (String × β)) (k : String) (f : β → β) (v : β) :
    objSet (objModify t k f) k v = objSet t k v := by
  induction t with
  | nil => simp [objSet, objModify]
  | cons kv rest ih =>
    obtain ⟨k0, v0⟩ := kv
    by_cases h0 : k0 = k <;> simp [objSet, objModify, h0, ih]

theorem trackLinked_absorb (L : Libs) (library : Library)
    (sService sUri sTitle sAlbum : String) (arrayArtists arrayGenres : List String)
    (nTrackNumber dateTrackDate : JSVal) :
    trackLinked L (addLibraryItem L library sService sUri sTitle sAlbum arrayArtists
        arrayGenres nTrackNumber dateTrackDate) sService sUri sTitle sAlbum arrayArtists
        nTrackNumber dateTrackDate =
      addLibraryItem L library sService sUri sTitle sAlbum arrayArtists arrayGenres
        nTrackNumber dateTrackDate := by
  rw [addLibraryItem_eq]
  generalize hs0 : trackLinked L library sService sUri sTitle sAlbum arrayArtists nTrackNumber
    dateTrackDate = s0
  obtain ⟨ht, hi, _⟩ := artistLoop_track L (albumKey L sAlbum arrayArtists) arrayGenres
    arrayArtists s0
  have hg := libGrows_artistLoop L (albumKey L sAlbum arrayArtists) arrayGenres arrayArtists s0
  generalize hs1 : List.foldl (artistStep L (albumKey L sAlbum arrayArtists) arrayGenres) s0
    arrayArtists = s1 at ht hi hg
  apply library_ext
  · rfl
  · rfl
  · show objModify (ensure s1.album _ _) _ _ = s1.album
    have hc : ChildIn s0.album (albumKey L sAlbum arrayArtists)
        ("track:" ++ convertStringToHashkey L (some (sAlbum ++ sTitle))) := by
      rw [← hs0]
      exact childIn_modify (present_ensure _ _ _) _
    have hc1 := hg.album.keepsChild hc
    rw [hc1.childPresent.presentAbsorb, hc1.childAbsorb]
  · show objModify (objModify (ensure s1.track _ _) _ _) _ _ = s1.track
    have hc : ChildIn s1.track (convertStringToHashkey L (some (sAlbum ++ sTitle)))
        ("item:" ++ convertStringToHashkey L (some (sService ++ sUri))) := by
      rw [ht, ← hs0]
      exact (TableGrows.tableModify _ _ _ (fun e => EntityGrows.growParent e _)).keepsChild
        (childIn_modify (present_ensure _ _ _) _)
    have hp : ParentIn s1.track (convertStringToHashkey L (some (sAlbum ++ sTitle)))
        ("album:" ++ albumKey L sAlbum arrayArtists) := by
      rw [ht, ← hs0]
      exact parentIn_modify (childIn_modify (present_ensure _ _ _) _).childPresent _
    rw [hc.childPresent.presentAbsorb, hc.childAbsorb, hp.parentAbsorb]
  · show objModify (objSet s1.item _ _) _ _ = s1.item
    rw [hi, ← hs0]
    show objModify (objSet (objModify (objSet library.item _ _) _ _) _ _) _ _ = _
    rw [objSet_objModify, objSet_objSet]
    rfl
  · rfl

/-- C2: ingesting a record a second time changes nothing: the library after two consecutive
ingestions of the same record equals the library after one, table by table, entity by
entity, with the same keys in the same order in every edge set. -/
theorem C2_addLibraryItem_idempotent (L : Libs) (library : Library) (r : TrackRecord) :
    ingest L (ingest L library r) r = ingest L library r := by
  unfold ingest
  rw [addLibraryItem_eq L (addLibraryItem L library r.service r.uri r.title r.album r.artists
    r.genres r.tracknumber r.date), trackLinked_absorb]
  apply foldl_absorbed (artistStep L _ r.genres) (ArtistDone L _ r.genres)
    (fun s a h => h.artistAbsorb)
  rw [addLibraryItem_eq]
  apply artistLoop_done
  exact (childIn_modify (present_ensure _ _ _) _).childPresent

/-! ## First write wins -/

theorem tableGrows_track (L : Libs) (library : Library) (r : TrackRecord) :
    TableGrows library.track (ingest L library r).track := by
  unfold ingest
  rw [addLibraryItem_eq, (artistLoop_track L _ _ _ _).1]
  exact ((TableGrows.tableEnsure _ _ _).tableTrans
    (TableGrows.tableModify _ _ _ (fun e => EntityGrows.growChild e _))).tableTrans
    (TableGrows.tableModify _ _ _ (fun e => EntityGrows.growParent e _))

/-- C5: if the library already holds a track under the key `hash(album + title)` of a
record, ingesting the record leaves that track's own fields (name, tracknumber, date) as
they were, whatever the record carries, and its children and parents sets keep their keys
in place, new keys only being appended. -/
theorem C5_track_first_write_wins (L : Libs) (library : Library) (r : TrackRecord)
    (track : Entity)
    (h : objGet library.track (convertStringToHashkey L (some (r.album ++ r.title))) =
      some track) :
    ∃ track', objGet (ingest L library r).track
        (convertStringToHashkey L (some (r.album ++ r.title))) = some track' ∧
      objGet track'.fields "name" = objGet track.fields "name" ∧
      objGet track'.fields "tracknumber" = objGet track.fields "tracknumber" ∧
      objGet track'.fields "date" = objGet track.fields "date" ∧
      track'.fields = track.fields ∧
      track.children <+: track'.children ∧ track.parents <+: track'.parents := by
  obtain ⟨track', h', hf, hc, hp⟩ := tableGrows_track L library r _ track h
  exact ⟨track', h', by rw [hf], by rw [hf], by rw [hf], hf, hc, hp⟩

theorem example_track_present :
    objGet (exampleLibrary sampleLibs).track
        (convertStringToHashkey sampleLibs (some (exampleReissue.album ++ exampleReissue.title)))
      = some (exampleTrack sampleLibs) := by
  simp [exampleLibrary, exampleReissue, objGet]

theorem C5_first_write_wins_witness :
    objGet (exampleLibrary sampleLibs).track
        (convertStringToHashkey sampleLibs (some (exampleReissue.album ++ exampleReissue.title)))
      = some (exampleTrack sampleLibs) ∧
    ∃ track', objGet (ingest sampleLibs (exampleLibrary sampleLibs) exampleReissue).track
        (convertStringToHashkey sampleLibs
          (some (exampleReissue.album ++ exampleReissue.title))) = some track' ∧
      objGet track'.fields "name" = objGet (exampleTrack sampleLibs).fields "name" ∧
      objGet track'.fields "tracknumber" =
        objGet (exampleTrack sampleLibs).fields "tracknumber" ∧
      objGet track'.fields "date" = objGet (exampleTrack sampleLibs).fields "date" ∧
      track'.fields = (exampleTrack sampleLibs).fields ∧
      (exampleTrack sampleLibs).children <+: track'.children ∧
      (exampleTrack sampleLibs).parents <+: track'.parents :=
  ⟨example_track_present,
    C5_track_first_write_wins sampleLibs (exampleLibrary sampleLibs) exampleReissue _
      example_track_present⟩

/-! ## Album keys -/

theorem objKeys_objModify {β : Type} (t : List (String × β)) (k : String) (f : β → β) :
    objKeys (objModify t k f) = objKeys t := by
  induction t with
  | nil => rfl
  | cons kv rest ih =>
    obtain ⟨k0, v0⟩ := kv
    unfold objKeys at ih ⊢
    by_cases h0 : k0 = k <;> simp [objModify, h0, ih]

theorem objKeys_objSet_new {β : Type} (t : List (String × β)) (k : String) (v : β)
    (h : objHas t k = false) : objKeys (objSet t k v) = objKeys t ++ [k] := by
  induction t with
  | nil => rfl
  | cons kv rest ih =>
    obtain ⟨k0, v0⟩ := kv
    unfold objKeys at ih ⊢
    by_cases h0 : k0 = k
    · simp [objHas, h0] at h
    · simp only [objHas, if_neg h0] at h
      simp [objSet, h0, ih h]

theorem objHas_iff_mem {β : Type} (t : List (String × β)) (k : String) :
    objHas t k = true ↔ k ∈ objKeys t := by
  induction t with
  | nil => simp [objHas, objKeys]
  | cons kv rest ih =>
    obtain ⟨k0, v0⟩ := kv
    unfold objKeys at ih ⊢
    by_cases h0 : k0 = k
    · simp [objHas, h0]
    · have : ¬ k = k0 := fun e => h0 e.symm
      simp [objHas, h0, ih, this]

theorem objKeys_ensure (t : Table) (k : String) (d : Entity) :
    objKeys (ensure t k d) = if k ∈ objKeys t then objKeys t else objKeys t ++ [k] := by
  unfold ensure
  by_cases h : objHas t k = true
  · rw [if_pos h, if_pos ((objHas_iff_mem t k).1 h)]
  · rw [if_neg h, if_neg (fun hm => h ((objHas_iff_mem t k).2 hm))]
    exact objKeys_objSet_new t k d (by simpa using h)

theorem genreLoop_album (L : Libs) (ka : String) (gs : List String) (s : Library) :
    (gs.foldl (genreStep L ka) s).album = s.album := by
  induction gs generalizing s with
  | nil => rfl
  | cons g gs ih => exact (ih _).trans (genreStep_album L ka s g)

theorem artistLoop_albumKeys (L : Libs) (kal : String) (gs as : List String) (s : Library) :
    objKeys (as.foldl (artistStep L kal gs) s).album = objKeys s.album := by
  induction as generalizing s with
  | nil => rfl
  | cons a as ih =>
    rw [List.foldl_cons, ih, artistStep_eq, genreLoop_album]
    exact objKeys_objModify _ _ _

/-- The album keys after an ingestion: the key of the record's album is appended unless it
is already there. -/
theorem albumKeys_ingest (L : Libs) (library : Library) (r : TrackRecord) :
    objKeys (ingest L library r).album =
      if albumKey L r.album r.artists ∈ objKeys library.album then objKeys library.album
      else objKeys library.album ++ [albumKey L r.album r.artists] := by
  unfold ingest
  rw [addLibraryItem_eq, artistLoop_albumKeys]
  show objKeys (objModify (ensure _ _ _) _ _) = _
  rw [objKeys_objModify, objKeys_ensure]

theorem albumKey_hits (L : Libs) (a : String) (arrayArtists : List String)
    (h : arrayArtists.head? = some a) :
    albumKey L "Greatest Hits" arrayArtists =
      convertStringToHashkey L (some (a ++ "Greatest Hits")) := by
  cases arrayArtists with
  | nil => simp at h
  | cons x rest =>
    simp only [List.head?_cons, Option.some.injEq] at h
    subst h
    simp [albumKey, firstArtistText]

/-- C4: two records whose album is `Greatest Hits`, with first listed artists `a1` and `a2`,
are ingested into the empty library.  If the hash separates the two key texts
`a1 + album` and `a2 + album`, then different first artists give two albums under two
different keys, and equal first artists give exactly one album. -/
theorem C4_greatest_hits_albums (L : Libs) (r1 r2 : TrackRecord) (a1 a2 : String)
    (halbum1 : r1.album = "Greatest Hits") (halbum2 : r2.album = "Greatest Hits")
    (hfirst1 : r1.artists.head? = some a1) (hfirst2 : r2.artists.head? = some a2)
    (hinj : convertStringToHashkey L (some (a1 ++ "Greatest Hits")) =
        convertStringToHashkey L (some (a2 ++ "Greatest Hits")) →
      a1 ++ "Greatest Hits" = a2 ++ "Greatest Hits") :
    (a1 ≠ a2 →
      objKeys (populateLibraryFromTracklist L emptyLibrary [r1, r2]).album =
        [convertStringToHashkey L (some (a1 ++ "Greatest Hits")),
          convertStringToHashkey L (some (a2 ++ "Greatest Hits"))] ∧
      convertStringToHashkey L (some (a1 ++ "Greatest Hits")) ≠
        convertStringToHashkey L (some (a2 ++ "Greatest Hits"))) ∧
    (a1 = a2 →
      objKeys (populateLibraryFromTracklist L emptyLibrary [r1, r2]).album =
        [convertStringToHashkey L (some (a1 ++ "Greatest Hits"))]) := by
  have hk : objKeys (populateLibraryFromTracklist L emptyLibrary [r1, r2]).album =
      if convertStringToHashkey L (some (a2 ++ "Greatest Hits")) =
          convertStringToHashkey L (some (a1 ++ "Greatest Hits"))
      then [convertStringToHashkey L (some (a1 ++ "Greatest Hits"))]
      else [convertStringToHashkey L (some (a1 ++ "Greatest Hits")),
        convertStringToHashkey L (some (a2 ++ "Greatest Hits"))] := by
    show objKeys (ingest L (ingest L emptyLibrary r1) r2).album = _
    rw [albumKeys_ingest, albumKeys_ingest, halbum1, halbum2, albumKey_hits L a1 _ hfirst1,
      albumKey_hits L a2 _ hfirst2]
    simp [emptyLibrary, objKeys]
  constructor
  · intro hne
    have hkeys : convertStringToHashkey L (some (a1 ++ "Greatest Hits")) ≠
        convertStringToHashkey L (some (a2 ++ "Greatest Hits")) := by
      intro he
      have := hinj he
      apply hne
      have hd := congrArg String.data this
      simp only [String.data_append] at hd
      exact String.ext (List.append_cancel_right hd)
    exact ⟨by rw [hk, if_neg (fun e => hkeys e.symm)], hkeys⟩
  · rintro rfl
    rw [hk, if_pos rfl]

theorem C4_greatest_hits_witness :
    hitsRecordA.album = "Greatest Hits" ∧ hitsRecordB.album = "Greatest Hits" ∧
    hitsRecordA.artists.head? = some "Abba" ∧ hitsRecordB.artists.head? = some "Queen" ∧
    (convertStringToHashkey sampleLibs (some ("Abba" ++ "Greatest Hits")) =
        convertStringToHashkey sampleLibs (some ("Queen" ++ "Greatest Hits")) →
      "Abba" ++ "Greatest Hits" = "Queen" ++ "Greatest Hits") ∧
    ("Abba" ≠ "Queen" →
      objKeys (populateLibraryFromTracklist sampleLibs emptyLibrary
          [hitsRecordA, hitsRecordB]).album =
        [convertStringToHashkey sampleLibs (some ("Abba" ++ "Greatest Hits")),
          convertStringToHashkey sampleLibs (some ("Queen" ++ "Greatest Hits"))] ∧
      convertStringToHashkey sampleLibs (some ("Abba" ++ "Greatest Hits")) ≠
        convertStringToHashkey sampleLibs (some ("Queen" ++ "Greatest Hits"))) ∧
    ("Abba" = "Queen" →
      objKeys (populateLibraryFromTracklist sampleLibs emptyLibrary
          [hitsRecordA, hitsRecordB]).album =
        [convertStringToHashkey sampleLibs (some ("Abba" ++ "Greatest Hits"))]) :=
  ⟨rfl, rfl, rfl, rfl, by decide,
    C4_greatest_hits_albums sampleLibs hitsRecordA hitsRecordB "Abba" "Queen" rfl rfl rfl rfl
      (by decide)⟩

/-! ## Re-ingesting an item under another track -/

theorem ingest_track (L : Libs) (library : Library) (r : TrackRecord) :
    (ingest L library r).track =
      objModify (objModify (ensure library.track
          (convertStringToHashkey L (some (r.album ++ r.title)))
          { fields := [("name", .str r.title),
              ("id", .str (convertStringToHashkey L (some (r.album ++ r.title)))),
              ("type", .str "track"), ("tracknumber", r.tracknumber), ("date", r.date)],
            children := [], parents := [] })
        (convertStringToHashkey L (some (r.album ++ r.title)))
        (Entity.addChild ("item:" ++ convertStringToHashkey L (some (r.service ++ r.uri)))))
      (convertStringToHashkey L (some (r.album ++ r.title)))
      (Entity.addParent ("album:" ++ albumKey L r.album r.artists)) := by
  unfold ingest
  rw [addLibraryItem_eq, (artistLoop_track L _ _ _ _).1]
  rfl

theorem ingest_item (L : Libs) (library : Library) (r : TrackRecord) :
    (ingest L library r).item =
      objModify (objSet library.item (convertStringToHashkey L (some (r.service ++ r.uri)))
        { fields := [("id", .str (convertStringToHashkey L (some (r.service ++ r.uri)))),
            ("type", .str "item"), ("service", .str r.service), ("uri", .str r.uri)],
          children := [], parents := [] })
      (convertStringToHashkey L (some (r.service ++ r.uri)))
      (Entity.addParent ("track:" ++ convertStringToHashkey L (some (r.album ++ r.title)))) := by
  unfold ingest
  rw [addLibraryItem_eq, (artistLoop_track L _ _ _ _).2.1]
  rfl

theorem append_left_ne (p a b : String) (h : a ≠ b) : p ++ a ≠ p ++ b := by
  intro he
  apply h
  have hd := congrArg String.data he
  simp only [String.data_append] at hd
  exact String.ext (List.append_cancel_left hd)

/-- C3: the same item (service `s1`, uri `u1`) is ingested under the title `Song` and then
under the title `Other`.  Whenever the hash separates the two track keys, the first track
still lists the item among its children while the item no longer lists that track among
its parents: the edge has no mirror. -/
theorem C3_item_reingest_breaks_symmetry (L : Libs)
    (hsep : convertStringToHashkey L (some ("Album1" ++ "Song")) ≠
      convertStringToHashkey L (some ("Album1" ++ "Other"))) :
    ChildIn (populateLibraryFromTracklist L emptyLibrary [exampleRecord, exampleRetitled]).track
        (convertStringToHashkey L (some ("Album1" ++ "Song")))
        ("item:" ++ convertStringToHashkey L (some ("s1" ++ "u1"))) ∧
    ¬ ParentIn (populateLibraryFromTracklist L emptyLibrary [exampleRecord, exampleRetitled]).item
        (convertStringToHashkey L (some ("s1" ++ "u1")))
        ("track:" ++ convertStringToHashkey L (some ("Album1" ++ "Song"))) := by
  have hpop : populateLibraryFromTracklist L emptyLibrary [exampleRecord, exampleRetitled] =
      ingest L (exampleLibrary L) exampleRetitled := by
    show ingest L (ingest L emptyLibrary exampleRecord) exampleRetitled = _
    rw [ingest_example]
  rw [hpop]
  constructor
  · apply (tableGrows_track L (exampleLibrary L) exampleRetitled).keepsChild
    exact ⟨exampleTrack L, by simp [exampleLibrary, objGet], by simp [exampleTrack]⟩
  · rintro ⟨e, he, hp⟩
    rw [ingest_item] at he
    simp only [exampleRetitled, exampleLibrary, objSet, objModify, objGet, if_true,
      Option.some.injEq] at he
    subst he
    simp only [Entity.addParent, keyInsert, List.not_mem_nil, if_false, List.nil_append,
      List.mem_singleton] at hp
    exact append_left_ne "track:" _ _ hsep hp

theorem C3_symmetry_witness :
    convertStringToHashkey sampleLibs (some ("Album1" ++ "Song")) ≠
      convertStringToHashkey sampleLibs (some ("Album1" ++ "Other")) ∧
    ChildIn (populateLibraryFromTracklist sampleLibs emptyLibrary
          [exampleRecord, exampleRetitled]).track
        (convertStringToHashkey sampleLibs (some ("Album1" ++ "Song")))
        ("item:" ++ convertStringToHashkey sampleLibs (some ("s1" ++ "u1"))) ∧
    ¬ ParentIn (populateLibraryFromTracklist sampleLibs emptyLibrary
          [exampleRecord, exampleRetitled]).item
        (convertStringToHashkey sampleLibs (some ("s1" ++ "u1")))
        ("track:" ++ convertStringToHashkey sampleLibs (some ("Album1" ++ "Song"))) :=
  ⟨by decide, C3_item_reingest_breaks_symmetry sampleLibs (by decide)⟩

/-! ## A pick as the last step, and steps that cannot be resolved -/

theorem objGet_keySet (ks : List String) (k : String) :
    objGet (ks.map (fun k => (k, JSVal.null))) k = if k ∈ ks then some .null else none := by
  induction ks with
  | nil => rfl
  | cons k0 ks ih =>
    by_cases h0 : k0 = k
    · simp [objGet, h0]
    · have : ¬ k = k0 := fun e => h0 e.symm
      simp [objGet, h0, ih, this]

theorem hash_prefixed_ne (pre k : String) (h : '#' ∉ pre.data) (hne : pre ≠ "") :
    "#0" ≠ pre ++ k := by
  intro he
  have hd := congrArg String.data he
  simp only [String.data_append] at hd
  cases hp : pre.data with
  | nil => exact hne (String.ext hp)
  | cons c cs =>
    rw [hp] at hd h
    have : c = '#' := by
      have := congrArg List.head? hd
      simpa using this.symm
    exact h (by simp [this])

/-- C9: in a library built by ingestion, `parents:#0` on an artist returns `undefined`:
`#0` is the last step of the path, so it is read as a property name of the parents set,
which has no such property; the first genre is not returned. -/
theorem C9_pick_as_last_step (L : Libs) (rs : List TrackRecord) (fuel : Nat)
    (k : String) (artist : Entity)
    (h : objGet (populateLibraryFromTracklist L emptyLibrary rs).artist k = some artist) :
    getLibraryObject (populateLibraryFromTracklist L emptyLibrary rs).toJS (fuel + 2)
        artist.toJS "parents:#0" = .value .undefined := by
  have hL : Linked (populateLibraryFromTracklist L emptyLibrary rs) :=
    linked_populate L rs linked_empty
  generalize populateLibraryFromTracklist L emptyLibrary rs = library at h hL
  have hp : "parents:#0" = "parents" ++ ":" ++ "#0" := by decide
  rw [hp, getLibraryObject_parents _ _ _ _ (hL.artistPlain k artist h),
    getLibraryObject_last _ _ _ _ (by decide)]
  have hno : "#0" ∉ artist.parents := by
    intro hm
    obtain ⟨kg, hk, _⟩ := hL.artistParents k artist h "#0" hm
    exact hash_prefixed_ne "genre:" kg (by decide) (by decide) hk
  simp [keySetToJS, getProp, objGet_keySet, hno]

theorem C9_pick_last_witness :
    objGet (populateLibraryFromTracklist sampleLibs emptyLibrary [exampleRecord]).artist
        (convertStringToHashkey sampleLibs (some "Artist1")) = some (exampleArtist sampleLibs) ∧
    (exampleArtist sampleLibs).parents =
      ["genre:" ++ convertStringToHashkey sampleLibs (some "Rock")] ∧
    getLibraryObject (populateLibraryFromTracklist sampleLibs emptyLibrary [exampleRecord]).toJS
        2 (exampleArtist sampleLibs).toJS "parents:#0" = .value .undefined :=
  ⟨example_artist sampleLibs, rfl,
    C9_pick_as_last_step sampleLibs [exampleRecord] 0 _ _ (example_artist sampleLibs)⟩

theorem getLibraryObject_undefined (root : JSVal) (fuel : Nat) (p : String) :
    (getLibraryObject root (fuel + 1) .undefined p).isThrown = true := by
  rw [getLibraryObject]
  cases indexOfColon p with
  | none => simp [getProp, Outcome.isThrown]
  | some i =>
    simp only
    split
    · simp [objectKeys, Outcome.bind, Outcome.isThrown]
    · split
      · simp [objectKeys, Outcome.bind, Outcome.isThrown]
      · simp [getProp, Outcome.isThrown]

theorem getLibraryObject_null (root : JSVal) (fuel : Nat) (p : String) :
    (getLibraryObject root (fuel + 1) .null p).isThrown = true := by
  rw [getLibraryObject]
  cases indexOfColon p with
  | none => simp [getProp, Outcome.isThrown]
  | some i =>
    simp only
    split
    · simp [objectKeys, Outcome.bind, Outcome.isThrown]
    · split
      · simp [objectKeys, Outcome.bind, Outcome.isThrown]
      · simp [getProp, Outcome.isThrown]

theorem arrayGetFrom_none {α : Type} (xs : List α) : ∀ (i n : Nat), i + xs.length ≤ n →
    arrayGetFrom xs i (toString n) = none := by
  induction xs with
  | nil => intro i n _; rfl
  | cons x rest ih =>
    intro i n h
    simp only [List.length_cons] at h
    have hne : toString i ≠ toString n := by
      intro he
      have := toString_nat_injective he
      omega
    simp only [arrayGetFrom, if_neg hne]
    exact ih (i + 1) n (by omega)

theorem toString_nat_ne_length (n : Nat) : (toString n : String) ≠ "length" := by
  intro h
  have := toDigitsCore_isDigit (n + 1) n [] (by simp) 'l'
    (by rw [← Nat.toDigits, ← toString_nat_data, h]; decide)
  revert this
  decide

theorem getProp_root_undefined (library : Library) :
    getProp library.toJS "undefined" = .value .undefined := by
  simp [Library.toJS, getProp, objGet]

/-- C8: what `getLibraryObject` does on a step it cannot resolve, on any library.
A field name before the last step that the current object does not have raises an error;
so does any path started on `undefined` or `null` (which includes `#` and `#N` applied to
them), and a `#N` before the last step with `N` at or beyond the number of keys.  A last
step naming a property the current object does not have raises nothing: the result is
`undefined`. -/
theorem C8_navigation_failure (library : Library) (fuel : Nat) :
    (∀ (kvs : List (String × JSVal)) (a rest : String), ':' ∉ a.data → sliceTo a 1 ≠ "#" →
      objGet kvs a = none →
      (getLibraryObject library.toJS (fuel + 2) (.obj kvs) (a ++ ":" ++ rest)).isThrown = true) ∧
    (∀ (p : String),
      (getLibraryObject library.toJS (fuel + 1) .undefined p).isThrown = true ∧
      (getLibraryObject library.toJS (fuel + 1) .null p).isThrown = true) ∧
    (∀ (kvs : List (String × JSVal)) (n : Nat) (rest : String), kvs.length ≤ n →
      (getLibraryObject library.toJS (fuel + 3) (.obj kvs)
        ("#" ++ toString n ++ ":" ++ rest)).isThrown = true) ∧
    (∀ (kvs : List (String × JSVal)) (a : String), ':' ∉ a.data → objGet kvs a = none →
      getLibraryObject library.toJS (fuel + 1) (.obj kvs) a = .value .undefined) := by
  refine ⟨?_, ?_, ?_, ?_⟩
  · intro kvs a rest ha h2 hget
    have h1 : a ≠ "#" := by
      rintro rfl
      exact h2 (by decide)
    rw [getLibraryObject_field _ _ _ _ _ ha h1 h2]
    simp only [getProp, hget, Option.getD]
    exact getLibraryObject_undefined _ _ _
  · intro p
    exact ⟨getLibraryObject_undefined _ _ _, getLibraryObject_null _ _ _⟩
  · intro kvs n rest hn
    rw [getLibraryObject_pick _ _ _ _ _ (toString_nat_noColon n) (toString_nat_ne_empty n)]
    have hpick : getProp (.arr ((objKeys kvs).map JSVal.str)) (toString n) =
        .value .undefined := by
      simp only [getProp, if_neg (toString_nat_ne_length n), arrayGet]
      rw [arrayGetFrom_none _ 0 n (by simpa [objKeys] using hn)]
      rfl
    simp only [objectKeys, Outcome.bind, hpick, jsToString]
    rw [getLibraryObject_field _ _ _ _ _ (by decide) (by decide) (by decide),
      getProp_root_undefined]
    exact getLibraryObject_undefined _ _ _
  · intro kvs a ha hget
    rw [getLibraryObject_last _ _ _ _ ha]
    simp [getProp, hget]

/-- Two inputs on which `getLibraryObject` returns instead of raising: the last step
`title` on an object without that field gives `undefined`, and `#` applied to an empty
array, which is not a keyed set, gives the empty array. -/
theorem C8_final_step_counterexample :
    objGet [("name", JSVal.str "Song"), ("id", JSVal.str "k")] "title" = none ∧
    getLibraryObject (exampleLibrary sampleLibs).toJS 1
        (.obj [("name", .str "Song"), ("id", .str "k")]) "title" = .value .undefined ∧
    (getLibraryObject (exampleLibrary sampleLibs).toJS 1
        (.obj [("name", .str "Song"), ("id", .str "k")]) "title").isThrown = false ∧
    getLibraryObject (exampleLibrary sampleLibs).toJS 1 (.arr []) "#:name" =
      .value (.arr []) := by
  have h : getLibraryObject (exampleLibrary sampleLibs).toJS 1
      (.obj [("name", .str "Song"), ("id", .str "k")]) "title" = .value .undefined := by
    rw [getLibraryObject_last _ 0 _ _ (by decide)]
    simp [getProp, objGet]
  refine ⟨rfl, h, ?_, ?_⟩
  · rw [h]
    rfl
  · have hp : "#:name" = "#" ++ ":" ++ "name" := by decide
    rw [hp, getLibraryObject_all]
    rfl

theorem C8_navigation_witness :
    (':' ∉ "title".data ∧ sliceTo "title" 1 ≠ "#" ∧
      objGet [("name", JSVal.str "Song")] "title" = none ∧
      (getLibraryObject (exampleLibrary sampleLibs).toJS 2 (.obj [("name", .str "Song")])
        ("title" ++ ":" ++ "x")).isThrown = true) ∧
    ([("genre:k", JSVal.null)].length ≤ 1 ∧
      (getLibraryObject (exampleLibrary sampleLibs).toJS 3 (.obj [("genre:k", .null)])
        ("#" ++ toString 1 ++ ":" ++ "name")).isThrown = true) ∧
    getLibraryObject (exampleLibrary sampleLibs).toJS 1 (.obj [("name", .str "Song")]) "title"
      = .value .undefined :=
  ⟨⟨by decide, by decide, rfl,
      (C8_navigation_failure (exampleLibrary sampleLibs) 0).1 [("name", .str "Song")] "title" "x"
        (by decide) (by decide) rfl⟩,
    ⟨by decide,
      (C8_navigation_failure (exampleLibrary sampleLibs) 0).2.2.1 [("genre:k", .null)] 1 "name"
        (by decide)⟩,
    (C8_navigation_failure (exampleLibrary sampleLibs) 0).2.2.2 [("name", .str "Song")] "title"
      (by decide) rfl⟩

/-! ## Flattening -/

theorem joinCSV_append (l1 l2 : List String) (h1 : l1 ≠ []) (h2 : l2 ≠ []) :
    joinCSV (l1 ++ l2) = joinCSV l1 ++ ", " ++ joinCSV l2 := by
  induction l1 with
  | nil => exact absurd rfl h1
  | cons x l1 ih =>
    cases l1 with
    | nil =>
      cases l2 with
      | nil => exact absurd rfl h2
      | cons y l2 => simp [joinCSV]
    | cons z l1 =>
      have := ih (by simp)
      simp only [List.cons_append] at this ⊢
      simp only [joinCSV, this, String.append_assoc]

mutual
theorem flatten_solid (L : Libs) : ∀ (t : Nested), t.solid = true →
    flattenArrayToCSV L t.toJS = .value (.str (joinCSV t.leaves)) ∧ t.leaves ≠ []
  | .leaf s, _ => by
    simp [Nested.toJS, flattenArrayToCSV, Nested.leaves, joinCSV]
  | .seq [], h => by
    simp [Nested.solid] at h
  | .seq (x :: xs), h => by
    simp only [Nested.solid, Nested.solidList, List.isEmpty_cons, Bool.not_false, Bool.true_and,
      Bool.and_eq_true] at h
    obtain ⟨hx, hl⟩ := flatten_solid L x h.1
    have hr := reduce_solid L xs h.2 0 x.leaves hl
    simp only [Nested.toJS, Nested.toJSList, flattenArrayToCSV, reduceArray, hx, Nested.leaves,
      Nested.leavesList]
    exact ⟨by simpa using hr, by simp [hl]⟩
theorem reduce_solid (L : Libs) : ∀ (xs : List Nested), Nested.solidList xs = true →
    ∀ (i : Nat) (l : List String), l ≠ [] →
    reduceArray L (Nested.toJSList xs) (i + 1) (.str (joinCSV l)) =
      .value (.str (joinCSV (l ++ Nested.leavesList xs)))
  | [], _ => by
    intro i l _
    simp [Nested.toJSList, reduceArray, Nested.leavesList]
  | x :: xs, h => by
    intro i l hl
    simp only [Nested.solidList, Bool.and_eq_true] at h
    obtain ⟨hx, hxl⟩ := flatten_solid L x h.1
    have hr := reduce_solid L xs h.2 (i + 1) (l ++ x.leaves) (by simp [hl])
    simp only [Nested.toJSList, reduceArray, hx, Nested.leavesList]
    have hpos : i + 1 > 0 := Nat.succ_pos i
    simp only [hpos, if_true, jsConcat, jsToString]
    rw [← joinCSV_append l x.leaves hl hxl, ← List.append_assoc]
    exact hr
end

/-- C10: on a nested sequence of strings none of whose nested sub-sequences is empty,
`flattenArrayToCSV` returns the leaves, depth first and left to right, joined with a comma
and a space (so `[["a","b"],"c"]` gives `a, b, c`); the empty sequence gives the empty
text; a string or a number is returned unchanged. -/
theorem C10_flatten_joins_leaves (L : Libs) :
    (∀ xs : List Nested, Nested.solidList xs = true →
      flattenArrayToCSV L (Nested.seq xs).toJS = .value (.str (flattenReference (.seq xs)))) ∧
    (∀ s : String, flattenArrayToCSV L (.str s) = .value (.str s)) ∧
    (∀ n : Int, flattenArrayToCSV L (.num n) = .value (.num n)) := by
  refine ⟨?_, fun s => rfl, fun n => rfl⟩
  intro xs h
  cases xs with
  | nil => simp [Nested.toJS, Nested.toJSList, flattenArrayToCSV, reduceArray,
      flattenReference, Nested.leaves, Nested.leavesList, joinCSV]
  | cons x xs =>
    have hs : (Nested.seq (x :: xs)).solid = true := by
      simpa [Nested.solid] using h
    exact (flatten_solid L (.seq (x :: xs)) hs).1

theorem C10_flatten_witness :
    Nested.solidList [.seq [.leaf "a", .leaf "b"], .leaf "c"] = true ∧
    flattenArrayToCSV sampleLibs (Nested.seq [.seq [.leaf "a", .leaf "b"], .leaf "c"]).toJS =
      .value (.str (flattenReference (.seq [.seq [.leaf "a", .leaf "b"], .leaf "c"]))) ∧
    flattenReference (.seq [.seq [.leaf "a", .leaf "b"], .leaf "c"]) = "a, b, c" ∧
    flattenReference (.seq [.leaf "a", .seq [.seq [.leaf "b", .leaf "c"], .leaf "d"]]) =
      "a, b, c, d" ∧
    flattenArrayToCSV sampleLibs
        (Nested.seq [.leaf "a", .seq [.seq [.leaf "b", .leaf "c"], .leaf "d"]]).toJS =
      .value (.str "a, b, c, d") :=
  ⟨by decide,
    (C10_flatten_joins_leaves sampleLibs).1 [.seq [.leaf "a", .leaf "b"], .leaf "c"] (by decide),
    by decide, by decide,
    (C10_flatten_joins_leaves sampleLibs).1
      [.leaf "a", .seq [.seq [.leaf "b", .leaf "c"], .leaf "d"]] (by decide)⟩

/-- On `[[], "a"]` the code returns `, a` while the joined leaves are `a`. -/
theorem C10_empty_subsequence_counterexample :
    flattenArrayToCSV sampleLibs (Nested.seq [.seq [], .leaf "a"]).toJS = .value (.str ", a") ∧
    flattenReference (.seq [.seq [], .leaf "a"]) = "a" ∧
    flattenArrayToCSV sampleLibs (Nested.seq [.seq [], .leaf "a"]).toJS ≠
      .value (.str (flattenReference (.seq [.seq [], .leaf "a"]))) := by
  have h1 : flattenArrayToCSV sampleLibs (Nested.seq [.seq [], .leaf "a"]).toJS =
      .value (.str ", a") := by
    simp [Nested.toJS, Nested.toJSList, flattenArrayToCSV, reduceArray, jsConcat, jsToString]
  have h2 : flattenReference (.seq [.seq [], .leaf "a"]) = "a" := by decide
  refine ⟨h1, h2, ?_⟩
  rw [h1, h2]
  intro h
  injection h with h
  injection h with h
  revert h
  decide

/-! ## Length of a hash key -/

theorem escape_base64Char (n : Nat) (cs : List Char) :
    base64UrlEscape (base64Char n :: cs) =
      (if base64Char n = '+' then '-' else if base64Char n = '/' then '_' else base64Char n)
        :: base64UrlEscape cs := by
  rcases base64Char_spec n with h | h | h
  · have h2 : base64Char n ≠ '+' := by intro e; rw [e] at h; revert h; decide
    have h3 : base64Char n ≠ '/' := by intro e; rw [e] at h; revert h; decide
    have h4 : base64Char n ≠ '=' := by intro e; rw [e] at h; revert h; decide
    simp [base64UrlEscape, h2, h3, h4]
  · simp [base64UrlEscape, h]
  · simp [base64UrlEscape, h]

theorem escape_pad (cs : List Char) : base64UrlEscape ('=' :: cs) = base64UrlEscape cs := by
  simp [base64UrlEscape]

/-- The number of characters left of the base64 text of `bs` once the padding is removed. -/
theorem length_escape_base64Encode (bs : List (Fin 256)) :
    (base64UrlEscape (base64Encode bs)).length =
      4 * (bs.length / 3) + (if bs.length % 3 = 0 then 0 else bs.length % 3 + 1) := by
  induction bs using base64Encode.induct with
  | case1 a b c rest ih =>
    simp only [base64Encode, escape_base64Char, List.length_cons, ih]
    have h1 : (rest.length + 1 + 1 + 1) / 3 = rest.length / 3 + 1 := by omega
    have h2 : (rest.length + 1 + 1 + 1) % 3 = rest.length % 3 := by omega
    rw [h1, h2]
    omega
  | case2 a b =>
    simp only [base64Encode, escape_base64Char, escape_pad, List.length_cons]
    rfl
  | case3 a =>
    simp only [base64Encode, escape_base64Char, escape_pad, List.length_cons]
    rfl
  | case4 => rfl

/-- C16: with SHA-256 any function from texts to 32 bytes, the hash key of every input has
exactly 43 characters, each a letter, a digit, `-` or `_`. -/
theorem C16_hashkey_length_and_alphabet (L : Libs) (input : Option String) :
    (convertStringToHashkey L input).length = 43 ∧
    ∀ c ∈ (convertStringToHashkey L input).data,
      c.isUpper = true ∨ c.isLower = true ∨ c.isDigit = true ∨ c = '-' ∨ c = '_' := by
  constructor
  · show (base64UrlEscape (base64Encode (L.sha256 _))).length = 43
    rw [length_escape_base64Encode, L.sha256_length]
    rfl
  · intro c hc
    have h := convertStringToHashkey_urlSafe L input c hc
    simp only [isUrlSafeChar, Char.isAlphanum, Char.isAlpha, Bool.or_eq_true,
      decide_eq_true_eq] at h
    tauto

/-- C18: the input `null` gives the key of the empty text, and equal inputs give equal
keys. -/
theorem C18_hashkey_absent_is_empty (L : Libs) :
    convertStringToHashkey L none = convertStringToHashkey L (some "") ∧
    ∀ x y : Option String, x = y → convertStringToHashkey L x = convertStringToHashkey L y :=
  ⟨rfl, fun _ _ h => congrArg (convertStringToHashkey L) h⟩

theorem C18_hashkey_witness :
    convertStringToHashkey sampleLibs none = convertStringToHashkey sampleLibs (some "") ∧
    ((some "Rock" : Option String) = some "Rock" →
      convertStringToHashkey sampleLibs (some "Rock") =
        convertStringToHashkey sampleLibs (some "Rock")) :=
  ⟨(C18_hashkey_absent_is_empty sampleLibs).1,
    (C18_hashkey_absent_is_empty sampleLibs).2 (some "Rock") (some "Rock")⟩

/-! ## Browsing -/

/-- C17: on a ready library, whatever it contains, `browseLibrary('')` resolves to the five
predefined index names in definition order, each as the entry
`{uid: 'index:' + name, datavalues: {name: name}}`. -/
theorem C17_browse_root_lists_indexes (L : Libs) (self : Controller) (fuel : Nat)
    (sSortBy : Option String) (hready : self.libraryReady = .fulfilled ()) :
    browseLibrary L self fuel "" sSortBy = .fulfilled (.entries indexPseudoEntities) := by
  unfold browseLibrary
  rw [hready]
  rfl

theorem C17_browse_root_witness :
    (exampleController sampleLibs).libraryReady = .fulfilled () ∧
    browseLibrary sampleLibs (exampleController sampleLibs) 0 "" none =
      .fulfilled (.entries indexPseudoEntities) :=
  ⟨rfl, C17_browse_root_lists_indexes sampleLibs (exampleController sampleLibs) 0 none rfl⟩

/-! ## Sorted indexes -/

theorem objGet_of_mem_keys {β : Type} (o : List (String × β)) (k : String)
    (h : k ∈ objKeys o) : ∃ v, objGet o k = some v := by
  induction o with
  | nil => simp [objKeys] at h
  | cons kv rest ih =>
    obtain ⟨k0, v0⟩ := kv
    by_cases h0 : k0 = k
    · exact ⟨v0, by simp [objGet, h0]⟩
    · have hr : k ∈ objKeys rest := by
        simp only [objKeys, List.map_cons, List.mem_cons] at h
        rcases h with h | h
        · exact absurd h.symm h0
        · exact h
      obtain ⟨v, hv⟩ := ih hr
      exact ⟨v, by simp [objGet, h0, hv]⟩

theorem mem_keys_of_objGet {β : Type} (o : List (String × β)) (k : String) (v : β)
    (h : objGet o k = some v) : k ∈ objKeys o := by
  induction o with
  | nil => simp [objGet] at h
  | cons kv rest ih =>
    obtain ⟨k0, v0⟩ := kv
    by_cases h0 : k0 = k
    · simp [objKeys, h0]
    · simp only [objGet, if_neg h0] at h
      have := ih h
      simp only [objKeys] at this ⊢
      simp [this]

/-- The loop that fills `curDataValue`: when every field resolves, it returns, the result
holds the flattened resolution under every processed name and is unchanged elsewhere. -/
theorem dataValues_spec (L : Libs) (library : JSVal) (fuel : Nat) (curUid : String)
    (fields : List (String × String)) :
    ∀ (names : List String) (acc : List (String × JSVal)),
    (∀ name ∈ names, ∃ path v, objGet fields name = some path ∧
      resolveFlat L library fuel curUid path = .value v) →
    ∃ out, dataValues L library fuel curUid fields names acc = .value out ∧
      (∀ name ∈ names, ∃ path v, objGet fields name = some path ∧
        resolveFlat L library fuel curUid path = .value v ∧ objGet out name = some v) ∧
      (∀ name, name ∉ names → objGet out name = objGet acc name) := by
  intro names
  induction names with
  | nil =>
    intro acc _
    exact ⟨acc, rfl, fun _ h => by simp at h, fun _ _ => rfl⟩
  | cons n names ih =>
    intro acc h
    obtain ⟨path, v, hp, hv⟩ := h n (List.mem_cons_self _ _)
    obtain ⟨out, hout, hin, hnot⟩ := ih (objSet acc n v)
      (fun name hm => h name (List.mem_cons_of_mem _ hm))
    refine ⟨out, ?_, ?_, ?_⟩
    · unfold resolveFlat at hv
      rw [dataValues]
      simp only [hp, Option.map, Option.getD, jsToString]
      rw [hv]
      exact hout
    · intro name hm
      by_cases hmem : name ∈ names
      · exact hin name hmem
      · have hname : name = n := by
          rcases List.mem_cons.1 hm with h1 | h1
          · exact h1
          · exact absurd h1 hmem
        subst hname
        refine ⟨path, v, hp, hv, ?_⟩
        rw [hnot name hmem, objGet_objSet]
        simp
    · intro name hm
      have h1 : name ≠ n := fun e => hm (by simp [e])
      have h2 : name ∉ names := fun e => hm (List.mem_cons_of_mem _ e)
      rw [hnot name h2, objGet_objSet, if_neg (fun e => h1 e.symm)]

/-- The row built for one uid, when its sort path and its field paths resolve. -/
theorem sortRow_spec (L : Libs) (library : JSVal) (fuel : Nat) (sSortBy : String)
    (fields : List (String × String)) (curUid : String) (sv : JSVal)
    (hsort : resolveFlat L library fuel curUid sSortBy = .value sv)
    (hdata : ∀ name path, objGet fields name = some path →
      ∃ v, resolveFlat L library fuel curUid path = .value v) :
    ∃ row, sortRow L library fuel sSortBy fields curUid = .value row ∧ row.uid = curUid ∧
      row.sortvalue = sv ∧
      (∀ name path, objGet fields name = some path →
        ∃ v, resolveFlat L library fuel curUid path = .value v ∧
          objGet row.datavalues name = some v) ∧
      (∀ name, (objGet row.datavalues name).isSome = true →
        (objGet fields name).isSome = true) := by
  obtain ⟨out, hout, hin, hnot⟩ := dataValues_spec L library fuel curUid fields
    (objKeys fields) [] (by
      intro name hm
      obtain ⟨path, hp⟩ := objGet_of_mem_keys fields name hm
      obtain ⟨v, hv⟩ := hdata name path hp
      exact ⟨path, v, hp, hv⟩)
  refine ⟨{ sortvalue := sv, uid := curUid, datavalues := out }, ?_, rfl, rfl, ?_, ?_⟩
  · unfold resolveFlat at hsort
    rw [sortRow, hsort, hout]
    rfl
  · intro name path hp
    obtain ⟨path', v, hp', hv, hg⟩ := hin name (mem_keys_of_objGet fields name path hp)
    rw [hp] at hp'
    cases hp'
    exact ⟨v, hv, hg⟩
  · intro name hsome
    by_cases hm : name ∈ objKeys fields
    · obtain ⟨path, hp⟩ := objGet_of_mem_keys fields name hm
      simp [hp]
    · rw [show objGet _ name = objGet out name from rfl, hnot name hm] at hsome
      simp [objGet] at hsome

theorem mapOutcome_spec {α β : Type} (f : α → Outcome β) (R : α → β → Prop) (xs : List α)
    (hx : ∀ x ∈ xs, ∃ y, f x = .value y ∧ R x y) :
    ∃ ys, mapOutcome f xs = .value ys ∧ List.Forall₂ R xs ys := by
  obtain ⟨ys, h2, hm⟩ := mapOutcome_forall2 f R id xs
    (fun x hxm => by
      obtain ⟨y, hy, hr⟩ := hx x hxm
      exact ⟨y, hr, hy⟩)
  exact ⟨ys, by simpa using hm, h2⟩

theorem rows_spec (L : Libs) (library : JSVal) (fuel : Nat) (uids : List String)
    (sSortBy : String) (fields : List (String × String))
    (hsort : ∀ uid ∈ uids, ∃ sv, resolveFlat L library fuel uid sSortBy = .value sv)
    (hdata : ∀ uid ∈ uids, ∀ name path, objGet fields name = some path →
      ∃ v, resolveFlat L library fuel uid path = .value v) :
    ∃ rows, mapOutcome (sortRow L library fuel sSortBy fields) uids = .value rows ∧
      List.Forall₂ (RowOf L library fuel sSortBy fields) uids rows := by
  apply mapOutcome_spec
  intro uid hm
  obtain ⟨sv, hsv⟩ := hsort uid hm
  obtain ⟨row, hrow, h1, h2, h3, h4⟩ :=
    sortRow_spec L library fuel sSortBy fields uid sv hsv (hdata uid hm)
  exact ⟨row, hrow, h1, by rw [h2]; exact hsv, h3, h4⟩

theorem forall2_uids {R : String → SortRow → Prop} {uids : List String} {rows : List SortRow}
    (h : List.Forall₂ R uids rows) (huid : ∀ u r, R u r → r.uid = u) :
    rows.map SortRow.uid = uids := by
  induction h with
  | nil => rfl
  | cons hr _ ih => simp [huid _ _ hr, ih]

theorem forall2_mem {α β : Type} {R : α → β → Prop} {xs : List α} {ys : List β}
    (h : List.Forall₂ R xs ys) : ∀ y ∈ ys, ∃ x ∈ xs, R x y := by
  induction h with
  | nil => intro y hy; simp at hy
  | cons hr _ ih =>
    intro y hy
    rcases List.mem_cons.1 hy with rfl | hy
    · exact ⟨_, List.mem_cons_self _ _, hr⟩
    · obtain ⟨x, hx, hxy⟩ := ih y hy
      exact ⟨x, List.mem_cons_of_mem _ hx, hxy⟩

theorem generateSortedIndex_eq (L : Libs) (library : JSVal) (fuel : Nat) (uids : List String)
    (sSortBy : String) (fields : List (String × String)) (rows : List SortRow)
    (h : mapOutcome (sortRow L library fuel sSortBy fields) uids = .value rows) :
    generateSortedIndex L library fuel uids sSortBy fields =
      .value ((L.sortOn rows).map SortRow.toEntry) := by
  unfold generateSortedIndex
  rw [h]
  rfl

/-- C12: when the sort path and every field path resolve at every reference,
`generateSortedIndex` returns a listing with one entry per reference: as many entries as
references, the uids a rearrangement of the references, and the `datavalues` of an entry
holding exactly the names of the field map, each with the flattened resolution of its path
at the entry's uid.  An entry has no other component: the sort value is dropped. -/
theorem C12_index_keeps_every_reference (L : Libs) (library : JSVal) (fuel : Nat)
    (uids : List String) (sSortBy : String) (fields : List (String × String))
    (hsort : ∀ uid ∈ uids, ∃ sv, resolveFlat L library fuel uid sSortBy = .value sv)
    (hdata : ∀ uid ∈ uids, ∀ name path, objGet fields name = some path →
      ∃ v, resolveFlat L library fuel uid path = .value v) :
    ∃ listing : List IndexEntry,
      generateSortedIndex L library fuel uids sSortBy fields = .value listing ∧
      listing.length = uids.length ∧
      (listing.map IndexEntry.uid).Perm uids ∧
      ∀ e ∈ listing,
        (∀ name path, objGet fields name = some path →
          ∃ v, resolveFlat L library fuel e.uid path = .value v ∧
            objGet e.datavalues name = some v) ∧
        (∀ name, (objGet e.datavalues name).isSome = true →
          (objGet fields name).isSome = true) := by
  obtain ⟨rows, hrows, hall⟩ := rows_spec L library fuel uids sSortBy fields hsort hdata
  have hperm := L.sortOn_perm rows
  have huids := forall2_uids hall (fun _ _ h => h.1)
  refine ⟨(L.sortOn rows).map SortRow.toEntry,
    generateSortedIndex_eq L library fuel uids sSortBy fields rows hrows, ?_, ?_, ?_⟩
  · rw [List.length_map, hperm.length_eq, ← huids, List.length_map]
  · rw [List.map_map, ← huids]
    exact hperm.map _
  · intro e he
    obtain ⟨row, hrow, rfl⟩ := List.mem_map.1 he
    obtain ⟨uid, _, hu, _, h3, h4⟩ := forall2_mem hall row (hperm.mem_iff.1 hrow)
    refine ⟨?_, h4⟩
    intro name path hp
    rw [show (SortRow.toEntry row).uid = uid from hu]
    exact h3 name path hp

theorem example_resolves (L : Libs) (uid : String)
    (hu : uid ∈ tableUids "track" (exampleLibrary L).track) (path : String)
    (hp : path = "name" ∨ path = "parents:#0:name" ∨ path = "parents:#0:parents:#:name") :
    ∃ v, resolveFlat L (exampleLibrary L).toJS 11 uid path = .value v := by
  have huid : uid = "track" ++ ":" ++ convertStringToHashkey L (some ("Album1" ++ "Song")) := by
    simpa [tableUids, exampleLibrary, objKeys] using hu
  subst huid
  unfold resolveFlat
  rcases hp with rfl | rfl | rfl
  · rw [example_sort_name L 8]
    exact ⟨_, rfl⟩
  · rw [example_album_name L 4]
    exact ⟨_, rfl⟩
  · rw [example_artist_names L 0]
    exact ⟨.str "Artist1", by simp [Outcome.bind, flattenArrayToCSV, reduceArray]⟩

theorem tracksByName_paths (name path : String)
    (h : objGet tracksByName.datafields name = some path) :
    path = "name" ∨ path = "parents:#0:name" ∨ path = "parents:#0:parents:#:name" := by
  simp only [tracksByName, objGet] at h
  split at h
  · simp at h; exact Or.inl h.symm
  · split at h
    · simp at h; exact Or.inr (Or.inl h.symm)
    · split at h
      · simp at h; exact Or.inr (Or.inr h.symm)
      · simp at h

theorem C12_index_witness :
    (∀ uid ∈ tableUids "track" (exampleLibrary sampleLibs).track,
      ∃ sv, resolveFlat sampleLibs (exampleLibrary sampleLibs).toJS 11 uid tracksByName.sortby
        = .value sv) ∧
    (∀ uid ∈ tableUids "track" (exampleLibrary sampleLibs).track,
      ∀ name path, objGet tracksByName.datafields name = some path →
      ∃ v, resolveFlat sampleLibs (exampleLibrary sampleLibs).toJS 11 uid path = .value v) ∧
    ∃ listing : List IndexEntry,
      generateSortedIndex sampleLibs (exampleLibrary sampleLibs).toJS 11
        (tableUids "track" (exampleLibrary sampleLibs).track) tracksByName.sortby
        tracksByName.datafields = .value listing ∧
      listing.length = (tableUids "track" (exampleLibrary sampleLibs).track).length ∧
      (listing.map IndexEntry.uid).Perm (tableUids "track" (exampleLibrary sampleLibs).track) ∧
      ∀ e ∈ listing,
        (∀ name path, objGet tracksByName.datafields name = some path →
          ∃ v, resolveFlat sampleLibs (exampleLibrary sampleLibs).toJS 11 e.uid path = .value v ∧
            objGet e.datavalues name = some v) ∧
        (∀ name, (objGet e.datavalues name).isSome = true →
          (objGet tracksByName.datafields name).isSome = true) :=
  ⟨fun uid hu => example_resolves sampleLibs uid hu _ (Or.inl rfl),
    fun uid hu _ path hp => example_resolves sampleLibs uid hu path (tracksByName_paths _ path hp),
    C12_index_keeps_every_reference sampleLibs (exampleLibrary sampleLibs).toJS 11
      (tableUids "track" (exampleLibrary sampleLibs).track) tracksByName.sortby
      tracksByName.datafields
      (fun uid hu => example_resolves sampleLibs uid hu _ (Or.inl rfl))
      (fun uid hu _ path hp =>
        example_resolves sampleLibs uid hu path (tracksByName_paths _ path hp))⟩

theorem textLe_total : ∀ (a b : List Char), textLe a b = true ∨ textLe b a = true
  | [], _ => Or.inl rfl
  | _ :: _, [] => Or.inr rfl
  | x :: as, y :: bs => by
    simp only [textLe]
    by_cases h1 : x.toNat < y.toNat
    · simp [h1]
    · by_cases h2 : y.toNat < x.toNat
      · simp [h2]
      · simp only [if_neg h1, if_neg h2]
        exact textLe_total as bs

theorem textLe_trans : ∀ (a b c : List Char), textLe a b = true → textLe b c = true →
    textLe a c = true
  | [], _, _, _, _ => rfl
  | _ :: _, [], _, h, _ => by simp [textLe] at h
  | _ :: _, _ :: _, [], _, h => by simp [textLe] at h
  | x :: as, y :: bs, z :: cs, h1, h2 => by
    simp only [textLe] at h1 h2 ⊢
    by_cases hxy : x.toNat < y.toNat
    · by_cases hyz : y.toNat < z.toNat
      · have : x.toNat < z.toNat := by omega
        simp [this]
      · by_cases hzy : z.toNat < y.toNat
        · simp [hyz, hzy] at h2
        · have : x.toNat < z.toNat := by omega
          simp [this]
    · by_cases hyx : y.toNat < x.toNat
      · simp [hxy, hyx] at h1
      · simp only [if_neg hxy, if_neg hyx] at h1
        by_cases hyz : y.toNat < z.toNat
        · have : x.toNat < z.toNat := by omega
          simp [this]
        · by_cases hzy : z.toNat < y.toNat
          · simp [hyz, hzy] at h2
          · simp only [if_neg hyz, if_neg hzy] at h2
            have e1 : ¬ x.toNat < z.toNat := by omega
            have e2 : ¬ z.toNat < x.toNat := by omega
            simp only [if_neg e1, if_neg e2]
            exact textLe_trans as bs cs h1 h2

theorem sortValueLe_total (x y : JSVal) : sortValueLe x y = true ∨ sortValueLe y x = true := by
  cases x <;> cases y <;> simp [sortValueLe, kindRank]
  · exact le_total _ _
  · exact textLe_total _ _

theorem sortValueLe_trans (x y z : JSVal) (h1 : sortValueLe x y = true)
    (h2 : sortValueLe y z = true) : sortValueLe x z = true := by
  cases x <;> cases y <;> cases z <;> simp [sortValueLe, kindRank] at h1 h2 ⊢
  · exact le_trans h1 h2
  · exact textLe_trans _ _ _ h1 h2

theorem textLe_iff_not_lt : ∀ (a b : List Char), textLe a b = true ↔ ¬ b < a
  | [], b => by
    simp only [textLe, true_iff]
    intro h
    cases h
  | x :: as, [] => by
    simp only [textLe, Bool.false_eq_true, false_iff, not_not]
    exact List.Lex.nil
  | x :: as, y :: bs => by
    have ih := textLe_iff_not_lt as bs
    have hlt : ∀ c d : Char, c < d ↔ c.toNat < d.toNat := fun c d => Iff.rfl
    simp only [textLe]
    by_cases h1 : x.toNat < y.toNat
    · simp only [if_pos h1, true_iff]
      intro h
      cases h with
      | cons _ => omega
      | rel h => exact absurd ((hlt _ _).1 h) (by omega)
    · by_cases h2 : y.toNat < x.toNat
      · simp only [if_neg h1, if_pos h2, Bool.false_eq_true, false_iff, not_not]
        exact List.Lex.rel ((hlt _ _).2 h2)
      · simp only [if_neg h1, if_neg h2, ih]
        have hxy : x = y := by
          apply Char.ext
          apply UInt32.ext
          have : x.toNat = y.toNat := by omega
          exact this
        subst hxy
        constructor
        · intro h hl
          cases hl with
          | cons h' => exact h h'
          | rel h' => exact h2 ((hlt _ _).1 h')
        · intro h hl
          exact h (List.Lex.cons hl)

theorem sortValueLe_str (a b : String) : sortValueLe (.str a) (.str b) = true ↔ a ≤ b := by
  show textLe a.data b.data = true ↔ a ≤ b
  rw [textLe_iff_not_lt, ← not_lt, String.lt_iff_toList_lt]
  rfl

theorem sorted_specSortOn (rows : List SortRow) :
    (specSortOn rows).Pairwise (fun a b => sortValueLe a.sortvalue b.sortvalue = true) := by
  haveI : IsTotal SortRow (fun a b => sortValueLe a.sortvalue b.sortvalue = true) :=
    ⟨fun a b => sortValueLe_total _ _⟩
  haveI : IsTrans SortRow (fun a b => sortValueLe a.sortvalue b.sortvalue = true) :=
    ⟨fun a b c => sortValueLe_trans _ _ _⟩
  exact List.sorted_insertionSort _ rows

/-- C11: with `libSortOn` the stable ascending sort of the specification, and the sort path
and the field paths resolving at every reference, `generateSortedIndex` returns a listing
in which, for any two positions `i < j`, the flattened sort value at the uid of entry `i`
is at most the one at the uid of entry `j`: lexicographically for two texts, numerically
for two numbers. -/
theorem C11_index_is_ordered (L : Libs) (library : JSVal) (fuel : Nat)
    (uids : List String) (sSortBy : String) (fields : List (String × String))
    (hspec : L.sortOn = specSortOn)
    (hsort : ∀ uid ∈ uids, ∃ sv, resolveFlat L library fuel uid sSortBy = .value sv)
    (hdata : ∀ uid ∈ uids, ∀ name path, objGet fields name = some path →
      ∃ v, resolveFlat L library fuel uid path = .value v) :
    (∃ listing : List IndexEntry,
      generateSortedIndex L library fuel uids sSortBy fields = .value listing ∧
      listing.Pairwise (fun e1 e2 => ∃ v1 v2,
        resolveFlat L library fuel e1.uid sSortBy = .value v1 ∧
        resolveFlat L library fuel e2.uid sSortBy = .value v2 ∧
        sortValueLe v1 v2 = true)) ∧
    (∀ a b : String, sortValueLe (.str a) (.str b) = true ↔ a ≤ b) ∧
    (∀ m n : Int, sortValueLe (.num m) (.num n) = true ↔ m ≤ n) := by
  refine ⟨?_, sortValueLe_str, fun m n => by simp [sortValueLe]⟩
  obtain ⟨rows, hrows, hall⟩ := rows_spec L library fuel uids sSortBy fields hsort hdata
  have hperm := L.sortOn_perm rows
  refine ⟨(L.sortOn rows).map SortRow.toEntry,
    generateSortedIndex_eq L library fuel uids sSortBy fields rows hrows, ?_⟩
  rw [List.pairwise_map]
  have hsorted := sorted_specSortOn rows
  rw [← hspec] at hsorted
  refine hsorted.imp_of_mem ?_
  intro a b ha hb hab
  obtain ⟨ua, _, hua, hva, _⟩ := forall2_mem hall a (hperm.mem_iff.1 ha)
  obtain ⟨ub, _, hub, hvb, _⟩ := forall2_mem hall b (hperm.mem_iff.1 hb)
  refine ⟨a.sortvalue, b.sortvalue, ?_, ?_, hab⟩
  · rw [show (SortRow.toEntry a).uid = ua from hua]
    exact hva
  · rw [show (SortRow.toEntry b).uid = ub from hub]
    exact hvb

/-! ## Browsing an artist -/

set_option maxRecDepth 100000 in
set_option maxHeartbeats 4000000 in
/-- C13: an artist with the albums `AlbumB` (dated 2021, ingested first) and `AlbumA`
(dated 2020).  Browsing the artist without a sort field resolves the sort path `date` at
each album, which has no such property: both sort values are `undefined`, the sort leaves
the albums in the order of the artist's children, and the listing shows the date 2021
before the date 2020. -/
theorem C13_artist_browse_not_by_date :
    browseLibrary sortedSampleLibs
        (readyController sortedSampleLibs [laterAlbumRecord, earlierAlbumRecord]) 12
        ("artist:" ++ convertStringToHashkey sortedSampleLibs (some "Artist1")) none =
      .fulfilled (.entries
        [ { uid := "album:" ++ convertStringToHashkey sortedSampleLibs (some "AlbumB"),
            datavalues := [("name", .str "AlbumB"), ("artists", .str "Artist1"),
              ("date", .str "2021")] },
          { uid := "album:" ++ convertStringToHashkey sortedSampleLibs (some "AlbumA"),
            datavalues := [("name", .str "AlbumA"), ("artists", .str "Artist1"),
              ("date", .str "2020")] } ]) ∧
    resolveFlat sortedSampleLibs
        (readyController sortedSampleLibs [laterAlbumRecord, earlierAlbumRecord]).library 12
        ("album:" ++ convertStringToHashkey sortedSampleLibs (some "AlbumB")) "date" =
      .value .undefined ∧
    resolveFlat sortedSampleLibs
        (readyController sortedSampleLibs [laterAlbumRecord, earlierAlbumRecord]).library 12
        ("album:" ++ convertStringToHashkey sortedSampleLibs (some "AlbumA")) "date" =
      .value .undefined ∧
    sortValueLe (.str "2021") (.str "2020") = false :=
  ⟨rfl, rfl, rfl, rfl⟩

set_option maxRecDepth 100000 in
set_option maxHeartbeats 4000000 in
theorem rebuildLibrary_example :
    (rebuildLibrary sampleLibs 11 (exampleController sampleLibs) (.fulfilled [[exampleRecord]])
        (fun _ => .fulfilled ())).2 = .fulfilled () ∧
    (loadLibraryFromDB { library := .obj [], libraryReady := .pending }
        (.fulfilled (exampleLibrary sampleLibs).toJS))
      = (exampleController sampleLibs, .fulfilled ()) :=
  ⟨rfl, rfl⟩

/-- C14 (amended): a failing `rebuildLibrary` or `loadLibraryFromDB` leaves the catalog
that the call itself has built so far, not the one held before.  Whatever the controller
held: when the track-list provider fails, the catalog is the empty six-table catalog; when
an index cannot be built or the snapshot cannot be written, it is the newly populated
catalog with the indexes that were built; when the snapshot cannot be read, it is the empty
object.  In each case the readiness promise is rejected with the cause and the returned
promise with the wrapped cause. -/
theorem C14_failure_leaves_reset_catalog (L : Libs) (fuel : Nat) (self : Controller)
    (reason : Reason) :
    (∀ dbPut, rebuildLibrary L fuel self (.rejected reason) dbPut =
      ({ library := emptyLibrary.toJS, libraryReady := .rejected reason },
        .rejected (.error "Library Rebuild Error: " reason))) ∧
    (∀ arrayAllTrackLists dbPut e,
      (rebuildIndexes L fuel arrayIndexDefinitions
        (arrayAllTrackLists.foldl (populateLibraryFromTracklist L) emptyLibrary)).2
          = .thrown e →
      rebuildLibrary L fuel self (.fulfilled arrayAllTrackLists) dbPut =
        ({ library := (rebuildIndexes L fuel arrayIndexDefinitions
              (arrayAllTrackLists.foldl (populateLibraryFromTracklist L) emptyLibrary)).1.toJS,
           libraryReady := .rejected (.raised e) },
          .rejected (.error "Library Rebuild Error: " (.raised e)))) ∧
    (∀ arrayAllTrackLists dbPut,
      (rebuildIndexes L fuel arrayIndexDefinitions
        (arrayAllTrackLists.foldl (populateLibraryFromTracklist L) emptyLibrary)).2
          = .value () →
      dbPut (rebuildIndexes L fuel arrayIndexDefinitions
        (arrayAllTrackLists.foldl (populateLibraryFromTracklist L) emptyLibrary)).1.toJS
          = .rejected reason →
      rebuildLibrary L fuel self (.fulfilled arrayAllTrackLists) dbPut =
        ({ library := (rebuildIndexes L fuel arrayIndexDefinitions
              (arrayAllTrackLists.foldl (populateLibraryFromTracklist L) emptyLibrary)).1.toJS,
           libraryReady := .rejected reason },
          .rejected (.error "Library Rebuild Error: " reason))) ∧
    loadLibraryFromDB self (.rejected reason) =
      ({ library := .obj [], libraryReady := .rejected reason },
        .rejected (.error "Error reading DB: " reason)) := by
  refine ⟨fun _ => rfl, ?_, ?_, rfl⟩
  · intro lists dbPut e h
    simp only [rebuildLibrary, h]
  · intro lists dbPut h1 h2
    simp only [rebuildLibrary, h1, h2]

set_option maxRecDepth 100000 in
set_option maxHeartbeats 4000000 in
theorem C14_failure_witness :
    rebuildLibrary sampleLibs 11 (exampleController sampleLibs) (.fulfilled [[exampleRecord]])
        (fun _ => .rejected (.given (.str "disk full"))) =
      ({ library := (rebuildIndexes sampleLibs 11 arrayIndexDefinitions
            ([[exampleRecord]].foldl (populateLibraryFromTracklist sampleLibs)
              emptyLibrary)).1.toJS,
         libraryReady := .rejected (.given (.str "disk full")) },
        .rejected (.error "Library Rebuild Error: " (.given (.str "disk full")))) :=
  (C14_failure_leaves_reset_catalog sampleLibs 11 (exampleController sampleLibs)
    (.given (.str "disk full"))).2.2.1 [[exampleRecord]] _ rfl rfl

/-- C14 (as stated) fails: a controller holding the catalog of the end-to-end example loses
it when a rebuild fails at the track-list provider (the catalog is then the empty six-table
catalog) and when a load fails to read the snapshot (the catalog is then the empty
object). -/
theorem C14_failure_counterexample :
    (rebuildLibrary sampleLibs 11 (exampleController sampleLibs)
        (.rejected (.given (.str "no provider"))) (fun _ => .fulfilled ())).1.library
      = emptyLibrary.toJS ∧
    (loadLibraryFromDB (exampleController sampleLibs)
        (.rejected (.given (.str "NotFound")))).1.library = .obj [] ∧
    (exampleController sampleLibs).library ≠ emptyLibrary.toJS ∧
    (exampleController sampleLibs).library ≠ .obj [] := by
  refine ⟨rfl, rfl, ?_, ?_⟩
  · simp [exampleController, exampleLibrary, emptyLibrary, Library.toJS, tableToJS]
  · simp [exampleController, Library.toJS]

/-! ## Every reference of an ingested library resolves -/

theorem EachEntity.eachMono {P Q : String → Entity → Prop} {t : Table} (h : EachEntity P t)
    (hPQ : ∀ k e, P k e → Q k e) : EachEntity Q t :=
  fun k e he => hPQ k e (h k e he)

theorem EachEntity.eachModify {P : String → Entity → Prop} {t : Table} (h : EachEntity P t)
    (k0 : String) (f : Entity → Entity) (hf : ∀ e, P k0 e → P k0 (f e)) :
    EachEntity P (objModify t k0 f) := by
  intro k e he
  rcases objGet_objModify_some he with ⟨_, h'⟩ | ⟨rfl, e0, h', rfl⟩
  · exact h k e h'
  · exact hf e0 (h _ e0 h')

theorem EachEntity.eachEnsure {P : String → Entity → Prop} {t : Table} (h : EachEntity P t)
    (k0 : String) (d : Entity) (hd : P k0 d) : EachEntity P (ensure t k0 d) := by
  intro k e he
  rcases objGet_ensure_some he with h' | ⟨rfl, rfl⟩
  · exact h k e h'
  · exact hd

theorem EachEntity.eachSet {P : String → Entity → Prop} {t : Table} (h : EachEntity P t)
    (k0 : String) (d : Entity) (hd : P k0 d) : EachEntity P (objSet t k0 d) := by
  intro k e he
  rw [objGet_objSet] at he
  by_cases hk : k0 = k
  · subst hk
    simp only [if_true] at he
    rw [← Option.some.inj he]
    exact hd
  · simp only [if_neg hk] at he
    exact h k e he

theorem isSome_objGet_objSet (t : Table) (k k' : String) (e : Entity)
    (h : (objGet t k').isSome = true) : (objGet (objSet t k e) k').isSome = true := by
  rw [objGet_objSet]
  by_cases hk : k = k'
  · simp [hk]
  · simpa [hk] using h

theorem isSome_objGet_objSet_self (t : Table) (k : String) (e : Entity) :
    (objGet (objSet t k e) k).isSome = true := by
  simp [objGet_objSet]

theorem RefsInto.refsMono {pre : String} {t t' : Table} {refs : List String}
    (h : RefsInto pre t refs)
    (hm : ∀ k, (objGet t k).isSome = true → (objGet t' k).isSome = true) :
    RefsInto pre t' refs := by
  intro r hr
  obtain ⟨k, rfl, hk⟩ := h r hr
  exact ⟨k, rfl, hm k hk⟩

theorem RefsInto.refsInsert {pre : String} {t : Table} {refs : List String}
    (h : RefsInto pre t refs) (k : String) (hk : (objGet t k).isSome = true) :
    RefsInto pre t (keyInsert refs (pre ++ k)) := by
  intro r hr
  rcases (mem_keyInsert _ _ _).1 hr with hr' | rfl
  · exact h r hr'
  · exact ⟨k, rfl, hk⟩

theorem refsInto_nil (pre : String) (t : Table) : RefsInto pre t [] := by
  intro r hr
  simp at hr

theorem EntityOK.okMono {cpre ppre k : String} {ctbl ctbl' ptbl ptbl' : Table} {e : Entity}
    (h : EntityOK cpre ctbl ppre ptbl k e)
    (hc : ∀ k, (objGet ctbl k).isSome = true → (objGet ctbl' k).isSome = true)
    (hp : ∀ k, (objGet ptbl k).isSome = true → (objGet ptbl' k).isSome = true) :
    EntityOK cpre ctbl' ppre ptbl' k e :=
  ⟨h.key, h.plain, h.id, h.children.refsMono hc, h.parents.refsMono hp⟩

theorem EntityOK.okMonoTo {cpre ppre k : String} {ctbl ptbl : Table} {e : Entity}
    (h : EntityOK cpre ctbl ppre ptbl k e) (ctbl' ptbl' : Table)
    (hc : ∀ k, (objGet ctbl k).isSome = true → (objGet ctbl' k).isSome = true)
    (hp : ∀ k, (objGet ptbl k).isSome = true → (objGet ptbl' k).isSome = true) :
    EntityOK cpre ctbl' ppre ptbl' k e :=
  h.okMono hc hp

theorem EntityOK.okAddChild {cpre ppre k : String} {ctbl ptbl : Table} {e : Entity}
    (h : EntityOK cpre ctbl ppre ptbl k e) (k0 : String)
    (h0 : (objGet ctbl k0).isSome = true) :
    EntityOK cpre ctbl ppre ptbl k (Entity.addChild (cpre ++ k0) e) :=
  ⟨h.key, h.plain, h.id, h.children.refsInsert k0 h0, h.parents⟩

theorem EntityOK.okAddParent {cpre ppre k : String} {ctbl ptbl : Table} {e : Entity}
    (h : EntityOK cpre ctbl ppre ptbl k e) (k0 : String)
    (h0 : (objGet ptbl k0).isSome = true) :
    EntityOK cpre ctbl ppre ptbl k (Entity.addParent (ppre ++ k0) e) :=
  ⟨h.key, h.plain, h.id, h.children, h.parents.refsInsert k0 h0⟩

theorem entityOK_named (cpre ppre : String) (ctbl ptbl : Table) (name k type : String)
    (hk : IsKey k) : EntityOK cpre ctbl ppre ptbl k (Entity.named name k type) :=
  ⟨hk, plain_named _ _ _, by simp [Entity.named, objGet], refsInto_nil _ _, refsInto_nil _ _⟩

theorem named_named (name k type : String) : (Entity.named name k type).Named :=
  ⟨name, by simp [Entity.named, objGet]⟩

theorem sound_empty : Sound emptyLibrary := by
  constructor <;> intro k e he <;> simp [emptyLibrary, objGet] at he

theorem Sound.soundGenreStep {library : Library} (h : Sound library) (L : Libs) (ka g : String)
    (hka : (objGet library.artist ka).isSome = true) :
    Sound (genreStep L ka library g) ∧
      ((objGet (genreStep L ka library g).artist ka).isSome = true) := by
  have hgen : ∀ k, (objGet library.genre k).isSome = true →
      (objGet (genreStep L ka library g).genre k).isSome = true := by
    intro k hk
    rw [genreStep_genre, isSome_objGet_objModify]
    exact isSome_objGet_ensure _ _ _ _ hk
  have hart : ∀ k, (objGet library.artist k).isSome = true →
      (objGet (genreStep L ka library g).artist k).isSome = true := by
    intro k hk
    rw [genreStep_artist, isSome_objGet_objModify]
    exact hk
  have hself : (objGet (genreStep L ka library g).genre (convertStringToHashkey L (some g))).isSome
      = true := by
    rw [genreStep_genre, isSome_objGet_objModify]
    exact isSome_objGet_ensure_self _ _ _
  refine ⟨⟨?_, ?_, ?_, ?_, ?_, ?_, ?_, ?_, ?_, ?_⟩, hart ka hka⟩
  · have h1 := h.genre.eachMono (fun k e he => he.okMono hart (fun _ hk => hk))
    have h2 := (h1.eachEnsure (convertStringToHashkey L (some g))
      (Entity.named g (convertStringToHashkey L (some g)) "genre")
      (entityOK_named _ _ _ _ _ _ _ (isKey_hashkey L _))).eachModify
      (convertStringToHashkey L (some g)) (Entity.addChild ("artist:" ++ ka))
      (fun e he => he.okAddChild ka (hart ka hka))
    rw [genreStep_genre]
    exact h2
  · have h1 := h.artist.eachMono (fun k e he => he.okMonoTo
      ((genreStep L ka library g).album) _ (by rw [genreStep_album]; exact fun _ hk => hk)
      hgen)
    have h2 := h1.eachModify ka
      (Entity.addParent ("genre:" ++ convertStringToHashkey L (some g)))
      (fun e he => he.okAddParent _ hself)
    rw [genreStep_artist]
    exact h2
  · have h1 := h.album.eachMono (fun k e he => he.okMonoTo
      ((genreStep L ka library g).track) _ (by rw [genreStep_track]; exact fun _ hk => hk)
      hart)
    rw [genreStep_album]
    exact h1
  · rw [genreStep_track, genreStep_item, genreStep_album]
    exact h.track
  · rw [genreStep_track, genreStep_item]
    exact h.item
  · rw [genreStep_genre]
    exact (h.genreNamed.eachEnsure _ _ (named_named _ _ _)).eachModify _ _ (fun _ he => he)
  · rw [genreStep_artist]
    exact h.artistNamed.eachModify _ _ (fun _ he => he)
  · rw [genreStep_album]
    exact h.albumNamed
  · rw [genreStep_track]
    exact h.trackNamed
  · rw [genreStep_track]
    exact h.trackHasParent
theorem Sound.soundGenreLoop {library : Library} (h : Sound library) (L : Libs) (ka : String)
    (gs : List String) (hka : (objGet library.artist ka).isSome = true) :
    Sound (gs.foldl (genreStep L ka) library) := by
  induction gs generalizing library with
  | nil => exact h
  | cons g gs ih =>
    obtain ⟨h1, h2⟩ := h.soundGenreStep L ka g hka
    exact ih h1 h2

theorem Sound.soundArtistLinked {library : Library} (h : Sound library) (L : Libs)
    (kal a : String) (hkal : (objGet library.album kal).isSome = true) :
    Sound (artistLinked L kal library a) := by
  have hart : ∀ k, (objGet library.artist k).isSome = true →
      (objGet (artistLinked L kal library a).artist k).isSome = true := by
    intro k hk
    show (objGet (objModify (ensure _ _ _) _ _) k).isSome = true
    rw [isSome_objGet_objModify]
    exact isSome_objGet_ensure _ _ _ _ hk
  have halb : ∀ k, (objGet library.album k).isSome = true →
      (objGet (artistLinked L kal library a).album k).isSome = true := by
    intro k hk
    show (objGet (objModify _ _ _) k).isSome = true
    rw [isSome_objGet_objModify]
    exact hk
  have hself : (objGet (artistLinked L kal library a).artist
      (convertStringToHashkey L (some a))).isSome = true := by
    show (objGet (objModify (ensure _ _ _) _ _) _).isSome = true
    rw [isSome_objGet_objModify]
    exact isSome_objGet_ensure_self _ _ _
  refine ⟨?_, ?_, ?_, ?_, ?_, ?_, ?_, ?_, ?_, ?_⟩
  · exact h.genre.eachMono (fun k e he => he.okMono hart (fun _ hk => hk))
  · have h1 := h.artist.eachMono (fun k e he => he.okMonoTo _
      ((artistLinked L kal library a).genre) halb (fun _ hk => hk))
    exact (h1.eachEnsure (convertStringToHashkey L (some a))
      (Entity.named a (convertStringToHashkey L (some a)) "artist")
      (entityOK_named _ _ _ _ _ _ _ (isKey_hashkey L _))).eachModify
      (convertStringToHashkey L (some a)) (Entity.addChild ("album:" ++ kal))
      (fun e he => he.okAddChild kal (halb kal hkal))
  · have h1 := h.album.eachMono (fun k e he => he.okMonoTo
      ((artistLinked L kal library a).track) _ (fun _ hk => hk) hart)
    exact h1.eachModify kal
      (Entity.addParent ("artist:" ++ convertStringToHashkey L (some a)))
      (fun e he => he.okAddParent _ hself)
  · exact h.track.eachMono (fun k e he => he.okMonoTo
      ((artistLinked L kal library a).item) _ (fun _ hk => hk) halb)
  · exact h.item
  · exact h.genreNamed
  · exact (h.artistNamed.eachEnsure _ _ (named_named _ _ _)).eachModify _ _ (fun _ he => he)
  · exact h.albumNamed.eachModify _ _ (fun _ he => he)
  · exact h.trackNamed
  · exact h.trackHasParent

theorem Sound.soundArtistStep {library : Library} (h : Sound library) (L : Libs)
    (kal : String) (gs : List String) (a : String)
    (hkal : (objGet library.album kal).isSome = true) :
    Sound (artistStep L kal gs library a) ∧
      (objGet (artistStep L kal gs library a).album kal).isSome = true := by
  rw [artistStep_eq]
  constructor
  · apply (h.soundArtistLinked L kal a hkal).soundGenreLoop L _ gs
    show (objGet (objModify (ensure _ _ _) _ _) _).isSome = true
    rw [isSome_objGet_objModify]
    exact isSome_objGet_ensure_self _ _ _
  · rw [genreLoop_album]
    show (objGet (objModify _ _ _) kal).isSome = true
    rw [isSome_objGet_objModify]
    exact hkal

theorem Sound.soundArtistLoop {library : Library} (h : Sound library) (L : Libs)
    (kal : String) (gs : List String) (as : List String)
    (hkal : (objGet library.album kal).isSome = true) :
    Sound (as.foldl (artistStep L kal gs) library) := by
  induction as generalizing library with
  | nil => exact h
  | cons a as ih =>
    obtain ⟨h1, h2⟩ := h.soundArtistStep L kal gs a hkal
    exact ih h1 h2

theorem keyInsert_ne_nil (ks : List String) (k : String) : keyInsert ks k ≠ [] := by
  intro h
  have : k ∈ keyInsert ks k := (mem_keyInsert ks k k).2 (Or.inr rfl)
  rw [h] at this
  simp at this

theorem Sound.soundTrackLinked {library : Library} (h : Sound library) (L : Libs)
    (sService sUri sTitle sAlbum : String) (arrayArtists : List String)
    (nTrackNumber dateTrackDate : JSVal) :
    Sound (trackLinked L library sService sUri sTitle sAlbum arrayArtists nTrackNumber
      dateTrackDate) ∧
    (objGet (trackLinked L library sService sUri sTitle sAlbum arrayArtists nTrackNumber
      dateTrackDate).album (albumKey L sAlbum arrayArtists)).isSome = true := by
  have hitem : ∀ k, (objGet library.item k).isSome = true →
      (objGet (trackLinked L library sService sUri sTitle sAlbum arrayArtists nTrackNumber
        dateTrackDate).item k).isSome = true := by
    intro k hk
    show (objGet (objModify (objSet _ _ _) _ _) k).isSome = true
    rw [isSome_objGet_objModify]
    exact isSome_objGet_objSet _ _ _ _ hk
  have htrack : ∀ k, (objGet library.track k).isSome = true →
      (objGet (trackLinked L library sService sUri sTitle sAlbum arrayArtists nTrackNumber
        dateTrackDate).track k).isSome = true := by
    intro k hk
    show (objGet (objModify (objModify (ensure _ _ _) _ _) _ _) k).isSome = true
    rw [isSome_objGet_objModify, isSome_objGet_objModify]
    exact isSome_objGet_ensure _ _ _ _ hk
  have halbum : ∀ k, (objGet library.album k).isSome = true →
      (objGet (trackLinked L library sService sUri sTitle sAlbum arrayArtists nTrackNumber
        dateTrackDate).album k).isSome = true := by
    intro k hk
    show (objGet (objModify (ensure _ _ _) _ _) k).isSome = true
    rw [isSome_objGet_objModify]
    exact isSome_objGet_ensure _ _ _ _ hk
  have hitemSelf : (objGet (trackLinked L library sService sUri sTitle sAlbum arrayArtists
      nTrackNumber dateTrackDate).item (convertStringToHashkey L (some (sService ++ sUri)))).isSome
        = true := by
    show (objGet (objModify (objSet _ _ _) _ _) _).isSome = true
    rw [isSome_objGet_objModify]
    exact isSome_objGet_objSet_self _ _ _
  have htrackSelf : (objGet (trackLinked L library sService sUri sTitle sAlbum arrayArtists
      nTrackNumber dateTrackDate).track (convertStringToHashkey L (some (sAlbum ++ sTitle)))).isSome
        = true := by
    show (objGet (objModify (objModify (ensure _ _ _) _ _) _ _) _).isSome = true
    rw [isSome_objGet_objModify, isSome_objGet_objModify]
    exact isSome_objGet_ensure_self _ _ _
  have halbumSelf : (objGet (trackLinked L library sService sUri sTitle sAlbum arrayArtists
      nTrackNumber dateTrackDate).album (albumKey L sAlbum arrayArtists)).isSome = true := by
    show (objGet (objModify (ensure _ _ _) _ _) _).isSome = true
    rw [isSome_objGet_objModify]
    exact isSome_objGet_ensure_self _ _ _
  refine ⟨⟨?_, ?_, ?_, ?_, ?_, ?_, ?_, ?_, ?_, ?_⟩, halbumSelf⟩
  · exact h.genre
  · exact h.artist.eachMono (fun k e he => he.okMono halbum (fun _ hk => hk))
  · have h1 := h.album.eachMono (fun k e he => he.okMonoTo _ (library.artist) htrack
      (fun _ hk => hk))
    exact (h1.eachEnsure (albumKey L sAlbum arrayArtists)
      (Entity.named sAlbum (albumKey L sAlbum arrayArtists) "album")
      (entityOK_named _ _ _ _ _ _ _ (isKey_albumKey L _ _))).eachModify
      (albumKey L sAlbum arrayArtists)
      (Entity.addChild ("track:" ++ convertStringToHashkey L (some (sAlbum ++ sTitle))))
      (fun e he => he.okAddChild _ htrackSelf)
  · have h1 := h.track.eachMono (fun k e he => he.okMono hitem halbum)
    exact ((h1.eachEnsure (convertStringToHashkey L (some (sAlbum ++ sTitle))) _
      ⟨isKey_hashkey L _, by constructor <;> simp [objGet], by simp [objGet],
        refsInto_nil _ _, refsInto_nil _ _⟩).eachModify _
      (Entity.addChild ("item:" ++ convertStringToHashkey L (some (sService ++ sUri))))
      (fun e he => he.okAddChild _ hitemSelf)).eachModify _
      (Entity.addParent ("album:" ++ albumKey L sAlbum arrayArtists))
      (fun e he => he.okAddParent _ halbumSelf)
  · have h1 := h.item.eachMono (fun k e he => he.okMono (fun _ hk => hk) htrack)
    exact (h1.eachSet (convertStringToHashkey L (some (sService ++ sUri))) _
      ⟨isKey_hashkey L _, by constructor <;> simp [objGet], by simp [objGet],
        refsInto_nil _ _, refsInto_nil _ _⟩).eachModify _
      (Entity.addParent ("track:" ++ convertStringToHashkey L (some (sAlbum ++ sTitle))))
      (fun e he => he.okAddParent _ htrackSelf)
  · exact h.genreNamed
  · exact h.artistNamed
  · exact (h.albumNamed.eachEnsure (albumKey L sAlbum arrayArtists)
      (Entity.named sAlbum (albumKey L sAlbum arrayArtists) "album")
      (named_named _ _ _)).eachModify (albumKey L sAlbum arrayArtists)
      (Entity.addChild ("track:" ++ convertStringToHashkey L (some (sAlbum ++ sTitle))))
      (fun _ he => he)
  · have hnamed : Entity.Named
        { fields := [("name", .str sTitle),
            ("id", .str (convertStringToHashkey L (some (sAlbum ++ sTitle)))),
            ("type", .str "track"), ("tracknumber", nTrackNumber), ("date", dateTrackDate)],
          children := [], parents := [] } := ⟨sTitle, by simp [objGet]⟩
    exact ((h.trackNamed.eachEnsure (convertStringToHashkey L (some (sAlbum ++ sTitle))) _
      hnamed).eachModify (convertStringToHashkey L (some (sAlbum ++ sTitle)))
      (Entity.addChild ("item:" ++ convertStringToHashkey L (some (sService ++ sUri))))
      (fun _ he => he)).eachModify (convertStringToHashkey L (some (sAlbum ++ sTitle)))
      (Entity.addParent ("album:" ++ albumKey L sAlbum arrayArtists)) (fun _ he => he)
  · intro k e he
    rcases objGet_objModify_some he with ⟨_, h'⟩ | ⟨_, e0, _, rfl⟩
    · rcases objGet_objModify_some h' with ⟨_, h''⟩ | ⟨hk, _, _, _⟩
      · rcases objGet_ensure_some h'' with h3 | ⟨hk, _⟩
        · exact h.trackHasParent k e h3
        · contradiction
      · contradiction
    · exact keyInsert_ne_nil _ _

theorem Sound.soundAddLibraryItem {library : Library} (h : Sound library) (L : Libs)
    (sService sUri sTitle sAlbum : String) (arrayArtists arrayGenres : List String)
    (nTrackNumber dateTrackDate : JSVal) :
    Sound (addLibraryItem L library sService sUri sTitle sAlbum arrayArtists arrayGenres
      nTrackNumber dateTrackDate) := by
  rw [addLibraryItem_eq]
  obtain ⟨h1, h2⟩ := h.soundTrackLinked L sService sUri sTitle sAlbum arrayArtists
    nTrackNumber dateTrackDate
  exact h1.soundArtistLoop L _ _ _ h2

theorem sound_populate (L : Libs) (rs : List TrackRecord) {library : Library}
    (h : Sound library) : Sound (populateLibraryFromTracklist L library rs) := by
  unfold populateLibraryFromTracklist
  induction rs generalizing library with
  | nil => exact h
  | cons r rs ih => exact ih (h.soundAddLibraryItem L _ _ _ _ _ _ _ _)
theorem refsInto_empty {pre : String} {refs : List String} (h : RefsInto pre [] refs) :
    refs = [] := by
  cases refs with
  | nil => rfl
  | cons r rest =>
    obtain ⟨k, _, hk⟩ := h r (List.mem_cons_self _ _)
    simp [objGet] at hk

theorem resolves_of_refsInto (library : Library) (sTableName pre : String) (tbl : Table)
    (hpre : pre = sTableName ++ ":") (htable : library.table sTableName = some tbl)
    (hids : EachEntity (fun k e => objGet e.fields "id" = some (.str k)) tbl)
    (refs : List String) (h : RefsInto pre tbl refs) : ∀ ref ∈ refs, Resolves library ref := by
  intro ref href
  obtain ⟨k, rfl, hk⟩ := h ref href
  obtain ⟨target, ht⟩ := isSome_iff_exists hk
  exact ⟨sTableName, k, tbl, target, by rw [hpre], htable, ht, hids k target ht⟩

theorem Sound.resolves {library : Library} (h : Sound library) (tbl : Table)
    (htbl : tbl ∈ library.tables) (k : String) (e : Entity) (he : objGet tbl k = some e) :
    objGet e.fields "id" = some (.str k) ∧
    (∀ ref ∈ e.children, Resolves library ref) ∧ (∀ ref ∈ e.parents, Resolves library ref) := by
  have hg : EachEntity (fun k e => objGet e.fields "id" = some (.str k)) library.genre :=
    h.genre.eachMono (fun _ _ h => h.id)
  have ha : EachEntity (fun k e => objGet e.fields "id" = some (.str k)) library.artist :=
    h.artist.eachMono (fun _ _ h => h.id)
  have hal : EachEntity (fun k e => objGet e.fields "id" = some (.str k)) library.album :=
    h.album.eachMono (fun _ _ h => h.id)
  have ht : EachEntity (fun k e => objGet e.fields "id" = some (.str k)) library.track :=
    h.track.eachMono (fun _ _ h => h.id)
  have hi : EachEntity (fun k e => objGet e.fields "id" = some (.str k)) library.item :=
    h.item.eachMono (fun _ _ h => h.id)
  simp only [Library.tables, List.mem_cons, List.mem_singleton, List.mem_nil_iff, or_false]
    at htbl
  rcases htbl with rfl | rfl | rfl | rfl | rfl
  · have hk := h.genre k e he
    refine ⟨hk.id, resolves_of_refsInto library "artist" _ _ (by decide) rfl ha _ hk.children, ?_⟩
    rw [refsInto_empty hk.parents]
    simp
  · have hk := h.artist k e he
    exact ⟨hk.id, resolves_of_refsInto library "album" _ _ (by decide) rfl hal _ hk.children,
      resolves_of_refsInto library "genre" _ _ (by decide) rfl hg _ hk.parents⟩
  · have hk := h.album k e he
    exact ⟨hk.id, resolves_of_refsInto library "track" _ _ (by decide) rfl ht _ hk.children,
      resolves_of_refsInto library "artist" _ _ (by decide) rfl ha _ hk.parents⟩
  · have hk := h.track k e he
    exact ⟨hk.id, resolves_of_refsInto library "item" _ _ (by decide) rfl hi _ hk.children,
      resolves_of_refsInto library "album" _ _ (by decide) rfl hal _ hk.parents⟩
  · have hk := h.item k e he
    refine ⟨hk.id, ?_, resolves_of_refsInto library "track" _ _ (by decide) rfl ht _ hk.parents⟩
    rw [refsInto_empty hk.children]
    simp

/-- C20: after ingesting any finite sequence of track records into the empty library, every
entity of each of the five tables is stored under the key its own `id` field holds, and every
key in its children set or its parents set is `type:id` for an entity that the table of that
type holds under `id`, whose `id` field is `id`. -/
theorem C20_no_dangling_references (L : Libs) (rs : List TrackRecord) (tbl : Table)
    (htbl : tbl ∈ (populateLibraryFromTracklist L emptyLibrary rs).tables)
    (k : String) (e : Entity) (he : objGet tbl k = some e) :
    objGet e.fields "id" = some (.str k) ∧
    (∀ ref ∈ e.children, Resolves (populateLibraryFromTracklist L emptyLibrary rs) ref) ∧
    (∀ ref ∈ e.parents, Resolves (populateLibraryFromTracklist L emptyLibrary rs) ref) :=
  (sound_populate L rs sound_empty).resolves tbl htbl k e he

theorem example_track (L : Libs) :
    objGet (populateLibraryFromTracklist L emptyLibrary [exampleRecord]).track
      (convertStringToHashkey L (some ("Album1" ++ "Song"))) = some (exampleTrack L) := by
  rw [populate_single, ingest_example]
  simp [objGet, exampleLibrary]

theorem C20_no_dangling_witness :
    (populateLibraryFromTracklist sampleLibs emptyLibrary [exampleRecord]).track ∈
      (populateLibraryFromTracklist sampleLibs emptyLibrary [exampleRecord]).tables ∧
    objGet (populateLibraryFromTracklist sampleLibs emptyLibrary [exampleRecord]).track
      (convertStringToHashkey sampleLibs (some ("Album1" ++ "Song")))
        = some (exampleTrack sampleLibs) ∧
    objGet (exampleTrack sampleLibs).fields "id"
      = some (.str (convertStringToHashkey sampleLibs (some ("Album1" ++ "Song")))) ∧
    (∀ ref ∈ (exampleTrack sampleLibs).children,
      Resolves (populateLibraryFromTracklist sampleLibs emptyLibrary [exampleRecord]) ref) ∧
    (∀ ref ∈ (exampleTrack sampleLibs).parents,
      Resolves (populateLibraryFromTracklist sampleLibs emptyLibrary [exampleRecord]) ref) :=
  ⟨by simp [Library.tables], example_track sampleLibs,
    C20_no_dangling_references sampleLibs [exampleRecord] _ (by simp [Library.tables]) _ _
      (example_track sampleLibs)⟩

/-! ## The predefined indexes on an ingested library -/

theorem reduceArray_strs (L : Libs) (names : List String) :
    ∀ (nIndex : Nat) (sReturn : JSVal),
      ∃ flat, reduceArray L (names.map JSVal.str) nIndex sReturn = .value flat := by
  induction names with
  | nil => intro n s; exact ⟨s, rfl⟩
  | cons x rest ih =>
    intro n s
    simp only [List.map_cons, reduceArray, flattenArrayToCSV]
    exact ih _ _

theorem flatten_strs (L : Libs) (names : List String) :
    ∃ flat, flattenArrayToCSV L (.arr (names.map JSVal.str)) = .value flat := by
  rw [flattenArrayToCSV]
  exact reduceArray_strs L names 0 _

/-- Resolving `t:k:name` from the root gives the name of the entity stored under `k`. -/
theorem resolve_name (library : Library) (fuel : Nat) (t k : String) (tbl : Table) (e : Entity)
    (ht : getProp library.toJS t = .value (tableToJS tbl))
    (h0 : ':' ∉ t.data) (h1 : t ≠ "#") (h2 : sliceTo t 1 ≠ "#")
    (hk : IsKey k) (he : objGet tbl k = some e) (s : String)
    (hs : objGet e.fields "name" = some (.str s)) :
    getLibraryObject library.toJS (fuel + 3) library.toJS (t ++ ":" ++ k ++ ":" ++ "name") =
      .value (.str s) := by
  rw [getLibraryObject_ref library.toJS (fuel + 1) t k "name" tbl e ht h0 h1 h2 hk he,
    getLibraryObject_last _ _ _ _ (by decide), getProp_name, hs]
  rfl

/-- The path `parents:#:name` on an entity whose parents are named entities of the table
`pt`: the names of the parents. -/
theorem fanout_names (library : Library) (fuel : Nat) (e : Entity) (hplain : e.Plain)
    (pt pre : String) (ptbl : Table) (hpre : pre = pt ++ ":")
    (ht : getProp library.toJS pt = .value (tableToJS ptbl))
    (h0 : ':' ∉ pt.data) (h1 : pt ≠ "#") (h2 : sliceTo pt 1 ≠ "#")
    (hrefs : RefsInto pre ptbl e.parents)
    (hkeys : EachEntity (fun k _ => IsKey k) ptbl)
    (hnamed : EachEntity (fun _ e => e.Named) ptbl) :
    ∃ names : List String,
      getLibraryObject library.toJS (fuel + 5) e.toJS "parents:#:name" =
        .value (.arr (names.map JSVal.str)) := by
  have hp : "parents:#:name" = "parents" ++ ":" ++ ("#" ++ ":" ++ "name") := by decide
  rw [hp, getLibraryObject_parents _ _ _ _ hplain, getLibraryObject_all_keySet]
  obtain ⟨names, _, hm⟩ := mapOutcome_forall2
    (fun curUid => getLibraryObject library.toJS (fuel + 3) library.toJS (curUid ++ ":" ++ "name"))
    (fun _ (_ : String) => True) JSVal.str e.parents
    (by
      intro ref href
      obtain ⟨k, rfl, hs⟩ := hrefs ref href
      obtain ⟨p, hp⟩ := isSome_iff_exists hs
      obtain ⟨s, hs⟩ := hnamed k p hp
      refine ⟨s, trivial, ?_⟩
      rw [hpre]
      exact resolve_name library fuel pt k ptbl p ht h0 h1 h2 (hkeys k p hp) hp s hs)
  exact ⟨names, by rw [hm]; rfl⟩

/-- The step `parents:#0` on an entity with a parent continues at its first parent. -/
theorem pick_first_parent (library : Library) (fuel : Nat) (e : Entity) (hplain : e.Plain)
    (hne : e.parents ≠ []) (pt pre : String) (ptbl : Table) (hpre : pre = pt ++ ":")
    (ht : getProp library.toJS pt = .value (tableToJS ptbl))
    (h0 : ':' ∉ pt.data) (h1 : pt ≠ "#") (h2 : sliceTo pt 1 ≠ "#")
    (hrefs : RefsInto pre ptbl e.parents)
    (hkeys : EachEntity (fun k _ => IsKey k) ptbl) (p : String) :
    ∃ k parent, e.parents.head? = some (pre ++ k) ∧ objGet ptbl k = some parent ∧
      getLibraryObject library.toJS (fuel + 4) e.toJS
          ("parents" ++ ":" ++ ("#" ++ toString 0 ++ ":" ++ p)) =
        getLibraryObject library.toJS fuel parent.toJS p := by
  have hn : 0 < e.parents.length := List.length_pos.2 hne
  obtain ⟨k, hk, hs⟩ := hrefs (e.parents[0]) (List.getElem_mem _)
  obtain ⟨parent, hparent⟩ := isSome_iff_exists hs
  refine ⟨k, parent, ?_, hparent, ?_⟩
  · rw [← hk]
    rw [List.head?_eq_getElem?, List.getElem?_eq_getElem hn]
  · rw [getLibraryObject_parents _ _ _ _ hplain,
      getLibraryObject_pick_keySet _ _ _ _ _ hn, hk, hpre]
    exact getLibraryObject_ref library.toJS fuel pt k p ptbl parent ht h0 h1 h2
      (hkeys k parent hparent) hparent
theorem Sound.genreKeyed {library : Library} (h : Sound library) :
    EachEntity (fun k _ => IsKey k) library.genre := h.genre.eachMono (fun _ _ h => h.key)

theorem Sound.artistKeyed {library : Library} (h : Sound library) :
    EachEntity (fun k _ => IsKey k) library.artist := h.artist.eachMono (fun _ _ h => h.key)

theorem Sound.albumKeyed {library : Library} (h : Sound library) :
    EachEntity (fun k _ => IsKey k) library.album := h.album.eachMono (fun _ _ h => h.key)

theorem Sound.trackKeyed {library : Library} (h : Sound library) :
    EachEntity (fun k _ => IsKey k) library.track := h.track.eachMono (fun _ _ h => h.key)

/-- The path `name` resolves to a text at every entity of a table of named entities. -/
theorem sound_name (L : Libs) (library : Library) (fuel : Nat) (t k : String) (tbl : Table)
    (ht : getProp library.toJS t = .value (tableToJS tbl))
    (h0 : ':' ∉ t.data) (h1 : t ≠ "#") (h2 : sliceTo t 1 ≠ "#")
    (hkeys : EachEntity (fun k _ => IsKey k) tbl) (hnamed : EachEntity (fun _ e => e.Named) tbl)
    (hk : k ∈ objKeys tbl) :
    ∃ v, resolveFlat L library.toJS (fuel + 11) (t ++ ":" ++ k) "name" = .value v := by
  obtain ⟨e, he⟩ := objGet_of_mem_keys tbl k hk
  obtain ⟨s, hs⟩ := hnamed k e he
  refine ⟨.str s, ?_⟩
  unfold resolveFlat
  rw [resolve_name library (fuel + 8) t k tbl e ht h0 h1 h2 (hkeys k e he) he s hs]
  rfl

/-- The path `parents:#:name` resolves at every entity of a table whose parents are named
entities of the table `pt`. -/
theorem sound_parent_names (L : Libs) (library : Library) (fuel : Nat) (t k : String)
    (tbl : Table) (ht : getProp library.toJS t = .value (tableToJS tbl))
    (h0 : ':' ∉ t.data) (h1 : t ≠ "#") (h2 : sliceTo t 1 ≠ "#")
    (pt pre : String) (ptbl ctbl : Table) (cpre : String) (hpre : pre = pt ++ ":")
    (hpt : getProp library.toJS pt = .value (tableToJS ptbl))
    (hp0 : ':' ∉ pt.data) (hp1 : pt ≠ "#") (hp2 : sliceTo pt 1 ≠ "#")
    (hok : EachEntity (EntityOK cpre ctbl pre ptbl) tbl)
    (hkeys : EachEntity (fun k _ => IsKey k) ptbl)
    (hnamed : EachEntity (fun _ e => e.Named) ptbl)
    (hk : k ∈ objKeys tbl) :
    ∃ v, resolveFlat L library.toJS (fuel + 11) (t ++ ":" ++ k) "parents:#:name"
      = .value v := by
  obtain ⟨e, he⟩ := objGet_of_mem_keys tbl k hk
  have hE := hok k e he
  obtain ⟨names, hnames⟩ := fanout_names library (fuel + 4) e hE.plain pt pre ptbl hpre hpt
    hp0 hp1 hp2 hE.parents hkeys hnamed
  obtain ⟨flat, hflat⟩ := flatten_strs L names
  refine ⟨flat, ?_⟩
  unfold resolveFlat
  rw [getLibraryObject_ref library.toJS (fuel + 9) t k _ tbl e ht h0 h1 h2 hE.key he, hnames]
  exact hflat

/-- The path `parents:#0:name` resolves at every track of a sound library. -/
theorem sound_track_album {library : Library} (h : Sound library) (L : Libs) (fuel : Nat)
    (k : String) (hk : k ∈ objKeys library.track) :
    ∃ v, resolveFlat L library.toJS (fuel + 11) ("track" ++ ":" ++ k) "parents:#0:name"
      = .value v := by
  obtain ⟨e, he⟩ := objGet_of_mem_keys library.track k hk
  have hE := h.track k e he
  have hp : "parents:#0:name" = "parents" ++ ":" ++ ("#" ++ toString 0 ++ ":" ++ "name") := by
    decide
  obtain ⟨ka, album, _, halbum, hres⟩ := pick_first_parent library (fuel + 5) e hE.plain
    (h.trackHasParent k e he) "album" "album:" library.album (by decide)
    (getProp_root_album library) (by decide) (by decide) (by decide) hE.parents h.albumKeyed
    "name"
  obtain ⟨s, hs⟩ := h.albumNamed ka album halbum
  refine ⟨.str s, ?_⟩
  unfold resolveFlat
  rw [getLibraryObject_ref library.toJS (fuel + 9) "track" k _ library.track e
      (getProp_root_track library) (by decide) (by decide) (by decide) hE.key he, hp, hres,
    getLibraryObject_last _ _ _ _ (by decide), getProp_name, hs]
  rfl

/-- The path `parents:#0:parents:#:name` resolves at every track of a sound library. -/
theorem sound_track_artists {library : Library} (h : Sound library) (L : Libs) (fuel : Nat)
    (k : String) (hk : k ∈ objKeys library.track) :
    ∃ v, resolveFlat L library.toJS (fuel + 11) ("track" ++ ":" ++ k)
      "parents:#0:parents:#:name" = .value v := by
  obtain ⟨e, he⟩ := objGet_of_mem_keys library.track k hk
  have hE := h.track k e he
  have hp : "parents:#0:parents:#:name" =
      "parents" ++ ":" ++ ("#" ++ toString 0 ++ ":" ++ "parents:#:name") := by decide
  obtain ⟨ka, album, _, halbum, hres⟩ := pick_first_parent library (fuel + 5) e hE.plain
    (h.trackHasParent k e he) "album" "album:" library.album (by decide)
    (getProp_root_album library) (by decide) (by decide) (by decide) hE.parents h.albumKeyed
    "parents:#:name"
  have hA := h.album ka album halbum
  obtain ⟨names, hnames⟩ := fanout_names library fuel album hA.plain "artist" "artist:"
    library.artist (by decide) (getProp_root_artist library) (by decide) (by decide)
    (by decide) hA.parents h.artistKeyed h.artistNamed
  obtain ⟨flat, hflat⟩ := flatten_strs L names
  refine ⟨flat, ?_⟩
  unfold resolveFlat
  rw [getLibraryObject_ref library.toJS (fuel + 9) "track" k _ library.track e
      (getProp_root_track library) (by decide) (by decide) (by decide) hE.key he, hp, hres,
    hnames]
  exact hflat
theorem objGet_cons_some {β : Type} {a : String} {b : β} {rest : List (String × β)}
    {name : String} {v : β} (h : objGet ((a, b) :: rest) name = some v) :
    v = b ∨ objGet rest name = some v := by
  by_cases ha : a = name
  · left
    simp only [objGet, if_pos ha] at h
    exact (Option.some.inj h).symm
  · right
    simpa only [objGet, if_neg ha] using h

theorem objGet_nil_some {β : Type} {name : String} {v : β}
    (h : objGet ([] : List (String × β)) name = some v) : False := by
  simp [objGet] at h

/-- On a sound library, the sort path and every field path of a predefined index definition
resolve, flattened, at every key of the definition's table. -/
theorem Sound.definitionResolves {library : Library} (h : Sound library) (L : Libs)
    (fuel : Nat) (d : IndexDefinition) (hd : d ∈ arrayIndexDefinitions) :
    ∃ keys, libraryKeys library d.table = some keys ∧
      ∀ k ∈ keys, ∀ path, (path = d.sortby ∨ ∃ name, objGet d.datafields name = some path) →
        ∃ v, resolveFlat L library.toJS (fuel + 11) (d.table ++ ":" ++ k) path = .value v := by
  have hgenre : ∀ k ∈ objKeys library.genre,
      ∃ v, resolveFlat L library.toJS (fuel + 11) ("genre" ++ ":" ++ k) "name" = .value v :=
    fun k hk => sound_name L library fuel "genre" k library.genre (getProp_root_genre library)
      (by decide) (by decide) (by decide) h.genreKeyed h.genreNamed hk
  have hartist : ∀ k ∈ objKeys library.artist,
      ∃ v, resolveFlat L library.toJS (fuel + 11) ("artist" ++ ":" ++ k) "name" = .value v :=
    fun k hk => sound_name L library fuel "artist" k library.artist (getProp_root_artist library)
      (by decide) (by decide) (by decide) h.artistKeyed h.artistNamed hk
  have halbum : ∀ k ∈ objKeys library.album,
      ∃ v, resolveFlat L library.toJS (fuel + 11) ("album" ++ ":" ++ k) "name" = .value v :=
    fun k hk => sound_name L library fuel "album" k library.album (getProp_root_album library)
      (by decide) (by decide) (by decide) h.albumKeyed h.albumNamed hk
  have htrack : ∀ k ∈ objKeys library.track,
      ∃ v, resolveFlat L library.toJS (fuel + 11) ("track" ++ ":" ++ k) "name" = .value v :=
    fun k hk => sound_name L library fuel "track" k library.track (getProp_root_track library)
      (by decide) (by decide) (by decide) h.trackKeyed h.trackNamed hk
  have hartistGenres : ∀ k ∈ objKeys library.artist,
      ∃ v, resolveFlat L library.toJS (fuel + 11) ("artist" ++ ":" ++ k) "parents:#:name"
        = .value v :=
    fun k hk => sound_parent_names L library fuel "artist" k library.artist
      (getProp_root_artist library) (by decide) (by decide) (by decide)
      "genre" "genre:" library.genre library.album "album:" (by decide)
      (getProp_root_genre library) (by decide) (by decide) (by decide)
      h.artist h.genreKeyed h.genreNamed hk
  have halbumArtists : ∀ k ∈ objKeys library.album,
      ∃ v, resolveFlat L library.toJS (fuel + 11) ("album" ++ ":" ++ k) "parents:#:name"
        = .value v :=
    fun k hk => sound_parent_names L library fuel "album" k library.album
      (getProp_root_album library) (by decide) (by decide) (by decide)
      "artist" "artist:" library.artist library.track "track:" (by decide)
      (getProp_root_artist library) (by decide) (by decide) (by decide)
      h.album h.artistKeyed h.artistNamed hk
  simp only [arrayIndexDefinitions, List.mem_cons, List.mem_singleton, List.mem_nil_iff,
    or_false] at hd
  rcases hd with rfl | rfl | rfl | rfl | rfl
  · refine ⟨objKeys library.genre, rfl, ?_⟩
    rintro k hk path (rfl | ⟨name, hname⟩)
    · exact hgenre k hk
    · rcases objGet_cons_some hname with rfl | hname
      · exact hgenre k hk
      · exact (objGet_nil_some hname).elim
  · refine ⟨objKeys library.artist, rfl, ?_⟩
    rintro k hk path (rfl | ⟨name, hname⟩)
    · exact hartist k hk
    · rcases objGet_cons_some hname with rfl | hname
      · exact hartist k hk
      · rcases objGet_cons_some hname with rfl | hname
        · exact hartistGenres k hk
        · exact (objGet_nil_some hname).elim
  · refine ⟨objKeys library.album, rfl, ?_⟩
    rintro k hk path (rfl | ⟨name, hname⟩)
    · exact halbum k hk
    · rcases objGet_cons_some hname with rfl | hname
      · exact halbum k hk
      · rcases objGet_cons_some hname with rfl | hname
        · exact halbumArtists k hk
        · exact (objGet_nil_some hname).elim
  · refine ⟨objKeys library.album, rfl, ?_⟩
    rintro k hk path (rfl | ⟨name, hname⟩)
    · exact halbumArtists k hk
    · rcases objGet_cons_some hname with rfl | hname
      · exact halbum k hk
      · rcases objGet_cons_some hname with rfl | hname
        · exact halbumArtists k hk
        · exact (objGet_nil_some hname).elim
  · refine ⟨objKeys library.track, rfl, ?_⟩
    rintro k hk path (rfl | ⟨name, hname⟩)
    · exact htrack k hk
    · rcases objGet_cons_some hname with rfl | hname
      · exact htrack k hk
      · rcases objGet_cons_some hname with rfl | hname
        · exact sound_track_album h L fuel k hk
        · rcases objGet_cons_some hname with rfl | hname
          · exact sound_track_artists h L fuel k hk
          · exact (objGet_nil_some hname).elim

theorem Sound.withIndex {library : Library} (h : Sound library) (index : List (String × JSVal)) :
    Sound { library with index := index } :=
  ⟨h.genre, h.artist, h.album, h.track, h.item, h.genreNamed, h.artistNamed, h.albumNamed,
    h.trackNamed, h.trackHasParent⟩

/-- On a sound library, building a predefined index succeeds and stores it. -/
theorem Sound.rebuildSingleIndexOk {library : Library} (h : Sound library) (L : Libs)
    (fuel : Nat) (d : IndexDefinition) (hd : d ∈ arrayIndexDefinitions) :
    ∃ indexed, rebuildSingleIndex L (fuel + 11) library d = .value indexed ∧ Sound indexed ∧
      (objGet indexed.index d.name).isSome = true := by
  obtain ⟨keys, hkeys, hres⟩ := h.definitionResolves L fuel d hd
  obtain ⟨rows, hrows, _⟩ := rows_spec L library.toJS (fuel + 11)
    (keys.map (fun curKey => d.table ++ ":" ++ curKey)) d.sortby d.datafields
    (by
      intro uid hu
      obtain ⟨k, hk, rfl⟩ := List.mem_map.1 hu
      exact hres k hk _ (Or.inl rfl))
    (by
      intro uid hu name path hp
      obtain ⟨k, hk, rfl⟩ := List.mem_map.1 hu
      exact hres k hk _ (Or.inr ⟨name, hp⟩))
  refine ⟨_, ?_, h.withIndex (objSet library.index d.name
    (.arr (((L.sortOn rows).map SortRow.toEntry).map IndexEntry.toJS))), ?_⟩
  · unfold rebuildSingleIndex
    rw [hkeys]
    simp only
    rw [generateSortedIndex_eq L library.toJS (fuel + 11) _ d.sortby d.datafields rows hrows]
    rfl
  · simp [objGet_objSet]

theorem sound_rebuildIndexes (L : Libs) (fuel : Nat) (ds : List IndexDefinition) :
    (∀ d ∈ ds, d ∈ arrayIndexDefinitions) → ∀ library : Library, Sound library →
      (rebuildIndexes L (fuel + 11) ds library).2 = .value () := by
  induction ds with
  | nil => intro _ _ _; rfl
  | cons d ds ih =>
    intro hds library h
    obtain ⟨indexed, hval, hsound, _⟩ :=
      h.rebuildSingleIndexOk L fuel d (hds d (List.mem_cons_self _ _))
    rw [rebuildIndexes, hval]
    exact ih (fun d' hd' => hds d' (List.mem_cons_of_mem _ hd')) indexed hsound

theorem resolveFlat_value {L : Libs} {library : JSVal} {fuel : Nat} {uid path : String}
    {flat : JSVal} (h : resolveFlat L library fuel uid path = .value flat) :
    ∃ v, getLibraryObject library fuel library (uid ++ ":" ++ path) = .value v ∧
      flattenArrayToCSV L v = .value flat := by
  unfold resolveFlat at h
  cases hv : getLibraryObject library fuel library (uid ++ ":" ++ path) with
  | value v =>
    rw [hv] at h
    exact ⟨v, rfl, h⟩
  | thrown e => rw [hv] at h; simp [Outcome.bind] at h
  | outOfFuel => rw [hv] at h; simp [Outcome.bind] at h

/-- C19: after ingesting any finite sequence of track records into the empty library, each
of the five predefined index definitions names a table of the library, and its sort path and
each of its field paths resolve at every key of that table, to a value that
`flattenArrayToCSV` accepts; every track has a first parent, which is an album of the
library; and building the five indexes succeeds. -/
theorem C19_predefined_indexes_never_fail (L : Libs) (rs : List TrackRecord) (fuel : Nat) :
    (∀ d ∈ arrayIndexDefinitions,
      ∃ keys, libraryKeys (populateLibraryFromTracklist L emptyLibrary rs) d.table = some keys ∧
        ∀ k ∈ keys, ∀ path,
          (path = d.sortby ∨ ∃ name, objGet d.datafields name = some path) →
          ∃ v flat,
            getLibraryObject (populateLibraryFromTracklist L emptyLibrary rs).toJS (fuel + 11)
              (populateLibraryFromTracklist L emptyLibrary rs).toJS
              (d.table ++ ":" ++ k ++ ":" ++ path) = .value v ∧
            flattenArrayToCSV L v = .value flat) ∧
    (∀ k track, objGet (populateLibraryFromTracklist L emptyLibrary rs).track k = some track →
      ∃ ka album, track.parents.head? = some ("album:" ++ ka) ∧
        objGet (populateLibraryFromTracklist L emptyLibrary rs).album ka = some album) ∧
    (rebuildIndexes L (fuel + 11) arrayIndexDefinitions
      (populateLibraryFromTracklist L emptyLibrary rs)).2 = .value () := by
  have h := sound_populate L rs sound_empty
  refine ⟨?_, ?_, sound_rebuildIndexes L fuel _ (fun _ hd => hd) _ h⟩
  · intro d hd
    obtain ⟨keys, hkeys, hres⟩ := h.definitionResolves L fuel d hd
    refine ⟨keys, hkeys, ?_⟩
    intro k hk path hpath
    obtain ⟨flat, hflat⟩ := hres k hk path hpath
    obtain ⟨v, hv, hf⟩ := resolveFlat_value hflat
    exact ⟨v, flat, hv, hf⟩
  · intro k track ht
    have hE := h.track k track ht
    obtain ⟨ka, album, hhead, halbum, _⟩ := pick_first_parent
      (populateLibraryFromTracklist L emptyLibrary rs) fuel track hE.plain
      (h.trackHasParent k track ht) "album" "album:" _ (by decide)
      (getProp_root_album _) (by decide) (by decide) (by decide) hE.parents h.albumKeyed "name"
    exact ⟨ka, album, hhead, halbum⟩

set_option maxRecDepth 100000 in
theorem C19_predefined_indexes_witness :
    (rebuildIndexes sampleLibs 11 arrayIndexDefinitions
      (populateLibraryFromTracklist sampleLibs emptyLibrary [exampleRecord])).2 = .value () ∧
    (∃ ka album, (exampleTrack sampleLibs).parents.head? = some ("album:" ++ ka) ∧
      objGet (populateLibraryFromTracklist sampleLibs emptyLibrary [exampleRecord]).album ka
        = some album) :=
  ⟨(C19_predefined_indexes_never_fail sampleLibs [exampleRecord] 0).2.2,
    (C19_predefined_indexes_never_fail sampleLibs [exampleRecord] 0).2.1 _ _
      (example_track sampleLibs)⟩

/-! ## What ingestion adds to each table -/

theorem adds_ensure (t : Table) (k0 : String) (d : Entity) (hc : d.children = [])
    (hp : d.parents = []) : Adds t (ensure t k0 d) (Edges.key k0) := by
  constructor
  · intro k
    unfold Present
    rw [objGet_ensure]
    by_cases hk : k0 = k
    · subst hk
      simp [Edges.key]
    · have hk' : ¬ k = k0 := fun e => hk e.symm
      simp [Edges.key, hk, hk']
  · intro k c
    unfold ChildIn
    rw [objGet_ensure]
    by_cases hk : k0 = k
    · subst hk
      cases h : objGet t k0 with
      | none => simp [Edges.key, hc]
      | some e => simp [Edges.key]
    · simp [Edges.key, hk]
  · intro k p
    unfold ParentIn
    rw [objGet_ensure]
    by_cases hk : k0 = k
    · subst hk
      cases h : objGet t k0 with
      | none => simp [Edges.key, hp]
      | some e => simp [Edges.key]
    · simp [Edges.key, hk]

theorem adds_addChild (t : Table) (k0 c0 : String) (h : Present t k0) :
    Adds t (objModify t k0 (Entity.addChild c0)) (Edges.childEdge k0 c0) := by
  obtain ⟨e0, he0⟩ := h
  constructor
  · intro k
    unfold Present
    rw [objGet_objModify]
    by_cases hk : k0 = k
    · subst hk
      simp [Edges.childEdge, he0]
    · simp [Edges.childEdge, hk]
  · intro k c
    unfold ChildIn
    rw [objGet_objModify]
    by_cases hk : k0 = k
    · subst hk
      simp [Edges.childEdge, he0, Entity.addChild, mem_keyInsert]
    · have hk' : ¬ k = k0 := fun e => hk e.symm
      simp [Edges.childEdge, hk, hk']
  · intro k p
    unfold ParentIn
    rw [objGet_objModify]
    by_cases hk : k0 = k
    · subst hk
      simp [Edges.childEdge, he0, Entity.addChild]
    · simp [Edges.childEdge, hk]

theorem adds_addParent (t : Table) (k0 p0 : String) (h : Present t k0) :
    Adds t (objModify t k0 (Entity.addParent p0)) (Edges.parentEdge k0 p0) := by
  obtain ⟨e0, he0⟩ := h
  constructor
  · intro k
    unfold Present
    rw [objGet_objModify]
    by_cases hk : k0 = k
    · subst hk
      simp [Edges.parentEdge, he0]
    · simp [Edges.parentEdge, hk]
  · intro k c
    unfold ChildIn
    rw [objGet_objModify]
    by_cases hk : k0 = k
    · subst hk
      simp [Edges.parentEdge, he0, Entity.addParent]
    · simp [Edges.parentEdge, hk]
  · intro k p
    unfold ParentIn
    rw [objGet_objModify]
    by_cases hk : k0 = k
    · subst hk
      simp [Edges.parentEdge, he0, Entity.addParent, mem_keyInsert]
    · have hk' : ¬ k = k0 := fun e => hk e.symm
      simp [Edges.parentEdge, hk, hk']

theorem Adds.addsTrans {t t' t'' : Table} {E E' : Edges} (h : Adds t t' E)
    (h' : Adds t' t'' E') : Adds t t'' (E.union E') := by
  constructor
  · intro k
    rw [h'.present, h.present]
    simp only [Edges.union, or_assoc]
  · intro k c
    rw [h'.child, h.child]
    simp only [Edges.union, or_assoc]
  · intro k p
    rw [h'.parent, h.parent]
    simp only [Edges.union, or_assoc]

theorem Adds.keepsKey {t t' : Table} {E : Edges} (h : Adds t t' E) {k : String}
    (hk : Present t k) : Present t' k :=
  (h.present k).2 (Or.inl hk)

theorem Adds.hasKey {t t' : Table} {E : Edges} (h : Adds t t' E) {k : String}
    (hk : E.keys k) : Present t' k :=
  (h.present k).2 (Or.inr hk)

/-- A loop whose body adds `E a` to a table adds the edges of all its elements. -/
theorem adds_foldl {σ α : Type} (f : σ → α → σ) (proj : σ → Table) (I : σ → Prop)
    (E : α → Edges) (hI : ∀ s a, I s → I (f s a))
    (hstep : ∀ s a, I s → Adds (proj s) (proj (f s a)) (E a)) :
    ∀ (xs : List α) (s : σ), I s → Adds (proj s) (proj (xs.foldl f s)) (Edges.over xs E) := by
  intro xs
  induction xs with
  | nil =>
    intro s _
    constructor <;> intros <;> simp [Edges.over]
  | cons a xs ih =>
    intro s hs
    have h1 := hstep s a hs
    have h2 := ih (f s a) (hI s a hs)
    constructor
    · intro k
      rw [List.foldl_cons, h2.present, h1.present]
      simp only [Edges.over, List.exists_mem_cons_iff, or_assoc]
    · intro k c
      rw [List.foldl_cons, h2.child, h1.child]
      simp only [Edges.over, List.exists_mem_cons_iff, or_assoc]
    · intro k p
      rw [List.foldl_cons, h2.parent, h1.parent]
      simp only [Edges.over, List.exists_mem_cons_iff, or_assoc]
theorem genreStep_adds_genre (L : Libs) (ka : String) (s : Library) (g : String) :
    Adds s.genre (genreStep L ka s g).genre (genreStepGenreEdges L ka g) := by
  rw [genreStep_genre]
  exact (adds_ensure _ _ _ rfl rfl).addsTrans (adds_addChild _ _ _ (present_ensure _ _ _))

theorem genreStep_adds_artist (L : Libs) (ka : String) (s : Library) (g : String)
    (h : Present s.artist ka) :
    Adds s.artist (genreStep L ka s g).artist (genreStepArtistEdges L ka g) := by
  rw [genreStep_artist]
  exact adds_addParent _ _ _ h

theorem genreLoop_adds_genre (L : Libs) (ka : String) (gs : List String) (s : Library)
    (h : Present s.artist ka) :
    Adds s.genre (gs.foldl (genreStep L ka) s).genre
      (Edges.over gs (genreStepGenreEdges L ka)) :=
  adds_foldl (genreStep L ka) (fun s => s.genre) (fun s => Present s.artist ka)
    (genreStepGenreEdges L ka)
    (fun s g hs => (genreStep_adds_artist L ka s g hs).keepsKey hs)
    (fun s g _ => genreStep_adds_genre L ka s g) gs s h

theorem genreLoop_adds_artist (L : Libs) (ka : String) (gs : List String) (s : Library)
    (h : Present s.artist ka) :
    Adds s.artist (gs.foldl (genreStep L ka) s).artist
      (Edges.over gs (genreStepArtistEdges L ka)) :=
  adds_foldl (genreStep L ka) (fun s => s.artist) (fun s => Present s.artist ka)
    (genreStepArtistEdges L ka)
    (fun s g hs => (genreStep_adds_artist L ka s g hs).keepsKey hs)
    (fun s g hs => genreStep_adds_artist L ka s g hs) gs s h

theorem artistLinked_present (L : Libs) (kal : String) (s : Library) (a : String) :
    Present (artistLinked L kal s a).artist (convertStringToHashkey L (some a)) :=
  (adds_addChild _ _ _ (present_ensure _ _ _)).keepsKey (present_ensure _ _ _)

theorem artistStep_adds_genre (L : Libs) (kal : String) (gs : List String) (s : Library)
    (a : String) :
    Adds s.genre (artistStep L kal gs s a).genre (artistStepGenreEdges L gs a) := by
  rw [artistStep_eq]
  exact genreLoop_adds_genre L _ gs (artistLinked L kal s a) (artistLinked_present L kal s a)

theorem artistStep_adds_artist (L : Libs) (kal : String) (gs : List String) (s : Library)
    (a : String) :
    Adds s.artist (artistStep L kal gs s a).artist (artistStepArtistEdges L kal gs a) := by
  rw [artistStep_eq]
  have h1 : Adds s.artist (artistLinked L kal s a).artist
      ((Edges.key (convertStringToHashkey L (some a))).union
        (Edges.childEdge (convertStringToHashkey L (some a)) ("album:" ++ kal))) :=
    (adds_ensure _ _ _ rfl rfl).addsTrans (adds_addChild _ _ _ (present_ensure _ _ _))
  exact h1.addsTrans
    (genreLoop_adds_artist L _ gs (artistLinked L kal s a) (artistLinked_present L kal s a))

theorem artistStep_adds_album (L : Libs) (kal : String) (gs : List String) (s : Library)
    (a : String) (h : Present s.album kal) :
    Adds s.album (artistStep L kal gs s a).album (artistStepAlbumEdges L kal a) := by
  rw [artistStep_eq, genreLoop_album]
  exact adds_addParent _ _ _ h

theorem artistLoop_adds_genre (L : Libs) (kal : String) (gs as : List String) (s : Library) :
    Adds s.genre (as.foldl (artistStep L kal gs) s).genre
      (Edges.over as (artistStepGenreEdges L gs)) :=
  adds_foldl (artistStep L kal gs) (fun s => s.genre) (fun _ => True)
    (artistStepGenreEdges L gs) (fun _ _ _ => trivial)
    (fun s a _ => artistStep_adds_genre L kal gs s a) as s trivial

theorem artistLoop_adds_artist (L : Libs) (kal : String) (gs as : List String) (s : Library) :
    Adds s.artist (as.foldl (artistStep L kal gs) s).artist
      (Edges.over as (artistStepArtistEdges L kal gs)) :=
  adds_foldl (artistStep L kal gs) (fun s => s.artist) (fun _ => True)
    (artistStepArtistEdges L kal gs) (fun _ _ _ => trivial)
    (fun s a _ => artistStep_adds_artist L kal gs s a) as s trivial

theorem artistLoop_adds_album (L : Libs) (kal : String) (gs as : List String) (s : Library)
    (h : Present s.album kal) :
    Adds s.album (as.foldl (artistStep L kal gs) s).album
      (Edges.over as (artistStepAlbumEdges L kal)) :=
  adds_foldl (artistStep L kal gs) (fun s => s.album) (fun s => Present s.album kal)
    (artistStepAlbumEdges L kal)
    (fun s a hs => (artistStep_adds_album L kal gs s a hs).keepsKey hs)
    (fun s a hs => artistStep_adds_album L kal gs s a hs) as s h

theorem ingest_adds_genre (L : Libs) (s : Library) (r : TrackRecord) :
    Adds s.genre (ingest L s r).genre (recordGenreEdges L r) := by
  unfold ingest
  rw [addLibraryItem_eq]
  exact artistLoop_adds_genre L _ r.genres r.artists
    (trackLinked L s r.service r.uri r.title r.album r.artists r.tracknumber r.date)

theorem ingest_adds_artist (L : Libs) (s : Library) (r : TrackRecord) :
    Adds s.artist (ingest L s r).artist (recordArtistEdges L r) := by
  unfold ingest
  rw [addLibraryItem_eq]
  exact artistLoop_adds_artist L _ r.genres r.artists
    (trackLinked L s r.service r.uri r.title r.album r.artists r.tracknumber r.date)

theorem ingest_adds_album (L : Libs) (s : Library) (r : TrackRecord) :
    Adds s.album (ingest L s r).album (recordAlbumEdges L r) := by
  unfold ingest
  rw [addLibraryItem_eq]
  have h1 : Adds s.album
      (trackLinked L s r.service r.uri r.title r.album r.artists r.tracknumber r.date).album
      ((Edges.key (albumKey L r.album r.artists)).union
        (Edges.childEdge (albumKey L r.album r.artists)
          ("track:" ++ convertStringToHashkey L (some (r.album ++ r.title))))) :=
    (adds_ensure _ _ _ rfl rfl).addsTrans (adds_addChild _ _ _ (present_ensure _ _ _))
  exact h1.addsTrans (artistLoop_adds_album L _ r.genres r.artists _
    (h1.hasKey (Or.inl rfl)))

theorem ingest_adds_track (L : Libs) (s : Library) (r : TrackRecord) :
    Adds s.track (ingest L s r).track (recordTrackEdges L r) := by
  rw [ingest_track]
  have h1 := (adds_ensure s.track (convertStringToHashkey L (some (r.album ++ r.title)))
    { fields := [("name", .str r.title),
        ("id", .str (convertStringToHashkey L (some (r.album ++ r.title)))),
        ("type", .str "track"), ("tracknumber", r.tracknumber), ("date", r.date)],
      children := [], parents := [] } rfl rfl).addsTrans
    (adds_addChild _ _ ("item:" ++ convertStringToHashkey L (some (r.service ++ r.uri)))
      (present_ensure _ _ _))
  exact h1.addsTrans (adds_addParent _ _ _ (h1.hasKey (Or.inl rfl)))

theorem ingest_item_present (L : Libs) (s : Library) (r : TrackRecord) (k : String) :
    Present (ingest L s r).item k ↔
      Present s.item k ∨ k = convertStringToHashkey L (some (r.service ++ r.uri)) := by
  rw [ingest_item]
  unfold Present
  simp only [objGet_objModify, objGet_objSet]
  by_cases hk : convertStringToHashkey L (some (r.service ++ r.uri)) = k
  · subst hk
    simp
  · have hk' : ¬ k = convertStringToHashkey L (some (r.service ++ r.uri)) := fun e => hk e.symm
    simp [hk, hk']

theorem populate_adds (L : Libs) (rs : List TrackRecord) (s : Library) :
    Adds s.genre (populateLibraryFromTracklist L s rs).genre
      (Edges.over rs (recordGenreEdges L)) ∧
    Adds s.artist (populateLibraryFromTracklist L s rs).artist
      (Edges.over rs (recordArtistEdges L)) ∧
    Adds s.album (populateLibraryFromTracklist L s rs).album
      (Edges.over rs (recordAlbumEdges L)) ∧
    Adds s.track (populateLibraryFromTracklist L s rs).track
      (Edges.over rs (recordTrackEdges L)) :=
  ⟨adds_foldl (ingest L) (fun s => s.genre) (fun _ => True) (recordGenreEdges L)
      (fun _ _ _ => trivial) (fun s r _ => ingest_adds_genre L s r) rs s trivial,
    adds_foldl (ingest L) (fun s => s.artist) (fun _ => True) (recordArtistEdges L)
      (fun _ _ _ => trivial) (fun s r _ => ingest_adds_artist L s r) rs s trivial,
    adds_foldl (ingest L) (fun s => s.album) (fun _ => True) (recordAlbumEdges L)
      (fun _ _ _ => trivial) (fun s r _ => ingest_adds_album L s r) rs s trivial,
    adds_foldl (ingest L) (fun s => s.track) (fun _ => True) (recordTrackEdges L)
      (fun _ _ _ => trivial) (fun s r _ => ingest_adds_track L s r) rs s trivial⟩

theorem populate_item_present (L : Libs) (rs : List TrackRecord) (s : Library) (k : String) :
    Present (populateLibraryFromTracklist L s rs).item k ↔
      Present s.item k ∨
        ∃ r ∈ rs, k = convertStringToHashkey L (some (r.service ++ r.uri)) := by
  unfold populateLibraryFromTracklist
  induction rs generalizing s with
  | nil => simp
  | cons r rs ih =>
    rw [List.foldl_cons, ih, ingest_item_present]
    simp only [List.exists_mem_cons_iff, or_assoc]

theorem Adds.sameTable {t t1 t2 : Table} {E1 E2 : Edges} (h1 : Adds t t1 E1)
    (h2 : Adds t t2 E2) (hk : ∀ k, E1.keys k ↔ E2.keys k)
    (hc : ∀ k c, E1.child k c ↔ E2.child k c) (hp : ∀ k p, E1.parent k p ↔ E2.parent k p) :
    SameTable t1 t2 := by
  constructor
  · intro k
    rw [h1.present, h2.present, hk]
  · intro k c
    rw [h1.child, h2.child, hc]
  · intro k p
    rw [h1.parent, h2.parent, hp]

theorem over_perm {α : Type} {xs ys : List α} (h : xs.Perm ys) (E : α → Edges) :
    (∀ k, (Edges.over xs E).keys k ↔ (Edges.over ys E).keys k) ∧
    (∀ k c, (Edges.over xs E).child k c ↔ (Edges.over ys E).child k c) ∧
    (∀ k p, (Edges.over xs E).parent k p ↔ (Edges.over ys E).parent k p) := by
  refine ⟨fun k => ?_, fun k c => ?_, fun k p => ?_⟩ <;>
  · simp only [Edges.over]
    constructor
    · rintro ⟨x, hx, hE⟩
      exact ⟨x, h.mem_iff.1 hx, hE⟩
    · rintro ⟨x, hx, hE⟩
      exact ⟨x, h.mem_iff.2 hx, hE⟩

/-- Ingesting the same records in another order into the same library gives the same
graph. -/
theorem sameGraph_of_perm (L : Libs) (s : Library) {rs rs' : List TrackRecord}
    (h : rs.Perm rs') :
    SameGraph (populateLibraryFromTracklist L s rs) (populateLibraryFromTracklist L s rs') := by
  obtain ⟨g1, a1, al1, t1⟩ := populate_adds L rs s
  obtain ⟨g2, a2, al2, t2⟩ := populate_adds L rs' s
  refine ⟨?_, ?_, ?_, ?_, ?_⟩
  · obtain ⟨hk, hc, hp⟩ := over_perm h (recordGenreEdges L)
    exact g1.sameTable g2 hk hc hp
  · obtain ⟨hk, hc, hp⟩ := over_perm h (recordArtistEdges L)
    exact a1.sameTable a2 hk hc hp
  · obtain ⟨hk, hc, hp⟩ := over_perm h (recordAlbumEdges L)
    exact al1.sameTable al2 hk hc hp
  · obtain ⟨hk, hc, hp⟩ := over_perm h (recordTrackEdges L)
    exact t1.sameTable t2 hk hc hp
  · intro k
    rw [populate_item_present, populate_item_present]
    constructor
    · rintro (hk | ⟨r, hr, hk⟩)
      · exact Or.inl hk
      · exact Or.inr ⟨r, h.mem_iff.1 hr, hk⟩
    · rintro (hk | ⟨r, hr, hk⟩)
      · exact Or.inl hk
      · exact Or.inr ⟨r, h.mem_iff.2 hr, hk⟩
/-- C15 (amended): ingesting two track records into the empty library in either order gives
the same graph: the same keys in each of the five tables and, for every genre, artist, album
and track, the same children and the same parents, compared as sets.  Nothing is said of
the attributes of an entity, nor of the parents of an item. -/
theorem C15_ingestion_order_keeps_graph (L : Libs) (r1 r2 : TrackRecord) :
    SameGraph (populateLibraryFromTracklist L emptyLibrary [r1, r2])
      (populateLibraryFromTracklist L emptyLibrary [r2, r1]) :=
  sameGraph_of_perm L emptyLibrary (List.Perm.swap r2 r1 [])

set_option maxRecDepth 100000 in
set_option maxHeartbeats 4000000 in
/-- C15 (as stated) fails: the example record and its reissue (same item, title, album,
artist and genre, another track number and date) are attached to one track, which keeps the
track number and date of whichever record is ingested first. -/
theorem C15_ingestion_order_counterexample :
    (objGet (populateLibraryFromTracklist sampleLibs emptyLibrary
        [exampleRecord, exampleReissue]).track
        (convertStringToHashkey sampleLibs (some ("Album1" ++ "Song")))).map
      (fun e => (objGet e.fields "tracknumber", objGet e.fields "date"))
      = some (some (.num 1), some (.str "2020")) ∧
    (objGet (populateLibraryFromTracklist sampleLibs emptyLibrary
        [exampleReissue, exampleRecord]).track
        (convertStringToHashkey sampleLibs (some ("Album1" ++ "Song")))).map
      (fun e => (objGet e.fields "tracknumber", objGet e.fields "date"))
      = some (some (.num 7), some (.str "1999")) :=
  ⟨rfl, rfl⟩

/-! ## The track a record is attached to -/

/-- Ingesting a record attaches it to exactly one track, the one under the hash key of the
album text followed by the title text. -/
theorem attachedTracks_eq (L : Libs) (library : Library) (r : TrackRecord) :
    attachedTracks L library r =
      ["track:" ++ convertStringToHashkey L (some (r.album ++ r.title))] := by
  unfold attachedTracks
  rw [ingest_item]
  simp [objGet_objModify, objGet_objSet, Entity.addParent, keyInsert]

/-- The track a record is attached to exists after the ingestion and lists the record's item
among its children. -/
theorem attachedTracks_child (L : Libs) (library : Library) (r : TrackRecord) :
    ∀ ref ∈ attachedTracks L library r, ∃ k, ref = "track:" ++ k ∧
      ChildIn (ingest L library r).track k
        ("item:" ++ convertStringToHashkey L (some (r.service ++ r.uri))) := by
  intro ref href
  rw [attachedTracks_eq, List.mem_singleton] at href
  refine ⟨_, href, ?_⟩
  exact ((ingest_adds_track L library r).child _ _).2
    (Or.inr (Or.inl (Or.inr ⟨rfl, rfl⟩)))

theorem append_right_cancel_text {a b c : String} (h : a ++ c = b ++ c) : a = b := by
  have hd := congrArg String.data h
  simp only [String.data_append] at hd
  exact String.ext (List.append_cancel_right hd)

theorem append_left_cancel_text {a b c : String} (h : a ++ b = a ++ c) : b = c := by
  have hd := congrArg String.data h
  simp only [String.data_append] at hd
  exact String.ext (List.append_cancel_left hd)

/-- C21 (amended): when the hash separates the two joined texts, two records, each ingested
into a catalog, are attached to the same track exactly if the album text followed by the
title text is the same for both; then they have the same album exactly if they have the
same title. -/
theorem C21_track_identity_by_joined_text (L : Libs) (s1 s2 : Library) (r1 r2 : TrackRecord)
    (hinj : convertStringToHashkey L (some (r1.album ++ r1.title)) =
        convertStringToHashkey L (some (r2.album ++ r2.title)) →
      r1.album ++ r1.title = r2.album ++ r2.title) :
    (attachedTracks L s1 r1 = attachedTracks L s2 r2 ↔
      r1.album ++ r1.title = r2.album ++ r2.title) ∧
    (attachedTracks L s1 r1 = attachedTracks L s2 r2 →
      (r1.album = r2.album ↔ r1.title = r2.title)) := by
  have hiff : attachedTracks L s1 r1 = attachedTracks L s2 r2 ↔
      r1.album ++ r1.title = r2.album ++ r2.title := by
    rw [attachedTracks_eq, attachedTracks_eq]
    constructor
    · intro h
      exact hinj (append_left_cancel_text (List.singleton_inj.1 h))
    · intro h
      rw [h]
  refine ⟨hiff, fun h => ?_⟩
  have hjoin := hiff.1 h
  constructor
  · intro ha
    rw [ha] at hjoin
    exact append_left_cancel_text hjoin
  · intro ht
    rw [ht] at hjoin
    exact append_right_cancel_text hjoin

set_option maxRecDepth 100000 in
theorem C21_track_identity_witness :
    (convertStringToHashkey sampleLibs (some (exampleRecord.album ++ exampleRecord.title)) =
        convertStringToHashkey sampleLibs
          (some (exampleRetitled.album ++ exampleRetitled.title)) →
      exampleRecord.album ++ exampleRecord.title =
        exampleRetitled.album ++ exampleRetitled.title) ∧
    (attachedTracks sampleLibs emptyLibrary exampleRecord =
        attachedTracks sampleLibs (ingest sampleLibs emptyLibrary exampleRecord)
          exampleRetitled ↔
      exampleRecord.album ++ exampleRecord.title =
        exampleRetitled.album ++ exampleRetitled.title) ∧
    (attachedTracks sampleLibs emptyLibrary exampleRecord =
        attachedTracks sampleLibs (ingest sampleLibs emptyLibrary exampleRecord)
          exampleRetitled →
      (exampleRecord.album = exampleRetitled.album ↔
        exampleRecord.title = exampleRetitled.title)) :=
  ⟨by decide,
    C21_track_identity_by_joined_text sampleLibs emptyLibrary
      (ingest sampleLibs emptyLibrary exampleRecord) exampleRecord exampleRetitled
      (by decide)⟩

/-- C21 (as stated) fails: the album `Never` with the title `minder` and the album
`Nevermind` with the title `er` differ in album and in title, and the two records are
attached to the same track, under every hash, since both join to the text `Neverminder`. -/
theorem C21_track_identity_counterexample :
    attachedTracks sampleLibs emptyLibrary joinedRecordA =
      attachedTracks sampleLibs (ingest sampleLibs emptyLibrary joinedRecordA) joinedRecordB ∧
    joinedRecordA.album ≠ joinedRecordB.album ∧ joinedRecordA.title ≠ joinedRecordB.title ∧
    joinedRecordA.album ++ joinedRecordA.title = joinedRecordB.album ++ joinedRecordB.title ∧
    (∀ (L : Libs) (library : Library),
      attachedTracks L library joinedRecordA =
        attachedTracks L (ingest L library joinedRecordA) joinedRecordB ∧
      ∃ k, ChildIn (populateLibraryFromTracklist L library [joinedRecordA, joinedRecordB]).track
          k ("item:" ++ convertStringToHashkey L (some ("s1" ++ "u1"))) ∧
        ChildIn (populateLibraryFromTracklist L library [joinedRecordA, joinedRecordB]).track
          k ("item:" ++ convertStringToHashkey L (some ("s1" ++ "u2")))) := by
  have hjoin : joinedRecordA.album ++ joinedRecordA.title =
      joinedRecordB.album ++ joinedRecordB.title := by decide
  refine ⟨?_, by decide, by decide, hjoin, ?_⟩
  · rw [attachedTracks_eq, attachedTracks_eq, hjoin]
  · intro L library
    refine ⟨by rw [attachedTracks_eq, attachedTracks_eq, hjoin], ?_⟩
    refine ⟨convertStringToHashkey L (some (joinedRecordB.album ++ joinedRecordB.title)), ?_, ?_⟩
    · show ChildIn (ingest L (ingest L library joinedRecordA) joinedRecordB).track _ _
      apply ((ingest_adds_track L _ joinedRecordB).child _ _).2
      left
      apply ((ingest_adds_track L library joinedRecordA).child _ _).2
      right
      rw [← hjoin]
      exact Or.inl (Or.inr ⟨rfl, rfl⟩)
    · show ChildIn (ingest L (ingest L library joinedRecordA) joinedRecordB).track _ _
      apply ((ingest_adds_track L _ joinedRecordB).child _ _).2
      right
      exact Or.inl (Or.inr ⟨rfl, rfl⟩)

/-! ## A listing of two tracks -/

/-- On an ingested library, the sort path and the field paths of `Tracks by Name` resolve at
the uid of every track. -/
theorem tracksByName_resolves (L : Libs) (rs : List TrackRecord) (fuel : Nat) (uid : String)
    (hu : uid ∈ tableUids "track" (populateLibraryFromTracklist L emptyLibrary rs).track)
    (path : String)
    (hp : path = tracksByName.sortby ∨ ∃ name, objGet tracksByName.datafields name = some path) :
    ∃ v, resolveFlat L (populateLibraryFromTracklist L emptyLibrary rs).toJS (fuel + 11) uid path
      = .value v := by
  have hd : tracksByName ∈ arrayIndexDefinitions := by
    simp [arrayIndexDefinitions, tracksByName]
  obtain ⟨keys, hkeys, hres⟩ :=
    (sound_populate L rs sound_empty).definitionResolves L fuel tracksByName hd
  have hk : keys = objKeys (populateLibraryFromTracklist L emptyLibrary rs).track :=
    (Option.some.inj hkeys).symm
  subst hk
  obtain ⟨k, hk, rfl⟩ := List.mem_map.1 hu
  exact hres k hk path hp

set_option maxRecDepth 100000 in
set_option maxHeartbeats 4000000 in
theorem C11_index_ordered_witness :
    sortedSampleLibs.sortOn = specSortOn ∧
    (∀ uid ∈ tableUids "track" (populateLibraryFromTracklist sortedSampleLibs emptyLibrary
        [laterAlbumRecord, earlierAlbumRecord]).track,
      ∃ sv, resolveFlat sortedSampleLibs (populateLibraryFromTracklist sortedSampleLibs
        emptyLibrary [laterAlbumRecord, earlierAlbumRecord]).toJS 11 uid
        tracksByName.sortby = .value sv) ∧
    (∀ uid ∈ tableUids "track" (populateLibraryFromTracklist sortedSampleLibs emptyLibrary
        [laterAlbumRecord, earlierAlbumRecord]).track,
      ∀ name path, objGet tracksByName.datafields name = some path →
      ∃ v, resolveFlat sortedSampleLibs (populateLibraryFromTracklist sortedSampleLibs
        emptyLibrary [laterAlbumRecord, earlierAlbumRecord]).toJS 11 uid path = .value v) ∧
    tableUids "track" (populateLibraryFromTracklist sortedSampleLibs emptyLibrary
        [laterAlbumRecord, earlierAlbumRecord]).track =
      ["track:" ++ convertStringToHashkey sortedSampleLibs (some ("AlbumB" ++ "SongB")),
        "track:" ++ convertStringToHashkey sortedSampleLibs (some ("AlbumA" ++ "SongA"))] ∧
    generateSortedIndex sortedSampleLibs (populateLibraryFromTracklist sortedSampleLibs
        emptyLibrary [laterAlbumRecord, earlierAlbumRecord]).toJS 11
        (tableUids "track" (populateLibraryFromTracklist sortedSampleLibs emptyLibrary
          [laterAlbumRecord, earlierAlbumRecord]).track) tracksByName.sortby
        tracksByName.datafields =
      .value
        [{ uid := "track:" ++ convertStringToHashkey sortedSampleLibs (some ("AlbumA" ++ "SongA")),
           datavalues := [("name", .str "SongA"), ("album", .str "AlbumA"),
             ("artists", .str "Artist1")] },
         { uid := "track:" ++ convertStringToHashkey sortedSampleLibs (some ("AlbumB" ++ "SongB")),
           datavalues := [("name", .str "SongB"), ("album", .str "AlbumB"),
             ("artists", .str "Artist1")] }] ∧
    (∃ listing : List IndexEntry,
      generateSortedIndex sortedSampleLibs (populateLibraryFromTracklist sortedSampleLibs
        emptyLibrary [laterAlbumRecord, earlierAlbumRecord]).toJS 11
        (tableUids "track" (populateLibraryFromTracklist sortedSampleLibs emptyLibrary
          [laterAlbumRecord, earlierAlbumRecord]).track) tracksByName.sortby
        tracksByName.datafields = .value listing ∧
      listing.Pairwise (fun e1 e2 => ∃ v1 v2,
        resolveFlat sortedSampleLibs (populateLibraryFromTracklist sortedSampleLibs
          emptyLibrary [laterAlbumRecord, earlierAlbumRecord]).toJS 11 e1.uid
          tracksByName.sortby = .value v1 ∧
        resolveFlat sortedSampleLibs (populateLibraryFromTracklist sortedSampleLibs
          emptyLibrary [laterAlbumRecord, earlierAlbumRecord]).toJS 11 e2.uid
          tracksByName.sortby = .value v2 ∧
        sortValueLe v1 v2 = true)) ∧
    (∀ a b : String, sortValueLe (.str a) (.str b) = true ↔ a ≤ b) ∧
    (∀ m n : Int, sortValueLe (.num m) (.num n) = true ↔ m ≤ n) :=
  ⟨rfl,
    fun uid hu => tracksByName_resolves sortedSampleLibs _ 0 uid hu _ (Or.inl rfl),
    fun uid hu name path hp =>
      tracksByName_resolves sortedSampleLibs _ 0 uid hu path (Or.inr ⟨name, hp⟩),
    rfl, rfl,
    C11_index_is_ordered sortedSampleLibs (populateLibraryFromTracklist sortedSampleLibs
        emptyLibrary [laterAlbumRecord, earlierAlbumRecord]).toJS 11
      (tableUids "track" (populateLibraryFromTracklist sortedSampleLibs emptyLibrary
        [laterAlbumRecord, earlierAlbumRecord]).track) tracksByName.sortby
      tracksByName.datafields rfl
      (fun uid hu => tracksByName_resolves sortedSampleLibs _ 0 uid hu _ (Or.inl rfl))
      (fun uid hu name path hp =>
        tracksByName_resolves sortedSampleLibs _ 0 uid hu path (Or.inr ⟨name, hp⟩))⟩

end CoreMusicLibrary
